import Mathlib

/-!
# Verification of the postgres-mcp dynamic SQL construction layer

Shallow embedding of the query-construction and execution-safety logic of the
postgres-mcp repository (`src/tools/utils.ts`, `deleteData.ts`, `updateData.ts`,
`queryTable.ts`, `insertData.ts`, and the free-form `executeQuery` tool), with
theorems settling the frozen claims about identifier validation, WHERE-clause
compilation, placeholder/parameter alignment, destructive-operation guards, the
dangerous-statement filter, numeric result coercion, pagination defaults and the
RETURNING-list rules.

Database I/O is the only effect in the source; each tool is embedded as a pure
function from its (already schema-parsed) parameters plus oracles for the values
the database would return (impact-estimation count, result rows, affected count)
to an outcome carrying the exact ordered trace of SQL statements the tool would
issue.  JavaScript strings are modelled as Lean `String` (lists of characters),
JavaScript numbers appearing in parsed data as exact rationals.
-/

namespace PostgresMcp

/-! ## Character classes

These mirror the character classes of the source's regular expressions
(`/^[a-zA-Z_][a-zA-Z0-9_$]*$/`, `\s`, `\d`, `.`) and of JavaScript's
`trim`/`toLowerCase`. -/

/-- ASCII decimal digit, the `[0-9]` / `\d` class. -/
def isDigitC (c : Char) : Bool :=
  decide (48 ≤ c.toNat) && decide (c.toNat ≤ 57)

/-- ASCII letter, the `[a-zA-Z]` class. -/
def isLetterC (c : Char) : Bool :=
  (decide (65 ≤ c.toNat) && decide (c.toNat ≤ 90)) ||
  (decide (97 ≤ c.toNat) && decide (c.toNat ≤ 122))

/-- First character of a PostgreSQL identifier: `[a-zA-Z_]`. -/
def isIdentStart (c : Char) : Bool := isLetterC c || c = '_'

/-- Identifier continuation character: `[a-zA-Z0-9_$]`. -/
def isIdentChar (c : Char) : Bool :=
  isLetterC c || isDigitC c || c = '_' || c = '$'

/-- JavaScript's whitespace class `\s` (also the set trimmed by
`String.prototype.trim` and by `Number()`): space, tab, LF, VT, FF, CR, NBSP,
Ogham space mark, the U+2000 block, line/paragraph separators, narrow NBSP,
medium mathematical space, ideographic space and the BOM. -/
def isJsWs (c : Char) : Bool :=
  c = ' ' || c = '\t' || c = '\n' || c = '\r' ||
  decide (c.toNat = 11) || decide (c.toNat = 12) ||
  decide (c.toNat = 0xa0) || decide (c.toNat = 0x1680) ||
  (decide (0x2000 ≤ c.toNat) && decide (c.toNat ≤ 0x200a)) ||
  decide (c.toNat = 0x2028) || decide (c.toNat = 0x2029) ||
  decide (c.toNat = 0x202f) || decide (c.toNat = 0x205f) ||
  decide (c.toNat = 0x3000) || decide (c.toNat = 0xfeff)

/-- Character matched by `.` in a JavaScript regex without the `s` flag:
anything but a line terminator. -/
def isDotChar (c : Char) : Bool :=
  !(c = '\n' || c = '\r' || decide (c.toNat = 0x2028) || decide (c.toNat = 0x2029))

/-- ASCII lowercasing of one character, the effect of
`String.prototype.toLowerCase` on the ASCII range (the only range the guard's
keyword tests are sensitive to). -/
def lowerChar (c : Char) : Char :=
  if decide (65 ≤ c.toNat) && decide (c.toNat ≤ 90) then Char.ofNat (c.toNat + 32) else c

theorem char_ne_of_toNat_ne {c d : Char} (h : c.toNat ≠ d.toNat) : c ≠ d :=
  fun he => h (by rw [he])

theorem isJsWs_not_ident {c : Char} (h : isJsWs c = true) :
    isIdentChar c = false ∧ c ≠ '$' ∧ isDigitC c = false := by
  have hrange : (9 ≤ c.toNat ∧ c.toNat ≤ 13) ∨ c.toNat = 32 ∨ 0xa0 ≤ c.toNat := by
    simp only [isJsWs, Bool.or_eq_true, decide_eq_true_eq, Bool.and_eq_true] at h
    casesm* _ ∨ _
    all_goals first
      | (subst_vars; decide)
      | omega
  have h36 : ('$').toNat = 36 := rfl
  refine ⟨?_, char_ne_of_toNat_ne (by omega), ?_⟩
  · refine Bool.eq_false_iff.mpr (fun hi => ?_)
    simp only [isIdentChar, isLetterC, isDigitC, Bool.or_eq_true, Bool.and_eq_true,
      decide_eq_true_eq] at hi
    rcases hi with (((h1 | h1) | h1) | h1) | h1
    · omega
    · omega
    · omega
    · subst h1; exact absurd hrange (by decide)
    · subst h1; exact absurd hrange (by decide)
  · refine Bool.eq_false_iff.mpr (fun hi => ?_)
    simp only [isDigitC, Bool.and_eq_true, decide_eq_true_eq] at hi
    omega

/-! ## Decimal rendering

JavaScript renders the parameter counter into the SQL text with
`$` + `${paramIndex}`; for a non-negative integer the interpolation produces its
decimal digit string. -/

/-- Decimal digit string, by structural recursion on a fuel bound (`n < fuel`
always holds at the call sites, so the fuel never runs out). -/
def natCharsAux : Nat → Nat → List Char
  | 0, _ => []
  | fuel + 1, n =>
    if n < 10 then [Nat.digitChar n]
    else natCharsAux fuel (n / 10) ++ [Nat.digitChar (n % 10)]

/-- Decimal digit string of a natural number. -/
def natChars (n : Nat) : List Char := natCharsAux (n + 1) n

theorem natCharsAux_irrel :
    ∀ f1 : Nat, ∀ f2 n : Nat, n < f1 → n < f2 → natCharsAux f1 n = natCharsAux f2 n := by
  intro f1
  induction f1 with
  | zero => intro f2 n h1 _; omega
  | succ f ih =>
    intro f2 n h1 h2
    cases f2 with
    | zero => omega
    | succ g =>
      show natCharsAux (f + 1) n = natCharsAux (g + 1) n
      rw [natCharsAux, natCharsAux]
      by_cases hn : n < 10
      · rw [if_pos hn, if_pos hn]
      · rw [if_neg hn, if_neg hn]
        have hd : n / 10 < n := Nat.div_lt_self (by omega) (by omega)
        rw [ih g (n / 10) (by omega) (by omega)]

theorem natChars_eq (n : Nat) : natChars n =
    if n < 10 then [Nat.digitChar n]
    else natChars (n / 10) ++ [Nat.digitChar (n % 10)] := by
  show natCharsAux (n + 1) n = _
  rw [natCharsAux]
  by_cases hn : n < 10
  · rw [if_pos hn, if_pos hn]
  · rw [if_neg hn, if_neg hn]
    have hd : n / 10 < n := Nat.div_lt_self (by omega) (by omega)
    rw [natCharsAux_irrel n (n / 10 + 1) (n / 10) (by omega) (by omega)]
    rfl

def natStr (n : Nat) : String := ⟨natChars n⟩

/-- Value of a digit run read left to right. -/
def digitsVal (l : List Char) : Nat :=
  l.foldl (fun a c => 10 * a + (c.toNat - 48)) 0

theorem digitChar_digit {d : Nat} (h : d < 10) :
    isDigitC (Nat.digitChar d) = true ∧ (Nat.digitChar d).toNat = 48 + d := by
  interval_cases d <;> exact ⟨by decide, by decide⟩

theorem natChars_ne_nil (n : Nat) : natChars n ≠ [] := by
  rw [natChars_eq]
  split <;> simp

theorem natChars_digits (n : Nat) : ∀ c ∈ natChars n, isDigitC c = true := by
  induction n using Nat.strong_induction_on with
  | _ n ih =>
    rw [natChars_eq]
    split
    · next h =>
      intro c hc
      simp only [List.mem_singleton] at hc
      subst hc
      exact (digitChar_digit h).1
    · next h =>
      intro c hc
      rw [List.mem_append] at hc
      rcases hc with hc | hc
      · exact ih (n / 10) (Nat.div_lt_self (by omega) (by omega)) c hc
      · simp only [List.mem_singleton] at hc
        subst hc
        exact (digitChar_digit (Nat.mod_lt _ (by omega))).1

theorem digitsVal_aux (n : Nat) :
    ∀ a : Nat, List.foldl (fun a c => 10 * a + (c.toNat - 48)) a (natChars n) =
      a * 10 ^ (natChars n).length + n := by
  induction n using Nat.strong_induction_on with
  | _ n ih =>
    intro a
    rw [natChars_eq]
    split
    · next h =>
      simp only [List.foldl_cons, List.foldl_nil, List.length_singleton]
      rw [(digitChar_digit h).2]
      omega
    · next h =>
      rw [List.foldl_append, ih (n / 10) (Nat.div_lt_self (by omega) (by omega)) a]
      simp only [List.foldl_cons, List.foldl_nil, List.length_append, List.length_singleton]
      rw [(digitChar_digit (Nat.mod_lt _ (by omega))).2]
      have hdm : 10 * (n / 10) + n % 10 = n := Nat.div_add_mod n 10
      have hp : (10 : Nat) ^ ((natChars (n / 10)).length + 1) =
          10 ^ (natChars (n / 10)).length * 10 := pow_succ 10 _
      rw [hp]
      have hr : a * (10 ^ (natChars (n / 10)).length * 10) =
          10 * (a * 10 ^ (natChars (n / 10)).length) := by ring
      rw [hr]
      omega

theorem digitsVal_natChars (n : Nat) : digitsVal (natChars n) = n := by
  have := digitsVal_aux n 0
  simpa [digitsVal] using this

/-! ## Placeholder extraction

A positional placeholder in PostgreSQL SQL text is a `$` that is not part of an
identifier (i.e. not preceded by an identifier character — identifiers such as
`a$1` lex as one token) followed by a non-empty run of decimal digits.
`scanPH ok l` returns the numbers of the placeholders of `l` in order;
the flag records whether a `$` at the current position could start a
placeholder (`true` at the start of the text). -/

theorem dropWhile_length_le {α : Type} (p : α → Bool) (l : List α) :
    (l.dropWhile p).length ≤ l.length := by
  induction l with
  | nil => simp
  | cons c cs ih =>
    by_cases h : p c = true
    · rw [List.dropWhile_cons_of_pos h]
      simp only [List.length_cons]
      omega
    · rw [List.dropWhile_cons_of_neg h]

/-- The scanner, by structural recursion on a fuel bound (the fuel exceeds the
text length at every call site, so it never runs out). -/
def scanPHAux : Nat → Bool → List Char → List Nat
  | 0, _, _ => []
  | _ + 1, _, [] => []
  | fuel + 1, ok, c :: cs =>
    if c = '$' then
      if ok && !(cs.takeWhile isDigitC).isEmpty then
        digitsVal (cs.takeWhile isDigitC) :: scanPHAux fuel false (cs.dropWhile isDigitC)
      else scanPHAux fuel false cs
    else scanPHAux fuel (!isIdentChar c) cs

def scanPH (ok : Bool) (l : List Char) : List Nat := scanPHAux (l.length + 1) ok l

/-- Placeholder numbers of an SQL string, in textual order. -/
def placeholderNums (s : String) : List Nat := scanPH true s.data

theorem scanPHAux_irrel : ∀ f1 : Nat, ∀ (f2 : Nat) (ok : Bool) (l : List Char),
    l.length < f1 → l.length < f2 → scanPHAux f1 ok l = scanPHAux f2 ok l := by
  intro f1
  induction f1 with
  | zero => intro f2 ok l h1 _; omega
  | succ f ih =>
    intro f2 ok l h1 h2
    cases f2 with
    | zero => omega
    | succ g =>
      cases l with
      | nil => rfl
      | cons c cs =>
        simp only [List.length_cons] at h1 h2
        show scanPHAux (f + 1) ok (c :: cs) = scanPHAux (g + 1) ok (c :: cs)
        rw [scanPHAux, scanPHAux]
        have hcs1 : cs.length < f := by omega
        have hcs2 : cs.length < g := by omega
        have hdw1 : (cs.dropWhile isDigitC).length < f :=
          lt_of_le_of_lt (dropWhile_length_le _ _) hcs1
        have hdw2 : (cs.dropWhile isDigitC).length < g :=
          lt_of_le_of_lt (dropWhile_length_le _ _) hcs2
        by_cases hc : c = '$'
        · rw [if_pos hc, if_pos hc]
          by_cases hrun : (ok && !(cs.takeWhile isDigitC).isEmpty) = true
          · rw [if_pos hrun, if_pos hrun,
              ih g false (cs.dropWhile isDigitC) hdw1 hdw2]
          · rw [if_neg hrun, if_neg hrun, ih g false cs hcs1 hcs2]
        · rw [if_neg hc, if_neg hc, ih g (!isIdentChar c) cs hcs1 hcs2]

theorem scanPH_nil (ok : Bool) : scanPH ok [] = [] := rfl

theorem scanPH_cons (ok : Bool) (c : Char) (cs : List Char) : scanPH ok (c :: cs) =
    if c = '$' then
      if ok && !(cs.takeWhile isDigitC).isEmpty then
        digitsVal (cs.takeWhile isDigitC) :: scanPH false (cs.dropWhile isDigitC)
      else scanPH false cs
    else scanPH (!isIdentChar c) cs := by
  unfold scanPH
  simp only [List.length_cons]
  rw [scanPHAux]
  have hdw : (cs.dropWhile isDigitC).length < cs.length + 1 :=
    Nat.lt_succ_of_le (dropWhile_length_le _ _)
  by_cases hc : c = '$'
  · rw [if_pos hc, if_pos hc]
    by_cases hrun : (ok && !(cs.takeWhile isDigitC).isEmpty) = true
    · rw [if_pos hrun, if_pos hrun,
        scanPHAux_irrel (cs.length + 1) ((cs.dropWhile isDigitC).length + 1) false
          (cs.dropWhile isDigitC) hdw (Nat.lt_succ_self _)]
    · rw [if_neg hrun, if_neg hrun,
        scanPHAux_irrel (cs.length + 1) (cs.length + 1) false cs (Nat.lt_succ_self _)
          (Nat.lt_succ_self _)]
  · rw [if_neg hc, if_neg hc,
      scanPHAux_irrel (cs.length + 1) (cs.length + 1) (!isIdentChar c) cs
        (Nat.lt_succ_self _) (Nat.lt_succ_self _)]

theorem scanPH_other {c : Char} (h : ¬(c = '$')) (ok : Bool) (cs : List Char) :
    scanPH ok (c :: cs) = scanPH (!isIdentChar c) cs := by
  rw [scanPH_cons]
  simp [h]

theorem scanPH_dollar_hit {cs : List Char} (h : ¬(cs.takeWhile isDigitC = [])) :
    scanPH true ('$' :: cs) =
      digitsVal (cs.takeWhile isDigitC) :: scanPH false (cs.dropWhile isDigitC) := by
  rw [scanPH_cons]
  simp [List.isEmpty_iff, h]

theorem scanPH_dollar_false (cs : List Char) :
    scanPH false ('$' :: cs) = scanPH false cs := by
  rw [scanPH_cons]
  simp

theorem scanPH_dollar_nodigit {cs : List Char} (h : cs.takeWhile isDigitC = []) (ok : Bool) :
    scanPH ok ('$' :: cs) = scanPH false cs := by
  rw [scanPH_cons]
  simp [List.isEmpty_iff, h]

/-- Whether a `$` placed right after `l` could start a placeholder, given that
`ok` describes the position right before `l`. -/
def allowAfter (ok : Bool) (l : List Char) : Bool :=
  match l.getLast? with
  | none => ok
  | some c => !isIdentChar c

theorem allowAfter_nil (ok : Bool) : allowAfter ok [] = ok := rfl

theorem allowAfter_cons (ok : Bool) (c : Char) (cs : List Char) :
    allowAfter ok (c :: cs) = allowAfter (!isIdentChar c) cs := by
  cases cs with
  | nil => rfl
  | cons d ds => simp [allowAfter, List.getLast?]

theorem getLast?_append_ne {α : Type} {l₂ : List α} (h : l₂ ≠ []) (l₁ : List α) :
    (l₁ ++ l₂).getLast? = l₂.getLast? := by
  induction l₁ with
  | nil => rfl
  | cons x xs ih =>
    have hne : xs ++ l₂ ≠ [] := by
      intro hc
      rcases List.append_eq_nil.mp hc with ⟨-, h2⟩
      exact h h2
    cases hx : xs ++ l₂ with
    | nil => exact absurd hx hne
    | cons y ys =>
      simp only [List.cons_append, hx, List.getLast?_cons_cons]
      rw [← hx, ih]

theorem allowAfter_append (ok : Bool) (l₁ l₂ : List Char) :
    allowAfter ok (l₁ ++ l₂) = allowAfter (allowAfter ok l₁) l₂ := by
  cases h : l₂ with
  | nil => simp [allowAfter_nil]
  | cons d ds =>
    rw [← h]
    have h2 : l₂ ≠ [] := by rw [h]; simp
    unfold allowAfter
    rw [getLast?_append_ne h2 l₁]
    cases hl : l₂.getLast? with
    | none => exact absurd (List.getLast?_eq_none_iff.mp hl) h2
    | some c => rfl

theorem tw_append {α : Type} {p : α → Bool} {b : List α}
    (hb : ∀ c, b.head? = some c → p c = false) :
    ∀ cs : List α, (cs ++ b).takeWhile p = cs.takeWhile p ∧
      (cs ++ b).dropWhile p = cs.dropWhile p ++ b := by
  intro cs
  induction cs with
  | nil =>
    cases b with
    | nil => simp
    | cons x xs =>
      have hx : ¬(p x = true) := by rw [hb x rfl]; simp
      simp [List.takeWhile_cons_of_neg hx, List.dropWhile_cons_of_neg hx]
  | cons c cs ih =>
    by_cases h : p c = true
    · simp only [List.cons_append, List.takeWhile_cons_of_pos h,
        List.dropWhile_cons_of_pos h, ih.1, ih.2, and_self]
    · simp [List.takeWhile_cons_of_neg h, List.dropWhile_cons_of_neg h]

theorem mem_of_getLast?_eq {α : Type} {l : List α} {c : α} (h : l.getLast? = some c) :
    c ∈ l := by
  induction l with
  | nil => simp at h
  | cons x xs ih =>
    cases xs with
    | nil =>
      simp only [List.getLast?_singleton, Option.some_inj] at h
      subst h
      exact List.mem_cons_self _ _
    | cons y ys =>
      rw [List.getLast?_cons_cons] at h
      exact List.mem_cons_of_mem _ (ih h)

theorem allowAfter_dropRun (cs : List Char) (h : ¬(cs.takeWhile isDigitC = [])) :
    allowAfter false (cs.dropWhile isDigitC) = allowAfter false cs := by
  conv_rhs => rw [← List.takeWhile_append_dropWhile (p := isDigitC) (l := cs)]
  rw [allowAfter_append]
  have htw : ∀ ok, allowAfter ok (cs.takeWhile isDigitC) = false := by
    intro ok
    unfold allowAfter
    cases hl : (cs.takeWhile isDigitC).getLast? with
    | none => exact absurd (List.getLast?_eq_none_iff.mp hl) h
    | some c =>
      have hmem : c ∈ cs.takeWhile isDigitC := mem_of_getLast?_eq hl
      have hc : isDigitC c = true := List.mem_takeWhile_imp hmem
      have : isIdentChar c = true := by
        simp only [isIdentChar, Bool.or_eq_true]
        left; left; right; exact hc
      simp [this]
  rw [htw]

theorem scanPH_append {b : List Char} (hb : ∀ c, b.head? = some c → isDigitC c = false) :
    ∀ (a : List Char) (ok : Bool),
      scanPH ok (a ++ b) = scanPH ok a ++ scanPH (allowAfter ok a) b := by
  suffices H : ∀ n (a : List Char), a.length ≤ n → ∀ ok,
      scanPH ok (a ++ b) = scanPH ok a ++ scanPH (allowAfter ok a) b by
    exact fun a ok => H a.length a le_rfl ok
  intro n
  induction n with
  | zero =>
    intro a ha ok
    have : a = [] := List.length_eq_zero.mp (Nat.le_zero.mp ha)
    subst this
    simp [scanPH_nil, allowAfter_nil]
  | succ n ih =>
    intro a ha ok
    cases a with
    | nil => simp [scanPH_nil, allowAfter_nil]
    | cons c cs =>
      have hcs : cs.length ≤ n := by
        simp only [List.length_cons] at ha
        omega
      by_cases hc : c = '$'
      · subst hc
        rw [List.cons_append, allowAfter_cons]
        have hds : (!isIdentChar '$') = false := by decide
        rw [hds]
        cases ok with
        | false =>
          rw [scanPH_dollar_false, scanPH_dollar_false, ih cs hcs false]
        | true =>
          by_cases hrun : cs.takeWhile isDigitC = []
          · have hrun2 : (cs ++ b).takeWhile isDigitC = [] := by
              rw [(tw_append hb cs).1, hrun]
            rw [scanPH_dollar_nodigit hrun2, scanPH_dollar_nodigit hrun, ih cs hcs false]
          · have hrun2 : ¬((cs ++ b).takeWhile isDigitC = []) := by
              rw [(tw_append hb cs).1]; exact hrun
            rw [scanPH_dollar_hit hrun2, scanPH_dollar_hit hrun,
              (tw_append hb cs).1, (tw_append hb cs).2]
            have hlen : (cs.dropWhile isDigitC).length ≤ n :=
              le_trans (dropWhile_length_le _ _) hcs
            rw [ih (cs.dropWhile isDigitC) hlen false]
            rw [allowAfter_dropRun cs hrun]
            simp
      · rw [List.cons_append, scanPH_other hc, scanPH_other hc, ih cs hcs, allowAfter_cons]

theorem scanPH_all_ident {l : List Char} (h : ∀ c ∈ l, isIdentChar c = true) :
    scanPH false l = [] := by
  induction l with
  | nil => rw [scanPH_nil]
  | cons c cs ih =>
    have hcs : ∀ c ∈ cs, isIdentChar c = true := fun d hd => h d (List.mem_cons_of_mem _ hd)
    by_cases hc : c = '$'
    · subst hc
      rw [scanPH_dollar_false]
      exact ih hcs
    · rw [scanPH_other hc]
      rw [h c (List.mem_cons_self c cs)]
      exact ih hcs

theorem scanPH_no_dollar {l : List Char} (h : ∀ c ∈ l, ¬(c = '$')) :
    ∀ ok, scanPH ok l = [] := by
  induction l with
  | nil => intro ok; rw [scanPH_nil]
  | cons c cs ih =>
    intro ok
    rw [scanPH_other (h c (List.mem_cons_self c cs))]
    exact ih (fun d hd => h d (List.mem_cons_of_mem _ hd)) _

/-! ## Identifier validation (`src/tools/utils.ts`, `validateIdentifier` /
`sanitizeIdentifier`)

The source tests `/^[a-zA-Z_][a-zA-Z0-9_$]*$/.test(identifier) &&
identifier.length <= 63` and `sanitizeIdentifier` throws
`Invalid identifier: <name>` on failure, returning the string unchanged on
success. -/

def validateIdentifier (s : String) : Bool :=
  (match s.data with
   | [] => false
   | c :: cs => isIdentStart c && cs.all isIdentChar) && decide (s.length ≤ 63)

def sanitizeIdentifier (s : String) : Except String String :=
  if validateIdentifier s then .ok s else .error ("Invalid identifier: " ++ s)

/-- The spec's own characterisation: `^[A-Za-z_][A-Za-z0-9_$]{0,62}$`
(starts with a letter or underscore, at most 63 characters overall, and only
letters/digits/underscore/dollar). Written from the spec's words, to be
compared with the source's validator. -/
def specIdentMatch (s : String) : Bool :=
  match s.data with
  | [] => false
  | c :: cs => isIdentStart c && cs.all isIdentChar && decide (cs.length ≤ 62)

theorem isIdentStart_isIdentChar {c : Char} (h : isIdentStart c = true) :
    isIdentChar c = true := by
  simp only [isIdentStart, Bool.or_eq_true] at h
  simp only [isIdentChar, Bool.or_eq_true]
  tauto

theorem isIdentStart_ne_dollar {c : Char} (h : isIdentStart c = true) : ¬(c = '$') := by
  intro he
  subst he
  exact absurd h (by decide)

theorem isIdentStart_not_digit {c : Char} (h : isIdentStart c = true) :
    isDigitC c = false := by
  refine Bool.eq_false_iff.mpr (fun hd => ?_)
  simp only [isIdentStart, isLetterC, Bool.or_eq_true, Bool.and_eq_true,
    decide_eq_true_eq] at h
  simp only [isDigitC, Bool.and_eq_true, decide_eq_true_eq] at hd
  rcases h with (h | h) | h
  · omega
  · omega
  · subst h; exact absurd hd (by decide)

theorem validateIdentifier_chars {s : String} (h : validateIdentifier s = true) :
    s.data ≠ [] ∧ (∀ c, s.data.head? = some c → isIdentStart c = true) ∧
      ∀ c ∈ s.data, isIdentChar c = true := by
  simp only [validateIdentifier, Bool.and_eq_true] at h
  obtain ⟨h1, -⟩ := h
  cases hd : s.data with
  | nil => rw [hd] at h1; simp at h1
  | cons c cs =>
    rw [hd] at h1
    simp only [Bool.and_eq_true] at h1
    obtain ⟨hstart, hall⟩ := h1
    refine ⟨by simp, ?_, ?_⟩
    · intro d hdd
      simp only [List.head?_cons, Option.some_inj] at hdd
      subst hdd
      exact hstart
    · intro d hdd
      rcases List.mem_cons.mp hdd with hdd | hdd
      · subst hdd; exact isIdentStart_isIdentChar hstart
      · exact (List.all_eq_true.mp hall) d hdd

/-! ## Composition lemmas for the scanner -/

theorem scanPH_head_not_dollar {b : List Char} (hb : ∀ c, b.head? = some c → ¬(c = '$'))
    (ok ok' : Bool) : scanPH ok b = scanPH ok' b := by
  cases b with
  | nil => rw [scanPH_nil, scanPH_nil]
  | cons c cs => rw [scanPH_other (hb c rfl), scanPH_other (hb c rfl)]

theorem allowAfter_ne_nil {l : List Char} (h : ¬(l = [])) (ok ok' : Bool) :
    allowAfter ok l = allowAfter ok' l := by
  unfold allowAfter
  cases hl : l.getLast? with
  | none => exact absurd (List.getLast?_eq_none_iff.mp hl) h
  | some c => rfl

theorem scan_lit_step (st : Bool) (lit : List Char) {rest : List Char} {ok : Bool}
    (hd : lit.all (fun c => !(c = '$')) = true)
    (hrest : ∀ c, rest.head? = some c → isDigitC c = false)
    (hst : allowAfter ok lit = st) :
    scanPH ok (lit ++ rest) = scanPH st rest := by
  rw [scanPH_append hrest lit ok]
  rw [scanPH_no_dollar (fun c hc => by simpa using (List.all_eq_true.mp hd) c hc) ok]
  rw [hst]
  rfl

theorem scan_ident_step {id rest : List Char} {ok : Bool}
    (hne : ¬(id = []))
    (hhead : ∀ c, id.head? = some c → isIdentStart c = true)
    (hall : ∀ c ∈ id, isIdentChar c = true)
    (hrest : ∀ c, rest.head? = some c → isDigitC c = false) :
    scanPH ok (id ++ rest) = scanPH false rest := by
  rw [scanPH_append hrest id ok]
  have hscan : scanPH ok id = [] := by
    cases id with
    | nil => rw [scanPH_nil]
    | cons c cs =>
      have hc := hhead c rfl
      rw [scanPH_other (isIdentStart_ne_dollar hc)]
      rw [hall c (List.mem_cons_self c cs), Bool.not_true]
      exact scanPH_all_ident (fun d hd => hall d (List.mem_cons_of_mem _ hd))
  rw [hscan]
  have hlast : allowAfter ok id = false := by
    unfold allowAfter
    cases hl : id.getLast? with
    | none => exact absurd (List.getLast?_eq_none_iff.mp hl) hne
    | some c =>
      show (!isIdentChar c) = false
      rw [hall c (mem_of_getLast?_eq hl)]
      rfl
  rw [hlast]
  rfl

/-- Scanning a placeholder `$i` (rendered as `'$'` followed by the decimal
digits of `i`) at an allowed position, with the rest of the text starting with
a non-digit. -/
theorem scanPH_dollarRun (i : Nat) {b : List Char}
    (hb : ∀ c, b.head? = some c → isDigitC c = false) :
    scanPH true ('$' :: (natChars i ++ b)) = i :: scanPH false b := by
  have htw := (tw_append hb (natChars i)).1
  have hdw := (tw_append hb (natChars i)).2
  have hall : (natChars i).takeWhile isDigitC = natChars i ∧
      (natChars i).dropWhile isDigitC = [] := by
    constructor
    · exact List.takeWhile_eq_self_iff.mpr (natChars_digits i)
    · exact List.dropWhile_eq_nil_iff.mpr (natChars_digits i)
  rw [scanPH_dollar_hit (by rw [htw, hall.1]; exact natChars_ne_nil i)]
  rw [htw, hall.1, hdw, hall.2, digitsVal_natChars]
  rfl

/-! ## Values and rows

Caller-supplied JSON-ish values, and driver result rows.  JavaScript numbers
occurring in data are modelled exactly; the numeric coercion of the free-form
tool can produce `Infinity`, so numbers carry the two infinities alongside the
finite (rational) values. -/

inductive JsNum where
  | fin (q : ℚ)
  | posInf
  | negInf
deriving DecidableEq

inductive Value where
  | vNull
  | vBool (b : Bool)
  | vNum (n : JsNum)
  | vStr (s : String)
  | vArr (elems : List Value)

/-- A driver result row: ordered field/value pairs (`Object.entries` order). -/
def Row : Type := List (String × Value)

/-- `Array.prototype.join(sep)`. -/
def joinSep (sep : String) : List String → String
  | [] => ""
  | [x] => x
  | x :: xs => x ++ sep ++ joinSep sep xs

theorem joinSep_cons₂ (sep x y : String) (rest : List String) :
    joinSep sep (x :: y :: rest) = x ++ sep ++ joinSep sep (y :: rest) := rfl

/-- The list of `n` placeholder strings `$i, $i+1, ...` produced by
`value.map(() => "$" + paramIndex++)`. -/
def phList (i n : Nat) : List String :=
  (List.range' i n).map (fun k => "$" ++ natStr k)

theorem phList_succ (i n : Nat) :
    phList i (n + 1) = ("$" ++ natStr i) :: phList (i + 1) n := by
  simp [phList, List.range'_succ]

theorem dollar_natStr_data (i : Nat) : ("$" ++ natStr i).data = '$' :: natChars i := by
  rw [String.data_append]
  rfl

theorem head?_append_eq_some {α : Type} {l1 : List α} {c : α} (h : l1.head? = some c)
    (l2 : List α) : (l1 ++ l2).head? = some c := by
  cases l1 with
  | nil => simp at h
  | cons x xs => simpa using h

theorem phJoin_head_eq (i n : Nat) :
    ((joinSep ", " (phList i (n + 1))).data).head? = some '$' := by
  cases n with
  | zero =>
    rw [phList_succ]
    rw [show phList (i + 1) 0 = [] from rfl]
    rw [show joinSep ", " [("$" ++ natStr i)] = "$" ++ natStr i from rfl]
    rw [dollar_natStr_data]
    rfl
  | succ m =>
    rw [phList_succ, phList_succ, joinSep_cons₂]
    rw [String.data_append, String.data_append, dollar_natStr_data]
    simp only [List.cons_append, List.head?_cons]

/-- Scanning the joined placeholder list `$i, $i+1, ..., $i+n-1` followed by a
continuation whose first character is neither a digit nor `$` yields exactly
the numbers `i, ..., i+n-1` followed by the scan of the continuation. -/
theorem scanPH_phJoin {b : List Char}
    (hb : ∀ c, b.head? = some c → isDigitC c = false ∧ ¬(c = '$')) :
    ∀ n i, scanPH true ((joinSep ", " (phList i n)).data ++ b) =
      List.range' i n ++ scanPH false b := by
  intro n
  induction n with
  | zero =>
    intro i
    rw [show phList i 0 = [] from rfl]
    rw [show joinSep ", " ([] : List String) = "" from rfl]
    rw [show ("" : String).data = [] from rfl, List.nil_append]
    rw [show List.range' i 0 = [] from rfl, List.nil_append]
    exact scanPH_head_not_dollar (fun c hc => (hb c hc).2) true false
  | succ n ih =>
    intro i
    rw [phList_succ]
    cases n with
    | zero =>
      rw [show phList (i + 1) 0 = [] from rfl]
      rw [show joinSep ", " [("$" ++ natStr i)] = "$" ++ natStr i from rfl]
      rw [dollar_natStr_data, List.cons_append]
      rw [scanPH_dollarRun i (fun c hc => (hb c hc).1)]
      rfl
    | succ m =>
      rw [phList_succ (i + 1) m, joinSep_cons₂, ← phList_succ (i + 1) m]
      rw [String.data_append, String.data_append, dollar_natStr_data]
      rw [show (", " : String).data = [',', ' '] from rfl]
      simp only [List.append_assoc, List.cons_append, List.nil_append]
      have hrest : ∀ c, (' ' :: ((joinSep ", " (phList (i + 1) (m + 1))).data ++ b)).head? =
          some c → isDigitC c = false := by
        intro c hc
        simp only [List.head?_cons, Option.some_inj] at hc
        subst hc
        decide
      have hcomma : ∀ c,
          (',' :: ' ' :: ((joinSep ", " (phList (i + 1) (m + 1))).data ++ b)).head? =
          some c → isDigitC c = false := by
        intro c hc
        simp only [List.head?_cons, Option.some_inj] at hc
        subst hc
        decide
      rw [scanPH_dollarRun i hcomma]
      have hlit : (',' :: ' ' :: ((joinSep ", " (phList (i + 1) (m + 1))).data ++ b)) =
          [',', ' '] ++ ((joinSep ", " (phList (i + 1) (m + 1))).data ++ b) := rfl
      rw [hlit]
      have hX : ∀ c, ((joinSep ", " (phList (i + 1) (m + 1))).data ++ b).head? = some c →
          isDigitC c = false := by
        intro c hc
        rw [head?_append_eq_some (phJoin_head_eq (i + 1) m) b] at hc
        simp only [Option.some_inj] at hc
        subst hc
        decide
      rw [scan_lit_step true [',', ' '] (by decide) hX (by decide)]
      rw [ih (i + 1)]
      rw [List.range'_succ]
      rfl

/-! ## The Condition Compiler

The loop over `Object.entries(where)` duplicated verbatim in `deleteData.ts`
(lines 52-73), `updateData.ts` (lines 66-87) and `queryTable.ts`: per entry it
validates the column, then emits `IS NULL` for `null` values (no parameter),
`IN ($i, ...)` for arrays (one parameter per element), `LIKE $i` for strings
containing `%`, and `= $i` otherwise.  It returns the fragment list (joined
with `" AND "` by the callers), the parameter list, and the next parameter
index. -/

def compileWhere : List (String × Value) → Nat →
    Except String (List String × List Value × Nat)
  | [], i => .ok ([], [], i)
  | (col, v) :: rest, i =>
    match sanitizeIdentifier col with
    | .error e => .error e
    | .ok c =>
      match v with
      | .vNull =>
        match compileWhere rest i with
        | .error e => .error e
        | .ok (cs, ps, j) => .ok ((c ++ " IS NULL") :: cs, ps, j)
      | .vArr xs =>
        match compileWhere rest (i + xs.length) with
        | .error e => .error e
        | .ok (cs, ps, j) =>
          .ok ((c ++ " IN (" ++ joinSep ", " (phList i xs.length) ++ ")") :: cs,
            xs ++ ps, j)
      | .vStr s =>
        if s.contains '%' then
          match compileWhere rest (i + 1) with
          | .error e => .error e
          | .ok (cs, ps, j) => .ok ((c ++ " LIKE $" ++ natStr i) :: cs, .vStr s :: ps, j)
        else
          match compileWhere rest (i + 1) with
          | .error e => .error e
          | .ok (cs, ps, j) => .ok ((c ++ " = $" ++ natStr i) :: cs, .vStr s :: ps, j)
      | v =>
        match compileWhere rest (i + 1) with
        | .error e => .error e
        | .ok (cs, ps, j) => .ok ((c ++ " = $" ++ natStr i) :: cs, v :: ps, j)

/-- The `SET` clause loop of `updateData.ts` (lines 56-61): every entry emits
`<col> = $i` and binds one parameter. -/
def compileSet : List (String × Value) → Nat →
    Except String (List String × List Value × Nat)
  | [], i => .ok ([], [], i)
  | (col, v) :: rest, i =>
    match sanitizeIdentifier col with
    | .error e => .error e
    | .ok c =>
      match compileSet rest (i + 1) with
      | .error e => .error e
      | .ok (cs, ps, j) => .ok ((c ++ " = $" ++ natStr i) :: cs, v :: ps, j)

theorem sanitizeIdentifier_ok {s t : String} (h : sanitizeIdentifier s = .ok t) :
    t = s ∧ validateIdentifier s = true := by
  unfold sanitizeIdentifier at h
  split at h
  · next hv => exact ⟨(Except.ok.injEq _ _ ▸ h).symm ▸ rfl, hv⟩
  · exact absurd h (by simp)

theorem sanitizeIdentifier_of_valid {s : String} (h : validateIdentifier s = true) :
    sanitizeIdentifier s = .ok s := by
  unfold sanitizeIdentifier
  rw [h]
  rfl

theorem sanitizeIdentifier_of_invalid {s : String} (h : validateIdentifier s = false) :
    sanitizeIdentifier s = .error ("Invalid identifier: " ++ s) := by
  unfold sanitizeIdentifier
  rw [h]
  rfl

/-! ## Scan of compiled fragments -/

theorem head?_append_cases {α : Type} {l1 l2 : List α} {c : α}
    (h : (l1 ++ l2).head? = some c) : l1.head? = some c ∨ (l1 = [] ∧ l2.head? = some c) := by
  cases l1 with
  | nil => exact Or.inr ⟨rfl, h⟩
  | cons x xs => exact Or.inl (by simpa using h)

theorem head?_append_left {α : Type} {l1 : List α} (h : ¬(l1 = [])) (l2 : List α) :
    (l1 ++ l2).head? = l1.head? := by
  cases l1 with
  | nil => exact absurd rfl h
  | cons x xs => rfl

theorem starts_with_ident_head {col : String} (hv : validateIdentifier col = true)
    {restl : List Char} : ∀ c, (col.data ++ restl).head? = some c → isIdentStart c = true := by
  intro c hc
  obtain ⟨hne, hh, -⟩ := validateIdentifier_chars hv
  rw [head?_append_left hne] at hc
  exact hh c hc

theorem scan_valid_ident_step {s : String} (h : validateIdentifier s = true)
    {rest : List Char} (hrest : ∀ c, rest.head? = some c → isDigitC c = false) (ok : Bool) :
    scanPH ok (s.data ++ rest) = scanPH false rest := by
  obtain ⟨hne, hh, hall⟩ := validateIdentifier_chars h
  exact scan_ident_step hne hh hall hrest

/-- The tail a fragment is followed by inside `whereConditions.join(" AND ")`:
nothing after the last fragment, `" AND "` plus the remaining join otherwise. -/
def joinTail (sep : String) : List String → String
  | [] => ""
  | xs => sep ++ joinSep sep xs

theorem joinSep_eq_joinTail (sep x : String) (xs : List String) :
    joinSep sep (x :: xs) = x ++ joinTail sep xs := by
  cases xs with
  | nil => show x = x ++ ""; rw [String.append_empty]
  | cons y ys =>
    show x ++ sep ++ joinSep sep (y :: ys) = x ++ (sep ++ joinSep sep (y :: ys))
    rw [String.append_assoc]

/-- Scanning `<sep> ++ <rest of the join>` from any state yields the rest's
placeholders, for a separator that is `$`-free and ends at a non-identifier
character. -/
theorem tail_scan (sep : String) (hsd : sep.data.all (fun c => !(c = '$')) = true)
    (hsa : ∀ st : Bool, allowAfter st sep.data = true)
    {cs' : List String} {ps' : List Value} {i' : Nat}
    (hS : ∀ b : List Char, (∀ c, b.head? = some c → isDigitC c = false ∧ ¬(c = '$')) →
        scanPH true ((joinSep sep cs').data ++ b) =
          List.range' i' ps'.length ++ scanPH false b)
    (hH : ∀ c, (joinSep sep cs').data.head? = some c → isIdentStart c = true)
    {b : List Char} (hb : ∀ c, b.head? = some c → isDigitC c = false ∧ ¬(c = '$'))
    (st : Bool) :
    scanPH st (sep.data ++ ((joinSep sep cs').data ++ b)) =
      List.range' i' ps'.length ++ scanPH false b := by
  have hX : ∀ c, ((joinSep sep cs').data ++ b).head? = some c → isDigitC c = false := by
    intro c hc
    rcases head?_append_cases hc with hc | ⟨-, hc⟩
    · exact isIdentStart_not_digit (hH c hc)
    · exact (hb c hc).1
  rw [scan_lit_step true sep.data hsd hX (hsa st)]
  exact hS b hb

/-- Scanning the join-tail from any state yields the remaining placeholders. -/
theorem joinTail_scan (sep : String) (hsd : sep.data.all (fun c => !(c = '$')) = true)
    (hsa : ∀ st : Bool, allowAfter st sep.data = true)
    {cs' : List String} {ps' : List Value} {i' : Nat}
    (hS : ∀ b : List Char, (∀ c, b.head? = some c → isDigitC c = false ∧ ¬(c = '$')) →
        scanPH true ((joinSep sep cs').data ++ b) =
          List.range' i' ps'.length ++ scanPH false b)
    (hH : ∀ c, (joinSep sep cs').data.head? = some c → isIdentStart c = true)
    (hnil : cs' = [] → ps' = [])
    {b : List Char} (hb : ∀ c, b.head? = some c → isDigitC c = false ∧ ¬(c = '$'))
    (st : Bool) :
    scanPH st ((joinTail sep cs').data ++ b) =
      List.range' i' ps'.length ++ scanPH false b := by
  cases cs' with
  | nil =>
    rw [hnil rfl]
    rw [show (joinTail sep ([] : List String)) = "" from rfl]
    rw [show ("" : String).data = [] from rfl, List.nil_append]
    rw [show List.range' i' ([] : List Value).length = [] from rfl, List.nil_append]
    exact scanPH_head_not_dollar (fun c hc => (hb c hc).2) st false
  | cons y ys =>
    rw [show joinTail sep (y :: ys) = sep ++ joinSep sep (y :: ys) from rfl]
    rw [String.data_append, List.append_assoc]
    exact tail_scan sep hsd hsa hS hH hb st

theorem natStr_data (n : Nat) : (natStr n).data = natChars n := rfl

theorem head_prop_col {col R : String} (hv : validateIdentifier col = true) :
    ∀ c, (col ++ R).data.head? = some c → isIdentStart c = true := by
  intro c hc
  rw [String.data_append] at hc
  exact starts_with_ident_head hv c hc

/-- Scanning `col <lit> $i <tail>` where `lit` is a placeholder-free literal
ending at a non-identifier character (so that the `$` is in placeholder
position). -/
theorem scan_col_dollar {col : String} (hv : validateIdentifier col = true)
    (lit : List Char) (hlit : lit.all (fun c => !(c = '$')) = true)
    (hlit_ne : ¬(lit = []))
    (hlit_head : ∀ c, lit.head? = some c → isDigitC c = false)
    (hlit_last : allowAfter false lit = true)
    (i : Nat) {tail : List Char} (htail : ∀ c, tail.head? = some c → isDigitC c = false)
    (ok : Bool) :
    scanPH ok (col.data ++ (lit ++ ('$' :: (natChars i ++ tail)))) =
      i :: scanPH false tail := by
  have hr : ∀ c, (lit ++ ('$' :: (natChars i ++ tail))).head? = some c →
      isDigitC c = false := by
    intro c hc
    rw [head?_append_left hlit_ne] at hc
    exact hlit_head c hc
  rw [scan_valid_ident_step hv hr ok]
  have hd : ∀ c, ('$' :: (natChars i ++ tail)).head? = some c → isDigitC c = false := by
    intro c hc
    simp only [List.head?_cons, Option.some_inj] at hc
    subst hc
    decide
  rw [scan_lit_step true lit hlit hd hlit_last]
  exact scanPH_dollarRun i htail

theorem sepAND_head : ∀ c, ((" AND " : String).data).head? = some c →
    isDigitC c = false ∧ ¬(c = '$') := by
  intro c hc
  rw [show ((" AND " : String).data).head? = some ' ' from rfl] at hc
  have hce := Option.some_inj.mp hc
  subst hce
  exact ⟨by decide, by decide⟩

theorem sepComma_head : ∀ c, ((", " : String).data).head? = some c →
    isDigitC c = false ∧ ¬(c = '$') := by
  intro c hc
  rw [show ((", " : String).data).head? = some ',' from rfl] at hc
  have hce := Option.some_inj.mp hc
  subst hce
  exact ⟨by decide, by decide⟩

theorem joinTail_head (sep : String) (hne : ¬(sep.data = []))
    (hsh : ∀ c, sep.data.head? = some c → isDigitC c = false ∧ ¬(c = '$'))
    {cs' : List String} :
    ∀ c, (joinTail sep cs').data.head? = some c →
      isDigitC c = false ∧ ¬(c = '$') := by
  cases cs' with
  | nil => intro c hc; simp [joinTail] at hc
  | cons y ys =>
    intro c hc
    rw [show joinTail sep (y :: ys) = sep ++ joinSep sep (y :: ys) from rfl,
      String.data_append] at hc
    rcases head?_append_cases hc with hc | ⟨hnil2, -⟩
    · exact hsh c hc
    · exact absurd hnil2 hne

theorem phJoin_head_nondigit (i n : Nat) :
    ∀ c, ((joinSep ", " (phList i n)).data).head? = some c → isDigitC c = false := by
  cases n with
  | zero =>
    intro c hc
    rw [show phList i 0 = [] from rfl] at hc
    simp [joinSep] at hc
  | succ m =>
    intro c hc
    rw [phJoin_head_eq i m] at hc
    simp only [Option.some_inj] at hc
    subst hc
    decide

theorem compileWhere_nil_ps {rest : List (String × Value)} {i' : Nat}
    {cs' : List String} {ps' : List Value} {j' : Nat}
    (hr : compileWhere rest i' = .ok (cs', ps', j')) (hlen : cs'.length = rest.length)
    (hcs : cs' = []) : ps' = [] := by
  subst hcs
  have hre : rest = [] := List.length_eq_zero.mp hlen.symm
  subst hre
  simp only [compileWhere, Except.ok.injEq, Prod.mk.injEq] at hr
  exact hr.2.1.symm

/-- Conclusion package for an entry compiling to `<col><mid>$i` with one bound
parameter (`= $i` and `LIKE $i` entries). -/
theorem entry_dollar_case (sep : String)
    (hsd : sep.data.all (fun c => !(c = '$')) = true)
    (hsne : ¬(sep.data = []))
    (hsh : ∀ c, sep.data.head? = some c → isDigitC c = false ∧ ¬(c = '$'))
    (hsa : ∀ st : Bool, allowAfter st sep.data = true)
    {col : String} (hv : validateIdentifier col = true)
    (mid : String) (midLit : List Char) (hmid : mid.data = midLit ++ ['$'])
    (hml : midLit.all (fun c => !(c = '$')) = true)
    (hml_ne : ¬(midLit = []))
    (hml_head : ∀ c, midLit.head? = some c → isDigitC c = false)
    (hml_last : allowAfter false midLit = true)
    {cs' : List String} {ps' : List Value} {i j' restLen : Nat}
    (ih1 : j' = i + 1 + ps'.length)
    (ih2 : cs'.length = restLen)
    (ih3 : ∀ c, (joinSep sep cs').data.head? = some c → isIdentStart c = true)
    (ih4 : ∀ b : List Char, (∀ c, b.head? = some c → isDigitC c = false ∧ ¬(c = '$')) →
        scanPH true ((joinSep sep cs').data ++ b) =
          List.range' (i + 1) ps'.length ++ scanPH false b)
    (hnil : cs' = [] → ps' = [])
    (v0 : Value) :
    j' = i + (v0 :: ps').length ∧
    ((col ++ mid ++ natStr i) :: cs').length = restLen + 1 ∧
    (∀ c, (joinSep sep ((col ++ mid ++ natStr i) :: cs')).data.head? = some c →
      isIdentStart c = true) ∧
    (∀ b : List Char, (∀ c, b.head? = some c → isDigitC c = false ∧ ¬(c = '$')) →
      scanPH true ((joinSep sep ((col ++ mid ++ natStr i) :: cs')).data ++ b) =
        List.range' i (v0 :: ps').length ++ scanPH false b) := by
  refine ⟨by simp only [List.length_cons]; omega, by simp [ih2], ?_, ?_⟩
  · rw [joinSep_eq_joinTail]
    simp only [String.append_assoc]
    exact head_prop_col hv
  · intro b hb
    rw [joinSep_eq_joinTail]
    simp only [String.append_assoc, String.data_append, hmid, natStr_data,
      List.append_assoc, List.singleton_append, List.cons_append, List.nil_append]
    have ht : ∀ c, ((joinTail sep cs').data ++ b).head? = some c →
        isDigitC c = false := by
      intro c hc
      rcases head?_append_cases hc with hc | ⟨-, hc⟩
      · exact (joinTail_head sep hsne hsh c hc).1
      · exact (hb c hc).1
    rw [scan_col_dollar hv midLit hml hml_ne hml_head hml_last i ht true]
    rw [joinTail_scan sep hsd hsa ih4 ih3 hnil hb false]
    rw [show (v0 :: ps').length = ps'.length + 1 from rfl]
    rw [List.range'_succ]
    rfl

/-- Master property of the Condition Compiler: the next parameter index
advances by exactly the number of bound parameters, every entry produces one
fragment, the joined fragment starts with an identifier character, and — for
any continuation starting with a non-digit, non-`$` character — the
placeholders of the joined fragment are exactly `$i ... $(i+|params|-1)`,
contiguous and increasing from the starting index. -/
theorem compileWhere_props :
    ∀ (wm : List (String × Value)) (i : Nat) (conds : List String) (ps : List Value)
      (j : Nat), compileWhere wm i = .ok (conds, ps, j) →
      j = i + ps.length ∧
      conds.length = wm.length ∧
      (∀ c, (joinSep " AND " conds).data.head? = some c → isIdentStart c = true) ∧
      (∀ b : List Char, (∀ c, b.head? = some c → isDigitC c = false ∧ ¬(c = '$')) →
        scanPH true ((joinSep " AND " conds).data ++ b) =
          List.range' i ps.length ++ scanPH false b) := by
  intro wm
  induction wm with
  | nil =>
    intro i conds ps j h
    simp only [compileWhere, Except.ok.injEq, Prod.mk.injEq] at h
    obtain ⟨h1, h2, h3⟩ := h
    subst h1; subst h2; subst h3
    refine ⟨by simp, rfl, by intro c hc; simp [joinSep] at hc, ?_⟩
    intro b hb
    rw [show (joinSep " AND " ([] : List String)) = "" from rfl]
    rw [show ("" : String).data = [] from rfl, List.nil_append]
    rw [show List.range' i ([] : List Value).length = [] from rfl, List.nil_append]
    exact scanPH_head_not_dollar (fun c hc => (hb c hc).2) true false
  | cons entry rest ih =>
    intro i conds ps j h
    obtain ⟨col, v⟩ := entry
    rw [compileWhere] at h
    cases hs : sanitizeIdentifier col with
    | error e => simp only [hs] at h; exact absurd h (by simp)
    | ok c =>
      simp only [hs] at h
      obtain ⟨hc, hv⟩ := sanitizeIdentifier_ok hs
      subst hc
      cases v with
      | vNull =>
        cases hr : compileWhere rest i with
        | error e => simp only [hr] at h; exact absurd h (by simp)
        | ok trip =>
          obtain ⟨cs', ps', j'⟩ := trip
          simp only [hr] at h
          simp only [Except.ok.injEq, Prod.mk.injEq] at h
          obtain ⟨h1, h2, h3⟩ := h
          subst h1; subst h2; subst h3
          obtain ⟨ih1, ih2, ih3, ih4⟩ := ih i cs' ps' j' hr
          have hnil : cs' = [] → ps' = [] := compileWhere_nil_ps hr ih2
          refine ⟨by omega, by simp [ih2], ?_, ?_⟩
          · rw [joinSep_eq_joinTail, String.append_assoc]
            exact head_prop_col hv
          · intro b hb
            rw [joinSep_eq_joinTail]
            simp only [String.append_assoc, String.data_append, List.append_assoc]
            have hlitrest : ∀ c,
                ((" IS NULL").data ++ ((joinTail " AND " cs').data ++ b)).head? =
                some c → isDigitC c = false := by
              intro c hc
              rw [head?_append_left (by decide)] at hc
              simp only [List.head?_cons, Option.some_inj] at hc
              subst hc
              decide
            rw [scan_valid_ident_step hv hlitrest true]
            have hjt : ∀ c, ((joinTail " AND " cs').data ++ b).head? = some c →
                isDigitC c = false := by
              intro c hc
              rcases head?_append_cases hc with hc | ⟨-, hc⟩
              · exact (joinTail_head " AND " (by decide) sepAND_head c hc).1
              · exact (hb c hc).1
            rw [scan_lit_step false (" IS NULL").data (by decide) hjt rfl]
            exact joinTail_scan " AND " (by decide) (fun st => rfl) ih4 ih3 hnil hb false
      | vArr xs =>
        cases hr : compileWhere rest (i + xs.length) with
        | error e => simp only [hr] at h; exact absurd h (by simp)
        | ok trip =>
          obtain ⟨cs', ps', j'⟩ := trip
          simp only [hr] at h
          simp only [Except.ok.injEq, Prod.mk.injEq] at h
          obtain ⟨h1, h2, h3⟩ := h
          subst h1; subst h2; subst h3
          obtain ⟨ih1, ih2, ih3, ih4⟩ := ih (i + xs.length) cs' ps' j' hr
          have hnil : cs' = [] → ps' = [] := compileWhere_nil_ps hr ih2
          refine ⟨by simp only [List.length_append]; omega, by simp [ih2], ?_, ?_⟩
          · rw [joinSep_eq_joinTail]
            simp only [String.append_assoc]
            exact head_prop_col hv
          · intro b hb
            rw [joinSep_eq_joinTail]
            simp only [String.append_assoc, String.data_append, List.append_assoc]
            have hin : ∀ c,
                ((" IN (").data ++ ((joinSep ", " (phList i xs.length)).data ++
                  ((")").data ++ ((joinTail " AND " cs').data ++ b)))).head? =
                some c → isDigitC c = false := by
              intro c hc
              rw [head?_append_left (by decide)] at hc
              simp only [List.head?_cons, Option.some_inj] at hc
              subst hc
              decide
            rw [scan_valid_ident_step hv hin true]
            have hph : ∀ c,
                ((joinSep ", " (phList i xs.length)).data ++
                  ((")").data ++ ((joinTail " AND " cs').data ++ b))).head? =
                some c → isDigitC c = false := by
              intro c hc
              rcases head?_append_cases hc with hc | ⟨-, hc⟩
              · exact phJoin_head_nondigit i xs.length c hc
              · rw [head?_append_left (by decide)] at hc
                simp only [List.head?_cons, Option.some_inj] at hc
                subst hc
                decide
            rw [scan_lit_step true (" IN (").data (by decide) hph rfl]
            have hcl : ∀ c, ((")").data ++ ((joinTail " AND " cs').data ++ b)).head? =
                some c → isDigitC c = false ∧ ¬(c = '$') := by
              intro c hc
              rw [head?_append_left (by decide)] at hc
              simp only [List.head?_cons, Option.some_inj] at hc
              subst hc
              exact ⟨by decide, by decide⟩
            rw [scanPH_phJoin hcl xs.length i]
            have hjt : ∀ c, ((joinTail " AND " cs').data ++ b).head? = some c →
                isDigitC c = false := by
              intro c hc
              rcases head?_append_cases hc with hc | ⟨-, hc⟩
              · exact (joinTail_head " AND " (by decide) sepAND_head c hc).1
              · exact (hb c hc).1
            rw [scan_lit_step true (")").data (by decide) hjt rfl]
            rw [joinTail_scan " AND " (by decide) (fun st => rfl) ih4 ih3 hnil hb true]
            rw [← List.append_assoc]
            have hra : List.range' i xs.length ++ List.range' (i + xs.length) ps'.length =
                List.range' i (xs.length + ps'.length) := by
              have h0 := List.range'_append i xs.length ps'.length 1
              simp only [one_mul] at h0
              rw [Nat.add_comm ps'.length xs.length] at h0
              exact h0
            rw [hra]
            have hlen : xs.length + ps'.length = (xs ++ ps').length := by
              simp [List.length_append]
            rw [hlen]
      | vStr s0 =>
        by_cases hsc : s0.contains '%' = true
        · simp only [hsc, if_true] at h
          cases hr : compileWhere rest (i + 1) with
          | error e => simp only [hr] at h; exact absurd h (by simp)
          | ok trip =>
            obtain ⟨cs', ps', j'⟩ := trip
            simp only [hr] at h
            simp only [Except.ok.injEq, Prod.mk.injEq] at h
            obtain ⟨h1, h2, h3⟩ := h
            subst h1; subst h2; subst h3
            obtain ⟨ih1, ih2, ih3, ih4⟩ := ih (i + 1) cs' ps' j' hr
            exact entry_dollar_case (" AND ") (by decide) (by decide) sepAND_head (fun st => rfl) hv (" LIKE $") ((" LIKE " : String).data) rfl
              (by decide) (by decide)
              (fun c hc => by
                rw [show ((" LIKE " : String).data).head? = some ' ' from rfl] at hc
                have hce := Option.some_inj.mp hc
                subst hce; decide)
              (by decide) ih1 ih2 ih3 ih4 (compileWhere_nil_ps hr ih2) (.vStr s0)
        · have hsc2 : s0.contains '%' = false := by simpa using hsc
          simp only [hsc2, Bool.false_eq_true, if_false] at h
          cases hr : compileWhere rest (i + 1) with
          | error e => simp only [hr] at h; exact absurd h (by simp)
          | ok trip =>
            obtain ⟨cs', ps', j'⟩ := trip
            simp only [hr] at h
            simp only [Except.ok.injEq, Prod.mk.injEq] at h
            obtain ⟨h1, h2, h3⟩ := h
            subst h1; subst h2; subst h3
            obtain ⟨ih1, ih2, ih3, ih4⟩ := ih (i + 1) cs' ps' j' hr
            exact entry_dollar_case (" AND ") (by decide) (by decide) sepAND_head (fun st => rfl) hv (" = $") ((" = " : String).data) rfl
              (by decide) (by decide)
              (fun c hc => by
                rw [show ((" = " : String).data).head? = some ' ' from rfl] at hc
                have hce := Option.some_inj.mp hc
                subst hce; decide)
              (by decide) ih1 ih2 ih3 ih4 (compileWhere_nil_ps hr ih2) (.vStr s0)
      | vBool b0 =>
        cases hr : compileWhere rest (i + 1) with
        | error e => simp only [hr] at h; exact absurd h (by simp)
        | ok trip =>
          obtain ⟨cs', ps', j'⟩ := trip
          simp only [hr] at h
          simp only [Except.ok.injEq, Prod.mk.injEq] at h
          obtain ⟨h1, h2, h3⟩ := h
          subst h1; subst h2; subst h3
          obtain ⟨ih1, ih2, ih3, ih4⟩ := ih (i + 1) cs' ps' j' hr
          exact entry_dollar_case (" AND ") (by decide) (by decide) sepAND_head (fun st => rfl) hv (" = $") ((" = " : String).data) rfl
            (by decide) (by decide)
            (fun c hc => by
              rw [show ((" = " : String).data).head? = some ' ' from rfl] at hc
              have hce := Option.some_inj.mp hc
              subst hce; decide)
            (by decide) ih1 ih2 ih3 ih4 (compileWhere_nil_ps hr ih2) (.vBool b0)
      | vNum n0 =>
        cases hr : compileWhere rest (i + 1) with
        | error e => simp only [hr] at h; exact absurd h (by simp)
        | ok trip =>
          obtain ⟨cs', ps', j'⟩ := trip
          simp only [hr] at h
          simp only [Except.ok.injEq, Prod.mk.injEq] at h
          obtain ⟨h1, h2, h3⟩ := h
          subst h1; subst h2; subst h3
          obtain ⟨ih1, ih2, ih3, ih4⟩ := ih (i + 1) cs' ps' j' hr
          exact entry_dollar_case (" AND ") (by decide) (by decide) sepAND_head (fun st => rfl) hv (" = $") ((" = " : String).data) rfl
            (by decide) (by decide)
            (fun c hc => by
              rw [show ((" = " : String).data).head? = some ' ' from rfl] at hc
              have hce := Option.some_inj.mp hc
              subst hce; decide)
            (by decide) ih1 ih2 ih3 ih4 (compileWhere_nil_ps hr ih2) (.vNum n0)

theorem compileSet_nil_ps {rest : List (String × Value)} {i' : Nat}
    {cs' : List String} {ps' : List Value} {j' : Nat}
    (hr : compileSet rest i' = .ok (cs', ps', j')) (hlen : cs'.length = rest.length)
    (hcs : cs' = []) : ps' = [] := by
  subst hcs
  have hre : rest = [] := List.length_eq_zero.mp hlen.symm
  subst hre
  simp only [compileSet, Except.ok.injEq, Prod.mk.injEq] at hr
  exact hr.2.1.symm

/-- Master property of the `SET` clause compiler (`updateData.ts` lines 56-61):
one `<col> = $i` fragment and one bound parameter per entry, placeholders
contiguous from the starting index. -/
theorem compileSet_props :
    ∀ (dm : List (String × Value)) (i : Nat) (conds : List String) (ps : List Value)
      (j : Nat), compileSet dm i = .ok (conds, ps, j) →
      j = i + ps.length ∧
      conds.length = dm.length ∧
      (∀ c, (joinSep ", " conds).data.head? = some c → isIdentStart c = true) ∧
      (∀ b : List Char, (∀ c, b.head? = some c → isDigitC c = false ∧ ¬(c = '$')) →
        scanPH true ((joinSep ", " conds).data ++ b) =
          List.range' i ps.length ++ scanPH false b) := by
  intro dm
  induction dm with
  | nil =>
    intro i conds ps j h
    simp only [compileSet, Except.ok.injEq, Prod.mk.injEq] at h
    obtain ⟨h1, h2, h3⟩ := h
    subst h1; subst h2; subst h3
    refine ⟨by simp, rfl, by intro c hc; simp [joinSep] at hc, ?_⟩
    intro b hb
    rw [show (joinSep ", " ([] : List String)) = "" from rfl]
    rw [show ("" : String).data = [] from rfl, List.nil_append]
    rw [show List.range' i ([] : List Value).length = [] from rfl, List.nil_append]
    exact scanPH_head_not_dollar (fun c hc => (hb c hc).2) true false
  | cons entry rest ih =>
    intro i conds ps j h
    obtain ⟨col, v⟩ := entry
    rw [compileSet] at h
    cases hs : sanitizeIdentifier col with
    | error e => simp only [hs] at h; exact absurd h (by simp)
    | ok c =>
      simp only [hs] at h
      obtain ⟨hc, hv⟩ := sanitizeIdentifier_ok hs
      subst hc
      cases hr : compileSet rest (i + 1) with
      | error e => simp only [hr] at h; exact absurd h (by simp)
      | ok trip =>
        obtain ⟨cs', ps', j'⟩ := trip
        simp only [hr] at h
        simp only [Except.ok.injEq, Prod.mk.injEq] at h
        obtain ⟨h1, h2, h3⟩ := h
        subst h1; subst h2; subst h3
        obtain ⟨ih1, ih2, ih3, ih4⟩ := ih (i + 1) cs' ps' j' hr
        exact entry_dollar_case (", ") (by decide) (by decide) sepComma_head
          (fun st => rfl) hv (" = $") ((" = " : String).data) rfl
          (by decide) (by decide)
          (fun c hc => by
            rw [show ((" = " : String).data).head? = some ' ' from rfl] at hc
            have hce := Option.some_inj.mp hc
            subst hce; decide)
          (by decide) ih1 ih2 ih3 ih4 (compileSet_nil_ps hr ih2) v

/-! ## JavaScript string operations -/

/-- `String.prototype.toLowerCase` (ASCII range). -/
def jsLower (s : String) : String := ⟨s.data.map lowerChar⟩

def jsTrimL (l : List Char) : List Char := l.dropWhile isJsWs

def jsTrimR (l : List Char) : List Char := (l.reverse.dropWhile isJsWs).reverse

/-- `String.prototype.trim`. -/
def jsTrim (s : String) : String := ⟨jsTrimL (jsTrimR s.data)⟩

/-- `.replace(/\s+/g, " ")`: every maximal whitespace run becomes one space
(fuel-based structural recursion; the fuel never runs out). -/
def collapseWsAux : Nat → List Char → List Char
  | 0, _ => []
  | _ + 1, [] => []
  | fuel + 1, c :: cs =>
    if isJsWs c then ' ' :: collapseWsAux fuel (cs.dropWhile isJsWs)
    else c :: collapseWsAux fuel cs

def collapseWs (l : List Char) : List Char := collapseWsAux (l.length + 1) l

/-- The `.trim().replace(/\s+/g, " ")` normalisation applied by `queryTable`
to its generated SQL. -/
def normalizeQuery (s : String) : String := ⟨collapseWs (jsTrim s).data⟩

theorem collapseWsAux_irrel : ∀ f1 : Nat, ∀ (f2 : Nat) (l : List Char),
    l.length < f1 → l.length < f2 → collapseWsAux f1 l = collapseWsAux f2 l := by
  intro f1
  induction f1 with
  | zero => intro f2 l h1 _; omega
  | succ f ih =>
    intro f2 l h1 h2
    cases f2 with
    | zero => omega
    | succ g =>
      cases l with
      | nil => rfl
      | cons c cs =>
        simp only [List.length_cons] at h1 h2
        show collapseWsAux (f + 1) (c :: cs) = collapseWsAux (g + 1) (c :: cs)
        rw [collapseWsAux, collapseWsAux]
        have hcs1 : cs.length < f := by omega
        have hcs2 : cs.length < g := by omega
        have hdw1 : (cs.dropWhile isJsWs).length < f :=
          lt_of_le_of_lt (dropWhile_length_le _ _) hcs1
        have hdw2 : (cs.dropWhile isJsWs).length < g :=
          lt_of_le_of_lt (dropWhile_length_le _ _) hcs2
        by_cases hc : isJsWs c = true
        · rw [if_pos hc, if_pos hc, ih g (cs.dropWhile isJsWs) hdw1 hdw2]
        · rw [if_neg hc, if_neg hc, ih g cs hcs1 hcs2]

theorem collapseWs_cons (c : Char) (cs : List Char) : collapseWs (c :: cs) =
    if isJsWs c then ' ' :: collapseWs (cs.dropWhile isJsWs)
    else c :: collapseWs cs := by
  unfold collapseWs
  simp only [List.length_cons]
  rw [collapseWsAux]
  have hdw : (cs.dropWhile isJsWs).length < cs.length + 1 :=
    Nat.lt_succ_of_le (dropWhile_length_le _ _)
  by_cases hc : isJsWs c = true
  · rw [if_pos hc, if_pos hc,
      collapseWsAux_irrel (cs.length + 1) ((cs.dropWhile isJsWs).length + 1)
        (cs.dropWhile isJsWs) hdw (Nat.lt_succ_self _)]
  · rw [if_neg hc, if_neg hc,
      collapseWsAux_irrel (cs.length + 1) (cs.length + 1) cs (Nat.lt_succ_self _)
        (Nat.lt_succ_self _)]

/-- Dropping digits commutes with whitespace collapsing (whitespace is never a
digit). -/
theorem collapseWs_digits (l : List Char) :
    (collapseWs l).takeWhile isDigitC = l.takeWhile isDigitC ∧
    (collapseWs l).dropWhile isDigitC = collapseWs (l.dropWhile isDigitC) := by
  induction l with
  | nil => exact ⟨rfl, rfl⟩
  | cons c cs ih =>
    rw [collapseWs_cons]
    by_cases hc : isJsWs c = true
    · rw [if_pos hc]
      have hns : isDigitC ' ' = false := by decide
      have hnc : isDigitC c = false := (isJsWs_not_ident hc).2.2
      constructor
      · rw [List.takeWhile_cons_of_neg (by simp [hns]),
          List.takeWhile_cons_of_neg (by simp [hnc])]
      · rw [List.dropWhile_cons_of_neg (by simp [hns]),
          List.dropWhile_cons_of_neg (by simp [hnc]), collapseWs_cons, if_pos hc]
    · rw [if_neg hc]
      by_cases hd : isDigitC c = true
      · constructor
        · rw [List.takeWhile_cons_of_pos hd, List.takeWhile_cons_of_pos hd, ih.1]
        · rw [List.dropWhile_cons_of_pos hd, List.dropWhile_cons_of_pos hd, ih.2]
      · constructor
        · rw [List.takeWhile_cons_of_neg (by simp [hd]),
            List.takeWhile_cons_of_neg (by simp [hd])]
        · rw [List.dropWhile_cons_of_neg (by simp [hd]),
            List.dropWhile_cons_of_neg (by simp [hd]), collapseWs_cons, if_neg hc]

/-- Scanning is insensitive to a leading whitespace run (whitespace characters
are neither `$` nor identifier characters, so the allow flag becomes `true` in
any case). -/
theorem scanPH_skip_ws {run : List Char} (h : ∀ c ∈ run, isJsWs c = true)
    (rest : List Char) : scanPH true (run ++ rest) = scanPH true rest := by
  induction run with
  | nil => rfl
  | cons c cs ih =>
    obtain ⟨hni, hnd, -⟩ := isJsWs_not_ident (h c (List.mem_cons_self c cs))
    rw [List.cons_append, scanPH_other hnd, hni]
    exact ih (fun d hd => h d (List.mem_cons_of_mem _ hd))

theorem scanPH_collapseWs : ∀ (l : List Char) (ok : Bool),
    scanPH ok (collapseWs l) = scanPH ok l := by
  suffices H : ∀ n, ∀ l : List Char, l.length ≤ n → ∀ ok,
      scanPH ok (collapseWs l) = scanPH ok l by
    exact fun l ok => H l.length l le_rfl ok
  intro n
  induction n with
  | zero =>
    intro l hl ok
    have : l = [] := List.length_eq_zero.mp (Nat.le_zero.mp hl)
    subst this
    rfl
  | succ n ih =>
    intro l hl ok
    cases l with
    | nil => rfl
    | cons c cs =>
      simp only [List.length_cons] at hl
      have hcs : cs.length ≤ n := by omega
      rw [collapseWs_cons]
      by_cases hws : isJsWs c = true
      · rw [if_pos hws]
        obtain ⟨hni, hnd, -⟩ := isJsWs_not_ident hws
        rw [scanPH_other (by decide), scanPH_other hnd]
        rw [show (!isIdentChar ' ') = true from by decide, hni, Bool.not_false]
        rw [ih (cs.dropWhile isJsWs) (le_trans (dropWhile_length_le _ _) hcs) true]
        conv_rhs => rw [← List.takeWhile_append_dropWhile (p := isJsWs) (l := cs)]
        rw [scanPH_skip_ws (fun d hd => List.mem_takeWhile_imp hd) (cs.dropWhile isJsWs)]
      · rw [if_neg hws]
        by_cases hc : c = '$'
        · subst hc
          cases ok with
          | false =>
            rw [scanPH_dollar_false, scanPH_dollar_false]
            exact ih cs hcs false
          | true =>
            by_cases hrun : cs.takeWhile isDigitC = []
            · rw [scanPH_dollar_nodigit hrun,
                scanPH_dollar_nodigit (by rw [(collapseWs_digits cs).1]; exact hrun)]
              exact ih cs hcs false
            · rw [scanPH_dollar_hit hrun,
                scanPH_dollar_hit (by rw [(collapseWs_digits cs).1]; exact hrun)]
              rw [(collapseWs_digits cs).1, (collapseWs_digits cs).2]
              rw [ih (cs.dropWhile isDigitC) (le_trans (dropWhile_length_le _ _) hcs) false]
        · rw [scanPH_other hc, scanPH_other hc]
          exact ih cs hcs (!isIdentChar c)

theorem scanPH_jsTrimR (l : List Char) :
    scanPH true (jsTrimR l) = scanPH true l := by
  have hdecomp : l = jsTrimR l ++ (l.reverse.takeWhile isJsWs).reverse := by
    have h1 : l.reverse.takeWhile isJsWs ++ l.reverse.dropWhile isJsWs = l.reverse :=
      List.takeWhile_append_dropWhile _ _
    calc l = l.reverse.reverse := (List.reverse_reverse l).symm
    _ = (l.reverse.takeWhile isJsWs ++ l.reverse.dropWhile isJsWs).reverse := by rw [h1]
    _ = (l.reverse.dropWhile isJsWs).reverse ++ (l.reverse.takeWhile isJsWs).reverse := by
        rw [List.reverse_append]
    _ = jsTrimR l ++ (l.reverse.takeWhile isJsWs).reverse := rfl
  conv_rhs => rw [hdecomp]
  have hws : ∀ c ∈ (l.reverse.takeWhile isJsWs).reverse, isJsWs c = true := by
    intro c hc
    rw [List.mem_reverse] at hc
    exact List.mem_takeWhile_imp hc
  have hhead : ∀ c, ((l.reverse.takeWhile isJsWs).reverse).head? = some c →
      isDigitC c = false := by
    intro c hc
    cases hr : (l.reverse.takeWhile isJsWs).reverse with
    | nil => rw [hr] at hc; simp at hc
    | cons x xs =>
      rw [hr] at hc
      simp only [List.head?_cons, Option.some_inj] at hc
      subst hc
      exact (isJsWs_not_ident (hws x (by rw [hr]; exact List.mem_cons_self x xs))).2.2
  rw [scanPH_append hhead (jsTrimR l) true]
  rw [scanPH_no_dollar
    (fun c hc => (isJsWs_not_ident (hws c hc)).2.1) (allowAfter true (jsTrimR l))]
  rw [List.append_nil]

/-- The placeholders of the normalised query are those of the raw query:
trimming and whitespace collapsing never create, destroy or renumber a
placeholder. -/
theorem placeholderNums_normalize (s : String) :
    placeholderNums (normalizeQuery s) = placeholderNums s := by
  show scanPH true (collapseWs (jsTrim s).data) = scanPH true s.data
  rw [scanPH_collapseWs]
  show scanPH true (jsTrimL (jsTrimR s.data)) = scanPH true s.data
  rw [← scanPH_jsTrimR s.data]
  conv_rhs => rw [← List.takeWhile_append_dropWhile (p := isJsWs) (l := jsTrimR s.data)]
  rw [scanPH_skip_ws (fun d hd => List.mem_takeWhile_imp hd) _]
  rfl

/-! ## String predicates used by the free-form guard -/

/-- `String.prototype.startsWith`. -/
def strStartsWith (s p : String) : Bool := p.data.isPrefixOf s.data

def subSearch (needle : List Char) : List Char → Bool
  | [] => needle.isPrefixOf []
  | c :: cs => needle.isPrefixOf (c :: cs) || subSearch needle cs

/-- `String.prototype.includes`. -/
def strIncludes (s sub : String) : Bool := subSearch sub.data s.data

/-- Case-insensitive prefix match, the effect of a `/.../i` regex on a literal
word. -/
def ciPrefixAt : List Char → List Char → Bool
  | [], _ => true
  | _ :: _, [] => false
  | p :: ps, c :: cs => (lowerChar p = lowerChar c) && ciPrefixAt ps cs

/-- Match `w2` after one-or-more whitespace (`\s+w2`); `\s+` is greedy and the
keywords never start with whitespace, so the maximal run is the only
candidate. -/
def wsThenWord (w2 : List Char) (l : List Char) : Bool :=
  !(l.takeWhile isJsWs).isEmpty && ciPrefixAt w2 (l.dropWhile isJsWs)

/-- Match `w1\s+w2` at the current position. -/
def matchTwoAt (w1 w2 : List Char) (l : List Char) : Bool :=
  ciPrefixAt w1 l && wsThenWord w2 (l.drop w1.length)

/-- Match `.*w3` (dot excludes line terminators). -/
def seekWord (w : List Char) : List Char → Bool
  | [] => ciPrefixAt w []
  | c :: cs => ciPrefixAt w (c :: cs) || (isDotChar c && seekWord w cs)

/-- Match `w1\s+w2.*w3` at the current position. -/
def matchThreeAt (w1 w2 w3 : List Char) (l : List Char) : Bool :=
  ciPrefixAt w1 l &&
    (!((l.drop w1.length).takeWhile isJsWs).isEmpty &&
      (ciPrefixAt w2 ((l.drop w1.length).dropWhile isJsWs) &&
        seekWord w3 (((l.drop w1.length).dropWhile isJsWs).drop w2.length)))

/-- `RegExp.prototype.test`: match at any position. -/
def searchAt (p : List Char → Bool) : List Char → Bool
  | [] => p []
  | c :: cs => p (c :: cs) || searchAt p cs

def reTestTwo (w1 w2 s : String) : Bool := searchAt (matchTwoAt w1.data w2.data) s.data

def reTestThree (w1 w2 w3 s : String) : Bool :=
  searchAt (matchThreeAt w1.data w2.data w3.data) s.data

/-- The `dangerousPatterns` list of the free-form `executeQuery` tool:
`/drop\s+table/i`, `/drop\s+database/i`, `/drop\s+schema/i`,
`/truncate\s+table/i`, `/alter\s+table.*drop/i`, `/alter\s+table.*add/i`,
`/create\s+table/i`, `/insert\s+into/i`, each tested against the raw query. -/
def dangerousMatch (q : String) : Bool :=
  reTestTwo "drop" "table" q || reTestTwo "drop" "database" q ||
  reTestTwo "drop" "schema" q || reTestTwo "truncate" "table" q ||
  reTestThree "alter" "table" "drop" q || reTestThree "alter" "table" "add" q ||
  reTestTwo "create" "table" q || reTestTwo "insert" "into" q

/-- The pre-execution checks of the free-form `executeQuery` tool (lines 37-64
of the source): first the DELETE-without-WHERE and UPDATE-without-WHERE checks
on the trimmed, lower-cased text, then the dangerous-pattern loop on the raw
text.  Any hit throws, so nothing is executed. -/
def executeQueryChecks (query : String) : Except String Unit :=
  let trimmedQuery := jsLower (jsTrim query)
  if strStartsWith trimmedQuery "delete from" && !(strIncludes trimmedQuery " where ") then
    .error "DELETE without WHERE clause is not allowed for safety."
  else if strStartsWith trimmedQuery "update " && strIncludes trimmedQuery " set " &&
      !(strIncludes trimmedQuery " where ") then
    .error "UPDATE without WHERE clause is not allowed for safety."
  else if dangerousMatch query then
    .error "Potentially dangerous SQL operation detected. Query rejected for safety."
  else .ok ()

/-! ## Numeric coercion of free-form results

`executeQuery` post-processes every result row: string fields that `Number()`
parses to a non-`NaN` value are replaced by that number.  `jsNumber` models
`Number(string)`: trim, empty → 0, signed decimal literal (with optional
fraction and exponent) or `Infinity`, or unsigned `0x`/`0o`/`0b` literal;
anything else is `NaN`, modelled as `none`. -/

def hexDigitVal (c : Char) : Option Nat :=
  if isDigitC c then some (c.toNat - 48)
  else
    if decide (97 ≤ (lowerChar c).toNat) && decide ((lowerChar c).toNat ≤ 102) then
      some ((lowerChar c).toNat - 87)
    else none

def octDigitVal (c : Char) : Option Nat :=
  if decide (48 ≤ c.toNat) && decide (c.toNat ≤ 55) then some (c.toNat - 48) else none

def binDigitVal (c : Char) : Option Nat :=
  if c = '0' then some 0 else if c = '1' then some 1 else none

def parseRadix (dv : Char → Option Nat) (base : Nat) (l : List Char) : Option ℚ :=
  if l.isEmpty then none
  else
    (l.foldl (fun acc c =>
      match acc, dv c with
      | some a, some d => some (base * a + d)
      | _, _ => none) (some 0)).map (fun n => (n : ℚ))

def parseExpPart (m : ℚ) : List Char → Option ℚ
  | [] => some m
  | c :: rest =>
    if c = 'e' || c = 'E' then
      match rest with
      | '+' :: ds =>
        if !ds.isEmpty && ds.all isDigitC then some (m * 10 ^ digitsVal ds) else none
      | '-' :: ds =>
        if !ds.isEmpty && ds.all isDigitC then some (m / 10 ^ digitsVal ds) else none
      | ds =>
        if !ds.isEmpty && ds.all isDigitC then some (m * 10 ^ digitsVal ds) else none
    else none

def parseDecFull (l : List Char) : Option ℚ :=
  let d1 := l.takeWhile isDigitC
  match l.dropWhile isDigitC with
  | '.' :: r2 =>
    let d2 := r2.takeWhile isDigitC
    if d1.isEmpty && d2.isEmpty then none
    else
      parseExpPart ((digitsVal d1 : ℚ) + (digitsVal d2 : ℚ) / 10 ^ d2.length)
        (r2.dropWhile isDigitC)
  | r1 => if d1.isEmpty then none else parseExpPart ((digitsVal d1 : ℚ)) r1

def parseUnsignedJs (l : List Char) : Option JsNum :=
  if l = ("Infinity" : String).data then some .posInf
  else (parseDecFull l).map .fin

def jsNumNeg : JsNum → JsNum
  | .fin q => .fin (-q)
  | .posInf => .negInf
  | .negInf => .posInf

def jsNumber (s : String) : Option JsNum :=
  let t := jsTrimL (jsTrimR s.data)
  if t.isEmpty then some (.fin 0)
  else
    match t with
    | '+' :: r => parseUnsignedJs r
    | '-' :: r => (parseUnsignedJs r).map jsNumNeg
    | '0' :: c :: r =>
      if c = 'x' || c = 'X' then (parseRadix hexDigitVal 16 r).map .fin
      else if c = 'o' || c = 'O' then (parseRadix octDigitVal 8 r).map .fin
      else if c = 'b' || c = 'B' then (parseRadix binDigitVal 2 r).map .fin
      else parseUnsignedJs ('0' :: c :: r)
    | r => parseUnsignedJs r

/-- `Number.isInteger`. -/
def jsNumIsInt : JsNum → Bool
  | .fin q => q.den == 1
  | _ => false

/-- Per-field coercion (source lines 87-103): a non-empty string whose
`Number()` image is not `NaN` becomes that number; the inner test
`Number.isInteger(numValue) || !Number.isNaN(numValue)` is a tautology once
parsing succeeded, so its else branch is dead. -/
def convertVal (v : Value) : Value :=
  match v with
  | .vStr s =>
    if ¬(s = "") then
      match jsNumber s with
      | some numValue =>
        if jsNumIsInt numValue || true then .vNum numValue else .vStr s
      | none => .vStr s
    else .vStr s
  | v => v

def convertRow (r : Row) : Row := r.map (fun kv => (kv.1, convertVal kv.2))

/-! ## Tool embeddings

Each tool is a pure function of its (schema-parsed) parameters, the
connection status, and oracles for what the database returns (the
impact-estimation count, the result rows, the affected-row count).  The result
carries the exact ordered list of statements the tool sends to the database.
Timestamps (`deleted_at` etc.) are wall-clock strings and are omitted from the
response models. -/

structure Stmt where
  sql : String
  params : List Value

inductive ToolOut (α : Type) where
  | err (trace : List Stmt) (msg : String)
  | ok (trace : List Stmt) (resp : α)

def ToolOut.trace {α : Type} : ToolOut α → List Stmt
  | .err t _ => t
  | .ok t _ => t

def ToolOut.isErr {α : Type} : ToolOut α → Bool
  | .err _ _ => true
  | .ok _ _ => false

/-- The message used by `createDatabaseUnavailableResponse`. -/
def dbUnavailableMsg : String := "Database connection is not available"

structure DeleteParams where
  table : String
  whereMap : List (String × Value)
  confirm_delete : Bool
  returning : Option (List String)

structure DeleteResp where
  table : String
  deleted_count : Nat
  data : Option (List Row)
  message : Option String

/-- `RETURNING` list validation: the literal `*` passes through, anything else
goes through `sanitizeIdentifier` (`col === "*" ? "*" : sanitizeIdentifier(col)`,
identical in `deleteData`, `updateData` and `insertData`). -/
def sanitizeReturning : List String → Except String (List String)
  | [] => .ok []
  | col :: rest =>
    match (if col = "*" then Except.ok "*" else sanitizeIdentifier col) with
    | .error e => .error e
    | .ok c =>
      match sanitizeReturning rest with
      | .error e => .error e
      | .ok cs => .ok (c :: cs)

/-- Build and issue the `DELETE` statement (lines 100-127 of `deleteData.ts`),
after the guard has allowed it; `pre` is the trace of the estimation query if
one ran. -/
def deleteFinish (t whereClause : String) (qps : List Value)
    (returning : Option (List String)) (pre : List Stmt)
    (modRows : List Row) (modCount : Nat) : ToolOut DeleteResp :=
  let baseQuery := "DELETE FROM " ++ t ++ " WHERE " ++ whereClause
  match returning with
  | none => .ok (pre ++ [⟨baseQuery, qps⟩]) ⟨t, modCount, none, none⟩
  | some cols =>
    if 0 < cols.length then
      match sanitizeReturning cols with
      | .error e => .err pre e
      | .ok rs =>
        .ok (pre ++ [⟨baseQuery ++ " RETURNING " ++ joinSep ", " rs, qps⟩])
          ⟨t, modCount, some modRows, none⟩
    else
      .ok (pre ++ [⟨baseQuery, qps⟩])
        ⟨t, modCount, some (List.replicate modCount ([] : List (String × Value))), none⟩

def confirmDeleteMsg (affectedRows : Nat) : String :=
  "This operation would delete " ++ natStr affectedRows ++
    " rows. If you're sure you want to proceed, set confirm_delete to true."

/-- `deleteData` (`src/tools/deleteData.ts`): connection check, table
validation, mandatory-WHERE check, WHERE compilation, impact estimation
(unless `confirm_delete`), then the `DELETE` itself.  `countO` is the count
the estimation query would return; `modRows`/`modCount` what the `DELETE`
would return. -/
def deleteData (p : DeleteParams) (connected : Bool) (countO : Nat)
    (modRows : List Row) (modCount : Nat) : ToolOut DeleteResp :=
  if !connected then .err [] dbUnavailableMsg
  else
    match sanitizeIdentifier p.table with
    | .error e => .err [] e
    | .ok t =>
      if p.whereMap.isEmpty then
        .err [] "WHERE clause is required for DELETE operations for safety"
      else
        match compileWhere p.whereMap 1 with
        | .error e => .err [] e
        | .ok (conds, qps, _) =>
          let whereClause := joinSep " AND " conds
          if !p.confirm_delete then
            let countStmt : Stmt :=
              ⟨"SELECT COUNT(*) as count FROM " ++ t ++ " WHERE " ++ whereClause, qps⟩
            if 100 < countO then .err [countStmt] (confirmDeleteMsg countO)
            else if countO = 0 then
              .ok [countStmt] ⟨t, 0, none, some "No rows match the WHERE conditions"⟩
            else deleteFinish t whereClause qps p.returning [countStmt] modRows modCount
          else deleteFinish t whereClause qps p.returning [] modRows modCount

structure UpdateParams where
  table : String
  data : List (String × Value)
  whereMap : List (String × Value)
  returning : List String

structure UpdateResp where
  table : String
  updated_count : Nat
  data : List Row

/-- `updateData` (`src/tools/updateData.ts`): connection check, table
validation, non-empty data check, mandatory-WHERE check, SET compilation
(parameters first), WHERE compilation (parameters appended after), optional
RETURNING, then the single `UPDATE`. -/
def updateData (p : UpdateParams) (connected : Bool)
    (modRows : List Row) (modCount : Nat) : ToolOut UpdateResp :=
  if !connected then .err [] dbUnavailableMsg
  else
    match sanitizeIdentifier p.table with
    | .error e => .err [] e
    | .ok t =>
      if p.data.isEmpty then .err [] "No data provided for update"
      else if p.whereMap.isEmpty then
        .err [] "WHERE clause is required for UPDATE operations for safety"
      else
        match compileSet p.data 1 with
        | .error e => .err [] e
        | .ok (setClauses, setPs, i2) =>
          match compileWhere p.whereMap i2 with
          | .error e => .err [] e
          | .ok (wconds, wps, _) =>
            let updateQuery := "\n      UPDATE " ++ t ++ "\n      SET " ++
              joinSep ", " setClauses ++ "\n      WHERE " ++
              joinSep " AND " wconds ++ "\n    "
            let queryParams := setPs ++ wps
            if 0 < p.returning.length then
              match sanitizeReturning p.returning with
              | .error e => .err [] e
              | .ok rs =>
                .ok [⟨updateQuery ++ " RETURNING " ++ joinSep ", " rs, queryParams⟩]
                  ⟨t, modCount, modRows⟩
            else
              .ok [⟨updateQuery, queryParams⟩]
                ⟨t, modCount, List.replicate modCount ([] : List (String × Value))⟩

structure Pagination where
  limit : Nat
  offset : Nat

inductive SortDir where
  | asc
  | desc

def SortDir.toSql : SortDir → String
  | .asc => "ASC"
  | .desc => "DESC"

structure SortSpec where
  column : String
  direction : SortDir

structure QueryParams where
  table : String
  columns : Option (List String)
  whereMap : Option (List (String × Value))
  pagination : Option Pagination
  sort : Option SortSpec

structure PagBlock where
  total : Nat
  limit : Nat
  offset : Nat
  hasMore : Bool

structure QueryResp where
  table : String
  count : Nat
  data : List Row
  pagination : Option PagBlock

/-- Column-list validation (`columns.map(sanitizeIdentifier)`), fail-fast. -/
def sanitizeCols : List String → Except String (List String)
  | [] => .ok []
  | c :: rest =>
    match sanitizeIdentifier c with
    | .error e => .error e
    | .ok c2 =>
      match sanitizeCols rest with
      | .error e => .error e
      | .ok cs => .ok (c2 :: cs)

/-- `queryTable`'s SELECT list: `columns?.length` truthy → validated join,
otherwise `*`. -/
def buildSelectClause (columns : Option (List String)) : Except String String :=
  match columns with
  | some cols =>
    if 0 < cols.length then
      match sanitizeCols cols with
      | .error e => .error e
      | .ok l => .ok (joinSep ", " l)
    else .ok "*"
  | none => .ok "*"

/-- `queryTable`'s WHERE clause: compiled only when the condition map is
present and non-empty, prefixed with `WHERE `; otherwise empty with the
parameter counter still at 1. -/
def buildWhere (wm : Option (List (String × Value))) :
    Except String (String × List Value × Nat) :=
  match wm with
  | some m =>
    if 0 < m.length then
      match compileWhere m 1 with
      | .error e => .error e
      | .ok (conds, ps, j) => .ok ("WHERE " ++ joinSep " AND " conds, ps, j)
    else .ok ("", [], 1)
  | none => .ok ("", [], 1)

def buildOrder (sort : Option SortSpec) : Except String String :=
  match sort with
  | none => .ok ""
  | some so =>
    match sanitizeIdentifier so.column with
    | .error e => .error e
    | .ok c => .ok ("ORDER BY " ++ c ++ " " ++ so.direction.toSql)

/-- `queryTable` (`queryTable.ts`): SELECT/WHERE/ORDER BY/LIMIT-OFFSET
construction with `.trim().replace(/\s+/g, " ")` normalisation, then — when
pagination is present — the `SELECT COUNT(*)` statement with the same WHERE
clause and the parameter list minus its last two entries.  `rows` is what the
main query returns and `totalO` the total the count query reports. -/
def queryTable (p : QueryParams) (connected : Bool) (rows : List Row)
    (totalO : Nat) : ToolOut QueryResp :=
  if !connected then .err [] dbUnavailableMsg
  else
    match sanitizeIdentifier p.table with
    | .error e => .err [] e
    | .ok t =>
      match buildSelectClause p.columns with
      | .error e => .err [] e
      | .ok selectClause =>
        match buildWhere p.whereMap with
        | .error e => .err [] e
        | .ok (whereClause, wps, paramIndex) =>
          match buildOrder p.sort with
          | .error e => .err [] e
          | .ok orderClause =>
            let limitClause :=
              match p.pagination with
              | some _ => "LIMIT $" ++ natStr paramIndex ++ " OFFSET $" ++
                  natStr (paramIndex + 1)
              | none => ""
            let queryParams :=
              match p.pagination with
              | some pag => wps ++
                  [Value.vNum (.fin (pag.limit : ℚ)), Value.vNum (.fin (pag.offset : ℚ))]
              | none => wps
            let query := normalizeQuery ("\n      SELECT " ++ selectClause ++
              "\n      FROM " ++ t ++ "\n      " ++ whereClause ++ "\n      " ++
              orderClause ++ "\n      " ++ limitClause ++ "\n    ")
            match p.pagination with
            | some pag =>
              let countQuery := normalizeQuery ("\n        SELECT COUNT(*) as total" ++
                "\n        FROM " ++ t ++ "\n        " ++ whereClause ++ "\n      ")
              let countParams := queryParams.take (queryParams.length - 2)
              .ok [⟨query, queryParams⟩, ⟨countQuery, countParams⟩]
                ⟨t, rows.length, rows,
                  some ⟨totalO, pag.limit, pag.offset, decide (pag.offset + pag.limit < totalO)⟩⟩
            | none => .ok [⟨query, queryParams⟩] ⟨t, rows.length, rows, none⟩

/-- The zod `paginationSchema` of `utils.ts`:
`limit: z.number().int().min(1).max(1000).optional().default(50)`,
`offset: z.number().int().min(0).optional().default(0)`.  Inputs are arbitrary
JSON field values (absent = `undefined`). -/
def parsePagination (limitField offsetField : Option Value) : Except String Pagination :=
  match (match limitField with
    | none => Except.ok 50
    | some (.vNum (.fin q)) =>
      if ¬(q.den = 1) then Except.error "Expected integer, received float"
      else if q < 1 then Except.error "Number must be greater than or equal to 1"
      else if 1000 < q then Except.error "Number must be less than or equal to 1000"
      else Except.ok q.num.toNat
    | some (.vNum _) => Except.error "Expected integer, received float"
    | some _ => Except.error "Expected number") with
  | .error e => .error e
  | .ok lim =>
    match (match offsetField with
      | none => Except.ok 0
      | some (.vNum (.fin q)) =>
        if ¬(q.den = 1) then Except.error "Expected integer, received float"
        else if q < 0 then Except.error "Number must be greater than or equal to 0"
        else Except.ok q.num.toNat
      | some (.vNum _) => Except.error "Expected integer, received float"
      | some _ => Except.error "Expected number") with
    | .error e => .error e
    | .ok off => .ok ⟨lim, off⟩

/-- `queryTable` as invoked through its zod schema: the pagination object (a
pair of optional JSON fields when supplied) is parsed — with defaults and
bounds — before anything else runs; a parse failure reaches the caller with no
statement issued. -/
def queryTableRaw (table : String) (columns : Option (List String))
    (whereMap : Option (List (String × Value)))
    (pagination : Option (Option Value × Option Value)) (sort : Option SortSpec)
    (connected : Bool) (rows : List Row) (totalO : Nat) : ToolOut QueryResp :=
  match pagination with
  | none => queryTable ⟨table, columns, whereMap, none, sort⟩ connected rows totalO
  | some (lf, off) =>
    match parsePagination lf off with
    | .error e => .err [] e
    | .ok pag => queryTable ⟨table, columns, whereMap, some pag, sort⟩ connected rows totalO

inductive OnConflict where
  | error
  | ignore
  | update

structure InsertParams where
  table : String
  /-- The record batch after the `Array.isArray(data) ? data : [data]`
  normalisation: a single record arrives as a one-element list. -/
  data : List Row
  on_conflict : OnConflict
  conflict_columns : Option (List String)
  returning : List String

structure InsertResp where
  table : String
  inserted_count : Nat
  records_provided : Nat
  data : List Row

/-- `recordColumns.length !== columns.length ||
!recordColumns.every(col => columns.includes(col))` negated. -/
def sameCols (columns : List String) (r : Row) : Bool :=
  (r.map Prod.fst).length == columns.length &&
    (r.map Prod.fst).all (fun k => columns.contains k)

/-- The batch check of `insertData` (source lines 163-169): `i` is the array
index of the record under scrutiny, the error names `i + 1`. -/
def checkBatch (columns : List String) : List Row → Nat → Except String Unit
  | [], _ => .ok ()
  | r :: rs, i =>
    if sameCols columns r then checkBatch columns rs (i + 1)
    else .error ("Record " ++ natStr (i + 1) ++ " has different columns than the first record")

/-- `record[column]`; with equal key sets the lookup always succeeds (a missing
key would read as JavaScript `undefined`, which the driver binds as NULL). -/
def jsGet (r : Row) (c : String) : Value := (List.lookup c r).getD .vNull

/-- The VALUES loop (source lines 176-184): one parenthesised placeholder group
per record, parameters in row-major order, the column order of the first
record reused for every record. -/
def buildValuesRows (columns : List String) : List Row → Nat → List String × List Value
  | [], _ => ([], [])
  | r :: rs, i =>
    let rowPh := "(" ++ joinSep ", " (phList i columns.length) ++ ")"
    let rowVals := columns.map (fun c => jsGet r c)
    let rest := buildValuesRows columns rs (i + columns.length)
    (rowPh :: rest.1, rowVals ++ rest.2)

/-- The `ON CONFLICT` clause (source lines 192-215). -/
def buildConflictClause (oc : OnConflict) (conflict_columns : Option (List String))
    (sanitizedColumns : List String) : Except String String :=
  match oc with
  | .error => .ok ""
  | oc =>
    match (match conflict_columns with
      | some ccs =>
        if 0 < ccs.length then
          match sanitizeCols ccs with
          | .error e => Except.error e
          | .ok l => Except.ok (" (" ++ joinSep ", " l ++ ")")
        else Except.ok ""
      | none => Except.ok "") with
    | .error e => .error e
    | .ok colsPart =>
      match oc with
      | .ignore => .ok (" ON CONFLICT" ++ colsPart ++ " DO NOTHING")
      | _ =>
        let updateClauses := (sanitizedColumns.filter (fun col =>
          !(match conflict_columns with
            | some ccs => ccs.contains col
            | none => false))).map (fun col => col ++ " = EXCLUDED." ++ col)
        if 0 < updateClauses.length then
          .ok (" ON CONFLICT" ++ colsPart ++ " DO UPDATE SET " ++ joinSep ", " updateClauses)
        else .ok (" ON CONFLICT" ++ colsPart ++ " DO NOTHING")

/-- `insertData` (`insertData.ts`): connection check, table validation,
non-empty batch check, column extraction from the first record, column
validation, equal-key-set check, multi-row VALUES construction, conflict
clause, RETURNING, then the single `INSERT`. -/
def insertData (p : InsertParams) (connected : Bool) (modRows : List Row)
    (modCount : Nat) : ToolOut InsertResp :=
  if !connected then .err [] dbUnavailableMsg
  else
    match sanitizeIdentifier p.table with
    | .error e => .err [] e
    | .ok t =>
      match p.data with
      | [] => .err [] "No data provided for insertion"
      | firstRecord :: restRecords =>
        let columns := firstRecord.map Prod.fst
        if columns.isEmpty then .err [] "No columns found in data"
        else
          match sanitizeCols columns with
          | .error e => .err [] e
          | .ok sanitizedColumns =>
            match checkBatch columns restRecords 1 with
            | .error e => .err [] e
            | .ok _ =>
              let vp := buildValuesRows columns (firstRecord :: restRecords) 1
              let insertQuery := "\n      INSERT INTO " ++ t ++ " (" ++
                joinSep ", " sanitizedColumns ++ ")\n      VALUES " ++
                joinSep ", " vp.1 ++ "\n    "
              match buildConflictClause p.on_conflict p.conflict_columns sanitizedColumns with
              | .error e => .err [] e
              | .ok conflictClause =>
                if 0 < p.returning.length then
                  match sanitizeReturning p.returning with
                  | .error e => .err [] e
                  | .ok rs =>
                    .ok [⟨insertQuery ++ conflictClause ++ " RETURNING " ++
                        joinSep ", " rs, vp.2⟩]
                      ⟨t, modCount, (firstRecord :: restRecords).length, modRows⟩
                else
                  .ok [⟨insertQuery ++ conflictClause, vp.2⟩]
                    ⟨t, modCount, (firstRecord :: restRecords).length,
                      List.replicate modCount ([] : List (String × Value))⟩

structure ExecResp where
  query_type : String
  row_count : Nat
  data : List Row
  execution_plan : Option (List Row)

/-- The free-form `executeQuery` tool (`src/unnamed/part_000`): connection
check, the safety checks of `executeQueryChecks`, the optional `EXPLAIN`
statement (whose failure is swallowed), the main statement, then the numeric
coercion of every result row.  `explainFails` says whether the `EXPLAIN`
attempt errored, `planRows` its rows when it succeeded, `mainRows` the rows of
the main statement. -/
def executeQuery (query : String) (qparams : List Value) (explain : Bool)
    (connected : Bool) (explainFails : Bool) (planRows : List Row)
    (mainRows : List Row) : ToolOut ExecResp :=
  if !connected then .err [] dbUnavailableMsg
  else
    match executeQueryChecks query with
    | .error e => .err [] e
    | .ok _ =>
      let explainTrace : List Stmt :=
        if explain then [⟨"EXPLAIN (FORMAT JSON, ANALYZE, BUFFERS) " ++ query, qparams⟩]
        else []
      let results := mainRows.map convertRow
      let trimmedQuery := jsLower (jsTrim query)
      let queryType :=
        if strStartsWith trimmedQuery "insert" then "INSERT"
        else if strStartsWith trimmedQuery "update" then "UPDATE"
        else if strStartsWith trimmedQuery "delete" then "DELETE"
        else if strStartsWith trimmedQuery "create" then "CREATE"
        else if strStartsWith trimmedQuery "alter" then "ALTER"
        else "SELECT"
      .ok (explainTrace ++ [⟨query, qparams⟩])
        ⟨queryType, results.length, results,
          if explain && !explainFails then some planRows else none⟩

/-! ## Placeholder-free segments -/

/-- A piece of SQL text containing no placeholder, whatever the state. -/
def NoPH (l : List Char) : Prop := ∀ st : Bool, scanPH st l = []

theorem noPH_nil : NoPH [] := fun _ => rfl

theorem noPH_lit {l : List Char} (h : l.all (fun c => !(c = '$')) = true) : NoPH l :=
  fun _ => scanPH_no_dollar (fun c hc => by simpa using (List.all_eq_true.mp h) c hc) _

theorem scan_valid_ident_nil {s : String} (h : validateIdentifier s = true) :
    NoPH s.data := by
  intro st
  obtain ⟨hne, hh, hall⟩ := validateIdentifier_chars h
  cases hd : s.data with
  | nil => rfl
  | cons c cs =>
    have hc : isIdentStart c = true := hh c (by rw [hd]; rfl)
    rw [scanPH_other (isIdentStart_ne_dollar hc)]
    rw [show isIdentChar c = true from isIdentStart_isIdentChar hc, Bool.not_true]
    exact scanPH_all_ident (fun d hdd => hall d (by rw [hd]; exact List.mem_cons_of_mem _ hdd))

theorem noPH_append {a b : List Char} (ha : NoPH a)
    (hb : ∀ c, b.head? = some c → isDigitC c = false) (h2 : NoPH b) : NoPH (a ++ b) := by
  intro st
  rw [scanPH_append hb a st, ha st, h2 (allowAfter st a)]
  rfl

theorem scan_noPH_step {a : List Char} (ha : NoPH a) {b : List Char}
    (hb : ∀ c, b.head? = some c → isDigitC c = false) {st st' : Bool}
    (hst : allowAfter st a = st') :
    scanPH st (a ++ b) = scanPH st' b := by
  rw [scanPH_append hb a st, ha st, hst]
  rfl

/-- An element of a validated RETURNING / column list: the literal `*` or a
valid identifier.  Either way the rendered element has no placeholder and does
not start with a digit or `$`. -/
def GoodItem (x : String) : Prop := x = "*" ∨ validateIdentifier x = true

theorem goodItem_noPH {x : String} (h : GoodItem x) : NoPH x.data := by
  rcases h with h | h
  · subst h; exact noPH_lit (by decide)
  · exact scan_valid_ident_nil h

theorem goodItem_head {x : String} (h : GoodItem x) :
    ∀ c, x.data.head? = some c → isDigitC c = false ∧ ¬(c = '$') := by
  rcases h with h | h
  · subst h
    intro c hc
    rw [show (("*" : String).data).head? = some '*' from rfl] at hc
    have hce := Option.some_inj.mp hc
    subst hce
    exact ⟨by decide, by decide⟩
  · intro c hc
    obtain ⟨hne, hh, -⟩ := validateIdentifier_chars h
    have hs := hh c hc
    exact ⟨isIdentStart_not_digit hs, isIdentStart_ne_dollar hs⟩

theorem goodJoin_head {xs : List String} (h : ∀ x ∈ xs, GoodItem x) :
    ∀ c, ((joinSep ", " xs).data).head? = some c → isDigitC c = false ∧ ¬(c = '$') := by
  cases xs with
  | nil => intro c hc; simp [joinSep] at hc
  | cons x rest =>
    intro c hc
    rw [joinSep_eq_joinTail, String.data_append] at hc
    rcases head?_append_cases hc with hc | ⟨-, hc⟩
    · exact goodItem_head (h x (List.mem_cons_self x rest)) c hc
    · exact joinTail_head ", " (by decide) sepComma_head c hc

theorem goodJoin_noPH : ∀ (xs : List String), (∀ x ∈ xs, GoodItem x) →
    NoPH ((joinSep ", " xs).data) := by
  intro xs
  induction xs with
  | nil => intro _; exact noPH_nil
  | cons x rest ih =>
    intro h
    cases rest with
    | nil =>
      rw [show joinSep ", " [x] = x from rfl]
      exact goodItem_noPH (h x (List.mem_cons_self x []))
    | cons y ys =>
      rw [joinSep_cons₂, String.data_append, String.data_append]
      rw [List.append_assoc]
      refine noPH_append (goodItem_noPH (h x (List.mem_cons_self x (y :: ys)))) ?_ ?_
      · intro c hc
        rw [head?_append_left (by decide)] at hc
        exact (sepComma_head c hc).1
      · refine noPH_append (noPH_lit (by decide)) ?_ ?_
        · exact fun c hc => (goodJoin_head (fun z hz => h z (List.mem_cons_of_mem _ hz)) c hc).1
        · exact ih (fun z hz => h z (List.mem_cons_of_mem _ hz))

theorem sanitizeReturning_items : ∀ {cols rs : List String},
    sanitizeReturning cols = .ok rs → ∀ r ∈ rs, GoodItem r := by
  intro cols
  induction cols with
  | nil =>
    intro rs h r hr
    simp only [sanitizeReturning, Except.ok.injEq] at h
    subst h
    simp at hr
  | cons col rest ih =>
    intro rs h r hr
    rw [sanitizeReturning] at h
    by_cases hc : col = "*"
    · rw [if_pos hc] at h
      cases hrec : sanitizeReturning rest with
      | error e => rw [hrec] at h; exact absurd h (by simp)
      | ok cs =>
        rw [hrec] at h
        simp only [Except.ok.injEq] at h
        subst h
        rcases List.mem_cons.mp hr with hr | hr
        · subst hr; exact Or.inl rfl
        · exact ih hrec r hr
    · rw [if_neg hc] at h
      cases hv : sanitizeIdentifier col with
      | error e => rw [hv] at h; exact absurd h (by simp)
      | ok c2 =>
        rw [hv] at h
        cases hrec : sanitizeReturning rest with
        | error e => rw [hrec] at h; exact absurd h (by simp)
        | ok cs =>
          rw [hrec] at h
          simp only [Except.ok.injEq] at h
          subst h
          rcases List.mem_cons.mp hr with hr | hr
          · subst hr
            obtain ⟨he, hvv⟩ := sanitizeIdentifier_ok hv
            subst he
            exact Or.inr hvv
          · exact ih hrec r hr

theorem sanitizeCols_items : ∀ {cols rs : List String},
    sanitizeCols cols = .ok rs → ∀ r ∈ rs, GoodItem r := by
  intro cols
  induction cols with
  | nil =>
    intro rs h r hr
    simp only [sanitizeCols, Except.ok.injEq] at h
    subst h
    simp at hr
  | cons col rest ih =>
    intro rs h r hr
    rw [sanitizeCols] at h
    cases hv : sanitizeIdentifier col with
    | error e => rw [hv] at h; exact absurd h (by simp)
    | ok c2 =>
      rw [hv] at h
      cases hrec : sanitizeCols rest with
      | error e => rw [hrec] at h; exact absurd h (by simp)
      | ok cs =>
        rw [hrec] at h
        simp only [Except.ok.injEq] at h
        subst h
        rcases List.mem_cons.mp hr with hr | hr
        · subst hr
          obtain ⟨he, hvv⟩ := sanitizeIdentifier_ok hv
          subst he
          exact Or.inr hvv
        · exact ih hrec r hr

/-- The whole ` RETURNING a, b, *` suffix has no placeholder. -/
theorem returning_suffix_noPH {cols rs : List String}
    (h : sanitizeReturning cols = .ok rs) :
    NoPH ((" RETURNING " ++ joinSep ", " rs).data) := by
  rw [String.data_append]
  refine noPH_append (noPH_lit (by decide)) ?_ (goodJoin_noPH rs (sanitizeReturning_items h))
  exact fun c hc => (goodJoin_head (sanitizeReturning_items h) c hc).1

/-- The scanner only consults the incoming state at a leading `$`; any segment
whose first character is not `$` scans the same from either state. -/
theorem scanPH_state_irrel {b : List Char} (hb : ∀ c, b.head? = some c → ¬(c = '$'))
    (st st' : Bool) : scanPH st b = scanPH st' b := by
  cases b with
  | nil => rw [scanPH_nil, scanPH_nil]
  | cons c cs =>
    have hc : ¬(c = '$') := hb c rfl
    rw [scanPH_other hc, scanPH_other hc]

theorem lit_head_cond {l : List Char}
    (h : (match l.head? with
          | none => true
          | some c => !isDigitC c && !decide (c = '$')) = true) :
    ∀ c, l.head? = some c → isDigitC c = false ∧ ¬(c = '$') := by
  intro c hc
  rw [hc] at h
  simp only [Bool.and_eq_true, Bool.not_eq_true', decide_eq_false_iff_not] at h
  exact h

/-- A rendered segment that contributes no placeholder and whose first
character (if any) is neither a digit nor `$` — safe to append after a
placeholder run or another segment. -/
def SafeSeg (x : List Char) : Prop :=
  NoPH x ∧ ∀ c, x.head? = some c → isDigitC c = false ∧ ¬(c = '$')

theorem safeSeg_nil : SafeSeg [] := ⟨noPH_nil, fun c hc => by simp at hc⟩

theorem safeSeg_of_lit {l : List Char} (h1 : l.all (fun c => !(c = '$')) = true)
    (h2 : (match l.head? with
           | none => true
           | some c => !isDigitC c && !decide (c = '$')) = true) : SafeSeg l :=
  ⟨noPH_lit h1, lit_head_cond h2⟩

theorem safeSeg_append {a b : List Char} (ha : SafeSeg a) (hb : SafeSeg b) :
    SafeSeg (a ++ b) := by
  refine ⟨noPH_append ha.1 (fun c hc => (hb.2 c hc).1) hb.1, fun c hc => ?_⟩
  rcases head?_append_cases hc with hc | ⟨-, hc⟩
  · exact ha.2 c hc
  · exact hb.2 c hc

theorem goodItem_safeSeg {x : String} (h : GoodItem x) : SafeSeg x.data :=
  ⟨goodItem_noPH h, goodItem_head h⟩

theorem safeSeg_join : ∀ (xs : List String), (∀ x ∈ xs, SafeSeg x.data) →
    SafeSeg ((joinSep ", " xs).data) := by
  intro xs
  induction xs with
  | nil => intro _; exact safeSeg_nil
  | cons x rest ih =>
    intro h
    cases rest with
    | nil =>
      rw [show joinSep ", " [x] = x from rfl]
      exact h x (List.mem_cons_self x [])
    | cons y ys =>
      rw [joinSep_cons₂, String.data_append, String.data_append, List.append_assoc]
      exact safeSeg_append (h x (List.mem_cons_self x (y :: ys)))
        (safeSeg_append (safeSeg_of_lit (by decide) (by decide))
          (ih (fun z hz => h z (List.mem_cons_of_mem _ hz))))

/-- The ` RETURNING a, b, *` suffix built from a validated RETURNING list is a
safe segment. -/
theorem returning_suffix_safe {cols rs : List String}
    (h : sanitizeReturning cols = .ok rs) :
    SafeSeg ((" RETURNING " ++ joinSep ", " rs).data) := by
  rw [String.data_append]
  exact safeSeg_append (safeSeg_of_lit (by decide) (by decide))
    (safeSeg_join rs (fun x hx => goodItem_safeSeg (sanitizeReturning_items h x hx)))

/-! ## Whole-statement placeholder runs -/

/-- Scan of `<literal> <table> <literal> <WHERE fragment> <safe suffix>`, the
shape of the DELETE statement, the impact-estimation statement and the main
part of every WHERE-carrying statement: exactly the fragment's placeholder
run. -/
theorem stmt_where_scan (pre mid : String)
    (hpre : pre.data.all (fun c => !(c = '$')) = true)
    (hpreA : ∀ st : Bool, allowAfter st pre.data = true)
    (hmid : mid.data.all (fun c => !(c = '$')) = true)
    (hmidA : ∀ st : Bool, allowAfter st mid.data = true)
    (hmidH : ∀ c, mid.data.head? = some c → isDigitC c = false)
    {t : String} (ht : validateIdentifier t = true)
    {wm : List (String × Value)} {conds : List String} {qps : List Value} {i j : Nat}
    (hc : compileWhere wm i = .ok (conds, qps, j))
    {suffix : List Char} (hsuf : SafeSeg suffix) :
    scanPH true ((pre ++ t ++ mid ++ joinSep " AND " conds).data ++ suffix) =
      List.range' i qps.length := by
  obtain ⟨-, -, hwh, hscan⟩ := compileWhere_props wm i conds qps j hc
  have hb3 : ∀ c, ((joinSep " AND " conds).data ++ suffix).head? = some c →
      isDigitC c = false := by
    intro c hcc
    rcases head?_append_cases hcc with hcc | ⟨-, hcc⟩
    · exact isIdentStart_not_digit (hwh c hcc)
    · exact (hsuf.2 c hcc).1
  have hb2 : ∀ c, (mid.data ++ ((joinSep " AND " conds).data ++ suffix)).head? = some c →
      isDigitC c = false := by
    intro c hcc
    rcases head?_append_cases hcc with hcc | ⟨-, hcc⟩
    · exact hmidH c hcc
    · exact hb3 c hcc
  have hb1 : ∀ c, (t.data ++ (mid.data ++ ((joinSep " AND " conds).data ++ suffix))).head? =
      some c → isDigitC c = false := by
    intro c hcc
    rcases head?_append_cases hcc with hcc | ⟨-, hcc⟩
    · exact isIdentStart_not_digit ((validateIdentifier_chars ht).2.1 c hcc)
    · exact hb2 c hcc
  rw [show (pre ++ t ++ mid ++ joinSep " AND " conds).data ++ suffix =
      pre.data ++ (t.data ++ (mid.data ++ ((joinSep " AND " conds).data ++ suffix))) from by
    simp [String.data_append, List.append_assoc]]
  rw [scan_noPH_step (noPH_lit hpre) hb1 (hpreA true)]
  rw [scan_valid_ident_step ht hb2]
  rw [scan_noPH_step (noPH_lit hmid) hb3 (hmidA false)]
  rw [hscan suffix hsuf.2, hsuf.1 false, List.append_nil]

/-- Scan of the UPDATE statement shape
`<literal> <table> <literal> <SET fragment> <literal> <WHERE fragment> <safe
suffix>`: the SET run followed by the WHERE run, contiguous from 1. -/
theorem stmt_set_where_scan (pre mid1 mid2 : String)
    (hpre : pre.data.all (fun c => !(c = '$')) = true)
    (hpreA : ∀ st : Bool, allowAfter st pre.data = true)
    (hmid1 : mid1.data.all (fun c => !(c = '$')) = true)
    (hmid1A : ∀ st : Bool, allowAfter st mid1.data = true)
    (hmid1H : ∀ c, mid1.data.head? = some c → isDigitC c = false)
    (hmid2 : mid2.data.all (fun c => !(c = '$')) = true)
    (hmid2A : ∀ st : Bool, allowAfter st mid2.data = true)
    (hmid2H : ∀ c, mid2.data.head? = some c → isDigitC c = false ∧ ¬(c = '$'))
    {t : String} (ht : validateIdentifier t = true)
    {dm : List (String × Value)} {sconds : List String} {sps : List Value} {i2 : Nat}
    (hs : compileSet dm 1 = .ok (sconds, sps, i2))
    {wm : List (String × Value)} {wconds : List String} {wps : List Value} {j : Nat}
    (hw : compileWhere wm i2 = .ok (wconds, wps, j))
    {suffix : List Char} (hsuf : SafeSeg suffix) :
    scanPH true ((pre ++ t ++ mid1 ++ joinSep ", " sconds ++ mid2 ++
        joinSep " AND " wconds).data ++ suffix) =
      List.range' 1 (sps.length + wps.length) := by
  obtain ⟨hi2, -, hsh, hsscan⟩ := compileSet_props dm 1 sconds sps i2 hs
  obtain ⟨-, -, hwh, hwscan⟩ := compileWhere_props wm i2 wconds wps j hw
  have hb5 : ∀ c, ((joinSep " AND " wconds).data ++ suffix).head? = some c →
      isDigitC c = false ∧ ¬(c = '$') := by
    intro c hcc
    rcases head?_append_cases hcc with hcc | ⟨-, hcc⟩
    · exact ⟨isIdentStart_not_digit (hwh c hcc), isIdentStart_ne_dollar (hwh c hcc)⟩
    · exact hsuf.2 c hcc
  have hb4 : ∀ c, (mid2.data ++ ((joinSep " AND " wconds).data ++ suffix)).head? = some c →
      isDigitC c = false ∧ ¬(c = '$') := by
    intro c hcc
    rcases head?_append_cases hcc with hcc | ⟨-, hcc⟩
    · exact hmid2H c hcc
    · exact hb5 c hcc
  have hb3 : ∀ c, ((joinSep ", " sconds).data ++ (mid2.data ++
      ((joinSep " AND " wconds).data ++ suffix))).head? = some c → isDigitC c = false := by
    intro c hcc
    rcases head?_append_cases hcc with hcc | ⟨-, hcc⟩
    · exact isIdentStart_not_digit (hsh c hcc)
    · exact (hb4 c hcc).1
  have hb2 : ∀ c, (mid1.data ++ ((joinSep ", " sconds).data ++ (mid2.data ++
      ((joinSep " AND " wconds).data ++ suffix)))).head? = some c → isDigitC c = false := by
    intro c hcc
    rcases head?_append_cases hcc with hcc | ⟨-, hcc⟩
    · exact hmid1H c hcc
    · exact hb3 c hcc
  have hb1 : ∀ c, (t.data ++ (mid1.data ++ ((joinSep ", " sconds).data ++ (mid2.data ++
      ((joinSep " AND " wconds).data ++ suffix))))).head? = some c →
      isDigitC c = false := by
    intro c hcc
    rcases head?_append_cases hcc with hcc | ⟨-, hcc⟩
    · exact isIdentStart_not_digit ((validateIdentifier_chars ht).2.1 c hcc)
    · exact hb2 c hcc
  rw [show (pre ++ t ++ mid1 ++ joinSep ", " sconds ++ mid2 ++
        joinSep " AND " wconds).data ++ suffix =
      pre.data ++ (t.data ++ (mid1.data ++ ((joinSep ", " sconds).data ++ (mid2.data ++
        ((joinSep " AND " wconds).data ++ suffix))))) from by
    simp [String.data_append, List.append_assoc]]
  rw [scan_noPH_step (noPH_lit hpre) hb1 (hpreA true)]
  rw [scan_valid_ident_step ht hb2]
  rw [scan_noPH_step (noPH_lit hmid1) hb3 (hmid1A false)]
  rw [hsscan _ hb4]
  rw [scan_noPH_step (noPH_lit hmid2) (fun c hcc => (hb5 c hcc).1) (hmid2A false)]
  rw [hwscan suffix hsuf.2, hsuf.1 false, List.append_nil]
  subst hi2
  have hr := List.range'_append 1 sps.length wps.length 1
  simp only [Nat.one_mul] at hr
  rw [Nat.add_comm sps.length wps.length]
  exact hr

theorem head_append_cond {a b : List Char}
    (ha : ∀ c, a.head? = some c → isDigitC c = false ∧ ¬(c = '$'))
    (hb : ∀ c, b.head? = some c → isDigitC c = false ∧ ¬(c = '$')) :
    ∀ c, (a ++ b).head? = some c → isDigitC c = false ∧ ¬(c = '$') := by
  intro c hc
  rcases head?_append_cases hc with hc | ⟨-, hc⟩
  · exact ha c hc
  · exact hb c hc

theorem ident_head_cond {t : String} (ht : validateIdentifier t = true) :
    ∀ c, t.data.head? = some c → isDigitC c = false ∧ ¬(c = '$') := fun c hc =>
  ⟨isIdentStart_not_digit ((validateIdentifier_chars ht).2.1 c hc),
   isIdentStart_ne_dollar ((validateIdentifier_chars ht).2.1 c hc)⟩

theorem range'_extend_two (n : Nat) :
    List.range' 1 n ++ [n + 1, n + 2] = List.range' 1 (n + 2) := by
  have hr := List.range'_append 1 n 2 1
  simp only [Nat.one_mul] at hr
  rw [show (2 + n) = (n + 2) from Nat.add_comm 2 n] at hr
  rw [show List.range' (1 + n) 2 1 = [1 + n, 1 + n + 1] from rfl] at hr
  rw [show 1 + n = n + 1 from Nat.add_comm 1 n] at hr
  exact hr

/-- Scan of the `LIMIT $i OFFSET $i+1` clause from any state: exactly the two
pagination placeholders. -/
theorem limit_clause_scan (i : Nat) {b : List Char}
    (hb : ∀ c, b.head? = some c → isDigitC c = false) (st : Bool) :
    scanPH st (("LIMIT $" ++ natStr i ++ " OFFSET $" ++ natStr (i + 1)).data ++ b) =
      [i, i + 1] ++ scanPH false b := by
  rw [show ("LIMIT $" ++ natStr i ++ " OFFSET $" ++ natStr (i + 1)).data ++ b =
      ("LIMIT " : String).data ++ ('$' :: (natChars i ++
        ((" OFFSET " : String).data ++ ('$' :: (natChars (i + 1) ++ b))))) from by
    rw [show ("LIMIT $" : String) = "LIMIT " ++ "$" from rfl,
        show (" OFFSET $" : String) = " OFFSET " ++ "$" from rfl]
    simp [String.data_append, natStr_data, List.append_assoc,
      show ("$" : String).data = ['$'] from rfl, List.singleton_append]]
  rw [scan_lit_step true ("LIMIT " : String).data (by decide)
    (fun c hc => by rw [← Option.some_inj.mp hc]; decide) rfl]
  rw [scanPH_dollarRun i (fun c hc => by
    rw [show ((" OFFSET " : String).data ++ ('$' :: (natChars (i + 1) ++ b))).head? =
      some ' ' from rfl] at hc
    rw [← Option.some_inj.mp hc]; decide)]
  rw [scan_lit_step true (" OFFSET " : String).data (by decide)
    (fun c hc => by rw [← Option.some_inj.mp hc]; decide) rfl]
  rw [scanPH_dollarRun (i + 1) hb]
  rfl

/-- What `buildWhere` guarantees about its output: the next parameter index,
and the scan of the produced (possibly empty) `WHERE ...` clause. -/
theorem buildWhere_props {wm : Option (List (String × Value))} {wc : String}
    {wps : List Value} {pi : Nat} (h : buildWhere wm = .ok (wc, wps, pi)) :
    pi = 1 + wps.length ∧
    (∀ c, wc.data.head? = some c → isDigitC c = false ∧ ¬(c = '$')) ∧
    (∀ b : List Char, (∀ c, b.head? = some c → isDigitC c = false ∧ ¬(c = '$')) →
      scanPH true (wc.data ++ b) = List.range' 1 wps.length ++ scanPH false b) := by
  have hempty : ∀ (he : wc = "") (hp : wps = []) (hi : pi = 1),
      pi = 1 + wps.length ∧
      (∀ c, wc.data.head? = some c → isDigitC c = false ∧ ¬(c = '$')) ∧
      (∀ b : List Char, (∀ c, b.head? = some c → isDigitC c = false ∧ ¬(c = '$')) →
        scanPH true (wc.data ++ b) = List.range' 1 wps.length ++ scanPH false b) := by
    intro he hp hi
    subst he; subst hp; subst hi
    refine ⟨rfl, fun c hc => by simp at hc, fun b hb => ?_⟩
    show scanPH true ([] ++ b) = List.range' 1 0 ++ scanPH false b
    rw [List.nil_append, List.range'_zero, List.nil_append]
    exact scanPH_state_irrel (fun c hc => (hb c hc).2) true false
  cases wm with
  | none =>
    simp only [buildWhere, Except.ok.injEq, Prod.mk.injEq] at h
    exact hempty h.1.symm h.2.1.symm h.2.2.symm
  | some m =>
    rw [buildWhere] at h
    by_cases hm : 0 < m.length
    · rw [if_pos hm] at h
      cases hcw : compileWhere m 1 with
      | error e => rw [hcw] at h; exact absurd h (by simp)
      | ok r =>
        obtain ⟨conds, ps, j⟩ := r
        rw [hcw] at h
        simp only [Except.ok.injEq, Prod.mk.injEq] at h
        obtain ⟨h1, h2, h3⟩ := h
        subst h2; subst h3
        obtain ⟨hj, -, hwh, hscan⟩ := compileWhere_props m 1 conds _ _ hcw
        subst h1
        refine ⟨hj, ?_, ?_⟩
        · intro c hc
          rw [String.data_append,
            head?_append_left (show ¬(("WHERE " : String).data = []) from by decide)] at hc
          rw [show (("WHERE " : String).data).head? = some 'W' from rfl] at hc
          rw [← Option.some_inj.mp hc]
          exact ⟨by decide, by decide⟩
        · intro b hb
          rw [String.data_append, List.append_assoc]
          rw [scan_lit_step true ("WHERE " : String).data (by decide)
            (fun c hc => ?_) rfl]
          · exact hscan b hb
          · rcases head?_append_cases hc with hc | ⟨-, hc⟩
            · exact isIdentStart_not_digit (hwh c hc)
            · exact (hb c hc).1
    · rw [if_neg hm] at h
      simp only [Except.ok.injEq, Prod.mk.injEq] at h
      exact hempty h.1.symm h.2.1.symm h.2.2.symm

/-- Placeholder run of `queryTable`'s main statement: the select list, table
and order clause contribute nothing, the WHERE clause contributes its run, the
limit clause whatever `hlc` says it contributes. -/
theorem query_main_scan {t : String} (ht : validateIdentifier t = true)
    {sel : String} (hsel : SafeSeg sel.data)
    {wc : String} {wps : List Value}
    (hwh : ∀ c, wc.data.head? = some c → isDigitC c = false ∧ ¬(c = '$'))
    (hwscan : ∀ b : List Char, (∀ c, b.head? = some c → isDigitC c = false ∧ ¬(c = '$')) →
      scanPH true (wc.data ++ b) = List.range' 1 wps.length ++ scanPH false b)
    {oc : String} (hoc : SafeSeg oc.data)
    {lc : String} {extra : List Nat}
    (hlch : ∀ c, lc.data.head? = some c → isDigitC c = false ∧ ¬(c = '$'))
    (hlc : ∀ st : Bool, ∀ b : List Char,
      (∀ c, b.head? = some c → isDigitC c = false ∧ ¬(c = '$')) →
      scanPH st (lc.data ++ b) = extra ++ scanPH false b) :
    placeholderNums (normalizeQuery ("\n      SELECT " ++ sel ++ "\n      FROM " ++ t ++
      "\n      " ++ wc ++ "\n      " ++ oc ++ "\n      " ++ lc ++ "\n    ")) =
      List.range' 1 wps.length ++ extra := by
  rw [placeholderNums_normalize]
  show scanPH true (("\n      SELECT " ++ sel ++ "\n      FROM " ++ t ++
      "\n      " ++ wc ++ "\n      " ++ oc ++ "\n      " ++ lc ++ "\n    ").data) = _
  rw [show ("\n      SELECT " ++ sel ++ "\n      FROM " ++ t ++
      "\n      " ++ wc ++ "\n      " ++ oc ++ "\n      " ++ lc ++ "\n    ").data =
      ("\n      SELECT " : String).data ++ (sel.data ++ (("\n      FROM " : String).data ++
      (t.data ++ (("\n      " : String).data ++ (wc.data ++ (("\n      " : String).data ++
      (oc.data ++ (("\n      " : String).data ++
        (lc.data ++ ("\n    " : String).data))))))))) from by
    simp [String.data_append, List.append_assoc]]
  have cTail : ∀ c, (("\n    " : String).data).head? = some c →
      isDigitC c = false ∧ ¬(c = '$') := lit_head_cond (by decide)
  have cLc := head_append_cond hlch cTail
  have cM2c := head_append_cond (lit_head_cond (l := ("\n      " : String).data) (by decide)) cLc
  have cOc := head_append_cond hoc.2 cM2c
  have cM2b := head_append_cond (lit_head_cond (l := ("\n      " : String).data) (by decide)) cOc
  have cWc := head_append_cond hwh cM2b
  have cM2a := head_append_cond (lit_head_cond (l := ("\n      " : String).data) (by decide)) cWc
  have cT := head_append_cond (ident_head_cond ht) cM2a
  have cM1 := head_append_cond
    (lit_head_cond (l := ("\n      FROM " : String).data) (by decide)) cT
  have cSel := head_append_cond hsel.2 cM1
  rw [scan_noPH_step (noPH_lit (by decide)) (fun c hc => (cSel c hc).1)
    (show allowAfter true (("\n      SELECT " : String).data) = true from rfl)]
  rw [scan_noPH_step hsel.1 (fun c hc => (cM1 c hc).1) rfl]
  rw [scan_noPH_step (noPH_lit (by decide)) (fun c hc => (cT c hc).1)
    (show allowAfter (allowAfter true sel.data) (("\n      FROM " : String).data) =
      true from rfl)]
  rw [scan_valid_ident_step ht (fun c hc => (cM2a c hc).1)]
  rw [scan_noPH_step (noPH_lit (by decide)) (fun c hc => (cWc c hc).1)
    (show allowAfter false (("\n      " : String).data) = true from rfl)]
  rw [hwscan _ cM2b]
  rw [scan_noPH_step (noPH_lit (by decide)) (fun c hc => (cOc c hc).1)
    (show allowAfter false (("\n      " : String).data) = true from rfl)]
  rw [scan_noPH_step hoc.1 (fun c hc => (cM2c c hc).1) rfl]
  rw [scan_noPH_step (noPH_lit (by decide)) (fun c hc => (cLc c hc).1)
    (show allowAfter (allowAfter true oc.data) (("\n      " : String).data) =
      true from rfl)]
  rw [hlc true _ cTail]
  rw [show scanPH false (("\n    " : String).data) = [] from noPH_lit (by decide) false]
  rw [List.append_nil]

/-- Placeholder run of `queryTable`'s count statement: exactly the WHERE
clause's run. -/
theorem count_query_scan {t : String} (ht : validateIdentifier t = true)
    {wc : String} {wps : List Value}
    (hwh : ∀ c, wc.data.head? = some c → isDigitC c = false ∧ ¬(c = '$'))
    (hwscan : ∀ b : List Char, (∀ c, b.head? = some c → isDigitC c = false ∧ ¬(c = '$')) →
      scanPH true (wc.data ++ b) = List.range' 1 wps.length ++ scanPH false b) :
    placeholderNums (normalizeQuery ("\n        SELECT COUNT(*) as total" ++
      "\n        FROM " ++ t ++ "\n        " ++ wc ++ "\n      ")) =
      List.range' 1 wps.length := by
  rw [placeholderNums_normalize]
  show scanPH true (("\n        SELECT COUNT(*) as total" ++
      "\n        FROM " ++ t ++ "\n        " ++ wc ++ "\n      ").data) = _
  rw [show ("\n        SELECT COUNT(*) as total" ++
      "\n        FROM " ++ t ++ "\n        " ++ wc ++ "\n      ").data =
      ("\n        SELECT COUNT(*) as total" : String).data ++
      ((("\n        FROM " : String).data ++
      (t.data ++ (("\n        " : String).data ++
        (wc.data ++ ("\n      " : String).data))))) from by
    simp [String.data_append, List.append_assoc]]
  have cTail : ∀ c, (("\n      " : String).data).head? = some c →
      isDigitC c = false ∧ ¬(c = '$') := lit_head_cond (by decide)
  have cWc := head_append_cond hwh cTail
  have cM2 := head_append_cond (lit_head_cond (l := ("\n        " : String).data) (by decide)) cWc
  have cT := head_append_cond (ident_head_cond ht) cM2
  have cM1 := head_append_cond
    (lit_head_cond (l := ("\n        FROM " : String).data) (by decide)) cT
  rw [scan_noPH_step (noPH_lit (by decide)) (fun c hc => (cM1 c hc).1)
    (show allowAfter true (("\n        SELECT COUNT(*) as total" : String).data) =
      false from rfl)]
  rw [scan_noPH_step (noPH_lit (by decide)) (fun c hc => (cT c hc).1)
    (show allowAfter false (("\n        FROM " : String).data) = true from rfl)]
  rw [scan_valid_ident_step ht (fun c hc => (cM2 c hc).1)]
  rw [scan_noPH_step (noPH_lit (by decide)) (fun c hc => (cWc c hc).1)
    (show allowAfter false (("\n        " : String).data) = true from rfl)]
  rw [hwscan _ cTail]
  rw [show scanPH false (("\n      " : String).data) = [] from noPH_lit (by decide) false]
  rw [List.append_nil]

theorem empty_lc_scan : ∀ st : Bool, ∀ b : List Char,
    (∀ c, b.head? = some c → isDigitC c = false ∧ ¬(c = '$')) →
    scanPH st ((("" : String)).data ++ b) = [] ++ scanPH false b := by
  intro st b hb
  rw [show (("" : String)).data = ([] : List Char) from rfl, List.nil_append,
    List.nil_append]
  exact scanPH_state_irrel (fun c hc => (hb c hc).2) st false

theorem buildSelectClause_safe {cols : Option (List String)} {s : String}
    (h : buildSelectClause cols = .ok s) : SafeSeg s.data := by
  cases cols with
  | none =>
    simp only [buildSelectClause, Except.ok.injEq] at h
    subst h
    exact safeSeg_of_lit (by decide) (by decide)
  | some l =>
    rw [buildSelectClause] at h
    by_cases hl : 0 < l.length
    · rw [if_pos hl] at h
      cases hsc : sanitizeCols l with
      | error e => rw [hsc] at h; exact absurd h (by simp)
      | ok l2 =>
        rw [hsc] at h
        simp only [Except.ok.injEq] at h
        subst h
        exact safeSeg_join l2 (fun x hx => goodItem_safeSeg (sanitizeCols_items hsc x hx))
    · rw [if_neg hl] at h
      simp only [Except.ok.injEq] at h
      subst h
      exact safeSeg_of_lit (by decide) (by decide)

theorem buildOrder_safe {so : Option SortSpec} {s : String} (h : buildOrder so = .ok s) :
    SafeSeg s.data := by
  cases so with
  | none =>
    simp only [buildOrder, Except.ok.injEq] at h
    subst h
    exact safeSeg_nil
  | some sp =>
    rw [buildOrder] at h
    cases hsi : sanitizeIdentifier sp.column with
    | error e => rw [hsi] at h; exact absurd h (by simp)
    | ok c =>
      rw [hsi] at h
      simp only [Except.ok.injEq] at h
      subst h
      obtain ⟨hce, hval⟩ := sanitizeIdentifier_ok hsi
      subst hce
      have hdir : SafeSeg ((sp.direction.toSql).data) := by
        cases sp.direction <;> exact safeSeg_of_lit (by decide) (by decide)
      rw [String.data_append, String.data_append, String.data_append]
      exact safeSeg_append (safeSeg_append (safeSeg_append
        (safeSeg_of_lit (by decide) (by decide)) (goodItem_safeSeg (Or.inr hval)))
        (safeSeg_of_lit (by decide) (by decide))) hdir

/-- `queryTable` with pagination, fully reduced: the normalised main statement
with the two pagination parameters appended, then the count statement with the
same WHERE clause and the parameter list minus its last two entries. -/
theorem queryTable_master_pag (p : QueryParams) (rows : List Row) (totalO : Nat)
    (pag : Pagination) {sel wc oc : String} {wps : List Value} {pi : Nat}
    (hsel : buildSelectClause p.columns = .ok sel)
    (hw : buildWhere p.whereMap = .ok (wc, wps, pi))
    (ho : buildOrder p.sort = .ok oc)
    (ht : validateIdentifier p.table = true)
    (hp : p.pagination = some pag) :
    queryTable p true rows totalO =
      .ok [⟨normalizeQuery ("\n      SELECT " ++ sel ++ "\n      FROM " ++ p.table ++
              "\n      " ++ wc ++ "\n      " ++ oc ++ "\n      " ++
              ("LIMIT $" ++ natStr pi ++ " OFFSET $" ++ natStr (pi + 1)) ++ "\n    "),
            wps ++ [.vNum (.fin (pag.limit : ℚ)), .vNum (.fin (pag.offset : ℚ))]⟩,
           ⟨normalizeQuery ("\n        SELECT COUNT(*) as total" ++ "\n        FROM " ++
              p.table ++ "\n        " ++ wc ++ "\n      "), wps⟩]
        ⟨p.table, rows.length, rows,
          some ⟨totalO, pag.limit, pag.offset, decide (pag.offset + pag.limit < totalO)⟩⟩ := by
  have htake : (wps ++ [Value.vNum (.fin (pag.limit : ℚ)),
      Value.vNum (.fin (pag.offset : ℚ))]).take
      ((wps ++ [Value.vNum (.fin (pag.limit : ℚ)),
        Value.vNum (.fin (pag.offset : ℚ))]).length - 2) = wps := by
    rw [List.length_append]
    rw [show (wps.length + ([Value.vNum (.fin (pag.limit : ℚ)),
      Value.vNum (.fin (pag.offset : ℚ))]).length - 2) = wps.length from by simp]
    exact List.take_left wps _
  simp only [queryTable, Bool.not_true, Bool.false_eq_true, if_false,
    sanitizeIdentifier_of_valid ht, hsel, hw, ho, hp, htake]

/-- `queryTable` without pagination, fully reduced: one statement, no
LIMIT/OFFSET text, no pagination block. -/
theorem queryTable_master_none (p : QueryParams) (rows : List Row) (totalO : Nat)
    {sel wc oc : String} {wps : List Value} {pi : Nat}
    (hsel : buildSelectClause p.columns = .ok sel)
    (hw : buildWhere p.whereMap = .ok (wc, wps, pi))
    (ho : buildOrder p.sort = .ok oc)
    (ht : validateIdentifier p.table = true)
    (hp : p.pagination = none) :
    queryTable p true rows totalO =
      .ok [⟨normalizeQuery ("\n      SELECT " ++ sel ++ "\n      FROM " ++ p.table ++
              "\n      " ++ wc ++ "\n      " ++ oc ++ "\n      " ++ "" ++ "\n    "),
            wps⟩]
        ⟨p.table, rows.length, rows, none⟩ := by
  simp only [queryTable, Bool.not_true, Bool.false_eq_true, if_false,
    sanitizeIdentifier_of_valid ht, hsel, hw, ho, hp]

/-- Placeholder run of the paginated main statement: the WHERE run extended by
the two pagination placeholders, contiguous from 1. -/
theorem queryTable_main_ph {t sel wc oc : String} {wps : List Value} {pi : Nat}
    (ht : validateIdentifier t = true) (hsel : SafeSeg sel.data)
    (hwh : ∀ c, wc.data.head? = some c → isDigitC c = false ∧ ¬(c = '$'))
    (hwscan : ∀ b : List Char, (∀ c, b.head? = some c → isDigitC c = false ∧ ¬(c = '$')) →
      scanPH true (wc.data ++ b) = List.range' 1 wps.length ++ scanPH false b)
    (hoc : SafeSeg oc.data) (hpi : pi = 1 + wps.length) :
    placeholderNums (normalizeQuery ("\n      SELECT " ++ sel ++ "\n      FROM " ++ t ++
      "\n      " ++ wc ++ "\n      " ++ oc ++ "\n      " ++
      ("LIMIT $" ++ natStr pi ++ " OFFSET $" ++ natStr (pi + 1)) ++ "\n    ")) =
      List.range' 1 (wps.length + 2) := by
  have hLhead : (("LIMIT $" ++ natStr pi ++ " OFFSET $" ++
      natStr (pi + 1)).data).head? = some 'L' := by
    rw [show ("LIMIT $" ++ natStr pi ++ " OFFSET $" ++ natStr (pi + 1)) =
      "LIMIT $" ++ (natStr pi ++ (" OFFSET $" ++ natStr (pi + 1))) from by
        simp [String.append_assoc]]
    rw [String.data_append]
    rw [head?_append_left (show ¬((("LIMIT $" : String)).data = []) from by decide)]
    rfl
  rw [query_main_scan ht hsel hwh hwscan hoc
    (lit_head_cond (by rw [hLhead]; decide))
    (fun st b hb => limit_clause_scan pi (fun c hc => (hb c hc).1) st)]
  rw [hpi, show 1 + wps.length = wps.length + 1 from Nat.add_comm 1 wps.length]
  exact range'_extend_two wps.length

/-- Placeholder run of the un-paginated main statement: just the WHERE run. -/
theorem queryTable_main_ph_none {t sel wc oc : String} {wps : List Value}
    (ht : validateIdentifier t = true) (hsel : SafeSeg sel.data)
    (hwh : ∀ c, wc.data.head? = some c → isDigitC c = false ∧ ¬(c = '$'))
    (hwscan : ∀ b : List Char, (∀ c, b.head? = some c → isDigitC c = false ∧ ¬(c = '$')) →
      scanPH true (wc.data ++ b) = List.range' 1 wps.length ++ scanPH false b)
    (hoc : SafeSeg oc.data) :
    placeholderNums (normalizeQuery ("\n      SELECT " ++ sel ++ "\n      FROM " ++ t ++
      "\n      " ++ wc ++ "\n      " ++ oc ++ "\n      " ++ "" ++ "\n    ")) =
      List.range' 1 wps.length := by
  rw [query_main_scan ht hsel hwh hwscan hoc (lit_head_cond (by decide)) empty_lc_scan]
  rw [List.append_nil]

/-! ## Delete and update statements -/

theorem startsWith_false_of_head {s p : String} {c d : Char}
    (hs : s.data.head? = some c) (hp : p.data.head? = some d) (hne : ¬(d = c)) :
    strStartsWith s p = false := by
  show p.data.isPrefixOf s.data = false
  cases hsd : s.data with
  | nil => rw [hsd] at hs; exact absurd hs (by simp)
  | cons c0 cs =>
    rw [hsd] at hs
    cases hpd : p.data with
    | nil => rw [hpd] at hp; exact absurd hp (by simp)
    | cons d0 ds =>
      rw [hpd] at hp
      have hc0 : c0 = c := Option.some_inj.mp hs
      have hd0 : d0 = d := Option.some_inj.mp hp
      have hne2 : ¬(d0 = c0) := by rw [hc0, hd0]; exact hne
      show ((d0 == c0) && List.isPrefixOf ds cs) = false
      rw [show (d0 == c0) = false from beq_eq_false_iff_ne.mpr hne2, Bool.false_and]

theorem delete_count_ph {t : String} (ht : validateIdentifier t = true)
    {wm : List (String × Value)} {conds : List String} {qps : List Value} {j : Nat}
    (hc : compileWhere wm 1 = .ok (conds, qps, j)) :
    placeholderNums ("SELECT COUNT(*) as count FROM " ++ t ++ " WHERE " ++
      joinSep " AND " conds) = List.range' 1 qps.length := by
  show scanPH true _ = _
  rw [← List.append_nil (("SELECT COUNT(*) as count FROM " ++ t ++ " WHERE " ++
    joinSep " AND " conds).data)]
  exact stmt_where_scan "SELECT COUNT(*) as count FROM " " WHERE " (by decide)
    (fun st => rfl) (by decide) (fun st => rfl)
    (fun c hcc => (lit_head_cond (by decide) c hcc).1) ht hc safeSeg_nil

theorem delete_stmt_ph {t : String} (ht : validateIdentifier t = true)
    {wm : List (String × Value)} {conds : List String} {qps : List Value} {j : Nat}
    (hc : compileWhere wm 1 = .ok (conds, qps, j))
    {suffix : List Char} (hsuf : SafeSeg suffix) :
    scanPH true (("DELETE FROM " ++ t ++ " WHERE " ++ joinSep " AND " conds).data ++
      suffix) = List.range' 1 qps.length :=
  stmt_where_scan "DELETE FROM " " WHERE " (by decide) (fun st => rfl) (by decide)
    (fun st => rfl) (fun c hcc => (lit_head_cond (by decide) c hcc).1) ht hc hsuf

/-- The end of `deleteData`, by cases: either the RETURNING list fails
validation (no further statement issued), or the DELETE goes out as the last
statement, its text the base query followed by a placeholder-free suffix. -/
theorem deleteFinish_cases (t w : String) (qps : List Value)
    (ret : Option (List String)) (pre : List Stmt) (mr : List Row) (mc : Nat) :
    (∃ (e : String) (cols : List String), deleteFinish t w qps ret pre mr mc = .err pre e ∧
       ret = some cols ∧ 0 < cols.length ∧ sanitizeReturning cols = .error e) ∨
    (∃ (sfx : String) (resp : DeleteResp), SafeSeg sfx.data ∧
       deleteFinish t w qps ret pre mr mc =
         .ok (pre ++ [⟨"DELETE FROM " ++ t ++ " WHERE " ++ w ++ sfx, qps⟩]) resp ∧
       resp.deleted_count = mc) := by
  cases hr : ret with
  | none =>
    refine Or.inr ⟨"", ⟨t, mc, none, none⟩, safeSeg_nil, ?_, rfl⟩
    rw [String.append_empty]
    simp only [deleteFinish]
  | some cols =>
    by_cases hl : 0 < cols.length
    · cases hsr : sanitizeReturning cols with
      | error e =>
        refine Or.inl ⟨e, cols, ?_, rfl, hl, hsr⟩
        simp only [deleteFinish, if_pos hl, hsr]
      | ok rs =>
        refine Or.inr ⟨" RETURNING " ++ joinSep ", " rs, ⟨t, mc, some mr, none⟩,
          returning_suffix_safe hsr, ?_, rfl⟩
        simp only [deleteFinish, if_pos hl, hsr, String.append_assoc]
    · refine Or.inr ⟨"", ⟨t, mc,
        some (List.replicate mc ([] : List (String × Value))), none⟩, safeSeg_nil, ?_, rfl⟩
      rw [String.append_empty]
      simp only [deleteFinish, if_neg hl]

theorem deleteFinish_aligned {t : String} (ht : validateIdentifier t = true)
    {wm : List (String × Value)} {conds : List String} {qps : List Value} {j : Nat}
    (hc : compileWhere wm 1 = .ok (conds, qps, j))
    (ret : Option (List String)) (pre : List Stmt) (mr : List Row) (mc : Nat)
    (hpre : ∀ s ∈ pre, placeholderNums s.sql = List.range' 1 s.params.length) :
    ∀ s ∈ (deleteFinish t (joinSep " AND " conds) qps ret pre mr mc).trace,
      placeholderNums s.sql = List.range' 1 s.params.length := by
  intro s hs
  rcases deleteFinish_cases t (joinSep " AND " conds) qps ret pre mr mc with
    ⟨e, cols, heq, -⟩ | ⟨sfx, resp, hsfx, heq, -⟩
  · rw [heq] at hs
    exact hpre s hs
  · rw [heq] at hs
    rcases List.mem_append.mp hs with hs | hs
    · exact hpre s hs
    · have hseq : s = ⟨"DELETE FROM " ++ t ++ " WHERE " ++ joinSep " AND " conds ++ sfx,
        qps⟩ := by simpa using hs
      subst hseq
      show placeholderNums ("DELETE FROM " ++ t ++ " WHERE " ++
        joinSep " AND " conds ++ sfx) = List.range' 1 qps.length
      show scanPH true _ = _
      rw [String.data_append]
      exact delete_stmt_ph ht hc ⟨hsfx.1, hsfx.2⟩

/-- `deleteData` past its guards, reduced to the impact-estimation branch. -/
theorem deleteData_guard_reduce (p : DeleteParams) (co : Nat) (mr : List Row) (mc : Nat)
    (ht : validateIdentifier p.table = true) (hwne : ¬(p.whereMap = []))
    {conds : List String} {qps : List Value} {j : Nat}
    (hc : compileWhere p.whereMap 1 = .ok (conds, qps, j))
    (hcf : p.confirm_delete = false) :
    deleteData p true co mr mc =
      (if 100 < co then
        .err [⟨"SELECT COUNT(*) as count FROM " ++ p.table ++ " WHERE " ++
          joinSep " AND " conds, qps⟩] (confirmDeleteMsg co)
       else if co = 0 then
        .ok [⟨"SELECT COUNT(*) as count FROM " ++ p.table ++ " WHERE " ++
          joinSep " AND " conds, qps⟩]
          ⟨p.table, 0, none, some "No rows match the WHERE conditions"⟩
       else deleteFinish p.table (joinSep " AND " conds) qps p.returning
         [⟨"SELECT COUNT(*) as count FROM " ++ p.table ++ " WHERE " ++
           joinSep " AND " conds, qps⟩] mr mc) := by
  have hie : p.whereMap.isEmpty = false := by
    cases hm : p.whereMap with
    | nil => exact absurd hm hwne
    | cons a l => rfl
  simp only [deleteData, Bool.not_true, Bool.false_eq_true, if_false,
    sanitizeIdentifier_of_valid ht, hie, hc, hcf, Bool.not_false, if_true]

/-- `deleteData` with the override flag set: straight to the DELETE. -/
theorem deleteData_confirm_reduce (p : DeleteParams) (co : Nat) (mr : List Row) (mc : Nat)
    (ht : validateIdentifier p.table = true) (hwne : ¬(p.whereMap = []))
    {conds : List String} {qps : List Value} {j : Nat}
    (hc : compileWhere p.whereMap 1 = .ok (conds, qps, j))
    (hcf : p.confirm_delete = true) :
    deleteData p true co mr mc =
      deleteFinish p.table (joinSep " AND " conds) qps p.returning [] mr mc := by
  have hie : p.whereMap.isEmpty = false := by
    cases hm : p.whereMap with
    | nil => exact absurd hm hwne
    | cons a l => rfl
  simp only [deleteData, Bool.not_true, Bool.false_eq_true, if_false,
    sanitizeIdentifier_of_valid ht, hie, hc, hcf]

theorem update_sql_ph {t : String} (ht : validateIdentifier t = true)
    {dm : List (String × Value)} {sconds : List String} {sps : List Value} {i2 : Nat}
    (hs : compileSet dm 1 = .ok (sconds, sps, i2))
    {wm : List (String × Value)} {wconds : List String} {wps : List Value} {j : Nat}
    (hw : compileWhere wm i2 = .ok (wconds, wps, j))
    {tail : String} (htail : SafeSeg tail.data) :
    placeholderNums ("\n      UPDATE " ++ t ++ "\n      SET " ++ joinSep ", " sconds ++
      "\n      WHERE " ++ joinSep " AND " wconds ++ "\n    " ++ tail) =
      List.range' 1 (sps.length + wps.length) := by
  show scanPH true _ = _
  rw [show ("\n      UPDATE " ++ t ++ "\n      SET " ++ joinSep ", " sconds ++
      "\n      WHERE " ++ joinSep " AND " wconds ++ "\n    " ++ tail).data =
      ("\n      UPDATE " ++ t ++ "\n      SET " ++ joinSep ", " sconds ++
      "\n      WHERE " ++ joinSep " AND " wconds).data ++
      ((("\n    " : String)).data ++ tail.data) from by
    simp [String.data_append, List.append_assoc]]
  exact stmt_set_where_scan "\n      UPDATE " "\n      SET " "\n      WHERE "
    (by decide) (fun st => rfl) (by decide) (fun st => rfl)
    (fun c hcc => (lit_head_cond (by decide) c hcc).1)
    (by decide) (fun st => rfl) (lit_head_cond (by decide)) ht hs hw
    (safeSeg_append (safeSeg_of_lit (by decide) (by decide)) htail)

/-- `updateData` past its guards, reduced to the RETURNING branch. -/
theorem updateData_guard_reduce (p : UpdateParams) (mr : List Row) (mc : Nat)
    (ht : validateIdentifier p.table = true) (hdne : ¬(p.data = []))
    (hwne : ¬(p.whereMap = []))
    {sconds : List String} {sps : List Value} {i2 : Nat}
    (hs : compileSet p.data 1 = .ok (sconds, sps, i2))
    {wconds : List String} {wps : List Value} {j : Nat}
    (hw : compileWhere p.whereMap i2 = .ok (wconds, wps, j)) :
    updateData p true mr mc =
      (if 0 < p.returning.length then
        match sanitizeReturning p.returning with
        | .error e => .err [] e
        | .ok rs =>
          .ok [⟨"\n      UPDATE " ++ p.table ++ "\n      SET " ++ joinSep ", " sconds ++
              "\n      WHERE " ++ joinSep " AND " wconds ++ "\n    " ++
              (" RETURNING " ++ joinSep ", " rs), sps ++ wps⟩]
            ⟨p.table, mc, mr⟩
       else
        .ok [⟨"\n      UPDATE " ++ p.table ++ "\n      SET " ++ joinSep ", " sconds ++
            "\n      WHERE " ++ joinSep " AND " wconds ++ "\n    ", sps ++ wps⟩]
          ⟨p.table, mc, List.replicate mc ([] : List (String × Value))⟩) := by
  have hde : p.data.isEmpty = false := by
    cases hm : p.data with
    | nil => exact absurd hm hdne
    | cons a l => rfl
  have hie : p.whereMap.isEmpty = false := by
    cases hm : p.whereMap with
    | nil => exact absurd hm hwne
    | cons a l => rfl
  simp only [updateData, Bool.not_true, Bool.false_eq_true, if_false,
    sanitizeIdentifier_of_valid ht, hde, hie, hs, hw, String.append_assoc]

/-! ## Insert statements -/

theorem scan_group (n i : Nat) {b : List Char}
    (hb : ∀ c, b.head? = some c → isDigitC c = false ∧ ¬(c = '$')) (st : Bool) :
    scanPH st ((("(" ++ joinSep ", " (phList i n) ++ ")").data) ++ b) =
      List.range' i n ++ scanPH false b := by
  rw [show (("(" ++ joinSep ", " (phList i n) ++ ")").data) ++ b =
      '(' :: ((joinSep ", " (phList i n)).data ++ (')' :: b)) from by
    simp [String.data_append, List.append_assoc,
      show (("(" : String)).data = ['('] from rfl,
      show ((")" : String)).data = [')'] from rfl, List.singleton_append]]
  rw [scanPH_other (show ¬('(' = '$') from by decide) st]
  rw [show (!isIdentChar '(') = true from rfl]
  rw [scanPH_phJoin (fun c hc => by
    rw [show ((')' :: b).head? = some ')') from rfl] at hc
    rw [← Option.some_inj.mp hc]
    exact ⟨by decide, by decide⟩) n i]
  rw [scanPH_other (show ¬(')' = '$') from by decide) false b]
  rw [show (!isIdentChar ')') = true from rfl]
  rw [scanPH_state_irrel (fun c hc => (hb c hc).2) true false]

theorem group_head (X : String) :
    ∀ c, (("(" ++ X ++ ")")).data.head? = some c → isDigitC c = false ∧ ¬(c = '$') := by
  intro c hc
  rw [show ("(" ++ X ++ ")") = "(" ++ (X ++ ")") from by rw [String.append_assoc],
    String.data_append,
    head?_append_left (show ¬((("(" : String)).data = []) from by decide)] at hc
  rw [show ((("(" : String)).data).head? = some '(' from rfl] at hc
  rw [← Option.some_inj.mp hc]
  exact ⟨by decide, by decide⟩

theorem buildValuesRows_head (cols : List String) (r : Row) (rs : List Row) (i : Nat) :
    ∀ c, ((joinSep ", " ((buildValuesRows cols (r :: rs) i).1)).data).head? = some c →
      isDigitC c = false ∧ ¬(c = '$') := by
  intro c hc
  simp only [buildValuesRows] at hc
  rw [joinSep_eq_joinTail, String.data_append] at hc
  rcases head?_append_cases hc with hc | ⟨-, hc⟩
  · exact group_head (joinSep ", " (phList i cols.length)) c hc
  · exact joinTail_head ", " (by decide) sepComma_head c hc

theorem scanPH_valuesJoin (cols : List String) :
    ∀ (rs : List Row) (i : Nat) {b : List Char}
      (hb : ∀ c, b.head? = some c → isDigitC c = false ∧ ¬(c = '$')),
      scanPH true ((joinSep ", " ((buildValuesRows cols rs i).1)).data ++ b) =
        List.range' i (rs.length * cols.length) ++ scanPH false b := by
  intro rs
  induction rs with
  | nil =>
    intro i b hb
    rw [show (buildValuesRows cols [] i).1 = [] from rfl]
    rw [show joinSep ", " [] = "" from rfl]
    rw [show (("" : String)).data = ([] : List Char) from rfl, List.nil_append]
    rw [show ([] : List Row).length * cols.length = 0 from Nat.zero_mul _,
      List.range'_zero, List.nil_append]
    exact scanPH_state_irrel (fun c hc => (hb c hc).2) true false
  | cons r rest ih =>
    intro i b hb
    cases rest with
    | nil =>
      rw [show (buildValuesRows cols [r] i).1 =
        ["(" ++ joinSep ", " (phList i cols.length) ++ ")"] from by
          simp [buildValuesRows]]
      rw [show joinSep ", " ["(" ++ joinSep ", " (phList i cols.length) ++ ")"] =
        "(" ++ joinSep ", " (phList i cols.length) ++ ")" from rfl]
      rw [scan_group cols.length i hb true]
      rw [show ([r] : List Row).length * cols.length = cols.length from Nat.one_mul _]
    | cons r2 rest2 =>
      rw [show (buildValuesRows cols (r :: r2 :: rest2) i).1 =
        ("(" ++ joinSep ", " (phList i cols.length) ++ ")") ::
          (buildValuesRows cols (r2 :: rest2) (i + cols.length)).1 from by
          simp [buildValuesRows]]
      have hx : (buildValuesRows cols (r2 :: rest2) (i + cols.length)).1 =
          ("(" ++ joinSep ", " (phList (i + cols.length) cols.length) ++ ")") ::
          (buildValuesRows cols rest2 (i + cols.length + cols.length)).1 := by
        simp [buildValuesRows]
      rw [joinSep_eq_joinTail]
      rw [show joinTail ", " ((buildValuesRows cols (r2 :: rest2) (i + cols.length)).1) =
        ", " ++ joinSep ", " ((buildValuesRows cols (r2 :: rest2) (i + cols.length)).1)
        from by rw [hx]; rfl]
      rw [show ((("(" ++ joinSep ", " (phList i cols.length) ++ ")") ++
          (", " ++ joinSep ", " ((buildValuesRows cols (r2 :: rest2)
            (i + cols.length)).1))).data) ++ b =
        ("(" ++ joinSep ", " (phList i cols.length) ++ ")").data ++
          (((", " : String)).data ++ ((joinSep ", " ((buildValuesRows cols (r2 :: rest2)
            (i + cols.length)).1)).data ++ b)) from by
        simp [String.data_append, List.append_assoc]]
      have hbRest : ∀ c, (((joinSep ", "
          ((buildValuesRows cols (r2 :: rest2) (i + cols.length)).1)).data) ++ b).head? =
          some c → isDigitC c = false ∧ ¬(c = '$') := by
        intro c hc
        rcases head?_append_cases hc with hc | ⟨-, hc⟩
        · exact buildValuesRows_head cols r2 rest2 (i + cols.length) c hc
        · exact hb c hc
      have hbSep : ∀ c, ((((", " : String)).data ++ ((joinSep ", "
          ((buildValuesRows cols (r2 :: rest2) (i + cols.length)).1)).data ++ b)).head? =
          some c) → isDigitC c = false ∧ ¬(c = '$') := by
        intro c hc
        rw [head?_append_left (show ¬(((", " : String)).data = []) from by decide)] at hc
        exact sepComma_head c hc
      rw [scan_group cols.length i hbSep true]
      rw [scan_lit_step true ((", " : String)).data (by decide)
        (fun c hc => (hbRest c hc).1) rfl]
      rw [ih (i + cols.length) hb]
      rw [← List.append_assoc]
      have hr := List.range'_append i cols.length ((r2 :: rest2).length * cols.length) 1
      simp only [Nat.one_mul] at hr
      rw [hr]
      rw [show (r2 :: rest2).length * cols.length + cols.length =
        (r :: r2 :: rest2).length * cols.length from by
          rw [show (r :: r2 :: rest2).length = (r2 :: rest2).length + 1 from rfl,
            Nat.succ_mul]]

theorem buildConflictClause_safe {oc : OnConflict} {ccs : Option (List String)}
    {scols : List String} {s : String}
    (h : buildConflictClause oc ccs scols = .ok s)
    (hg : ∀ c ∈ scols, GoodItem c) : SafeSeg s.data := by
  have hupd : ∀ (l : List String), (∀ x ∈ l, GoodItem x) →
      SafeSeg ((joinSep ", " (l.map (fun col => col ++ " = EXCLUDED." ++ col))).data) := by
    intro l hl
    refine safeSeg_join _ (fun x hx => ?_)
    obtain ⟨col, hcol, hxe⟩ := List.mem_map.mp hx
    subst hxe
    have hcg : GoodItem col := hl col hcol
    rw [String.data_append, String.data_append]
    exact safeSeg_append (safeSeg_append (goodItem_safeSeg hcg)
      (safeSeg_of_lit (by decide) (by decide))) (goodItem_safeSeg hcg)
  have hcolsPart : ∀ {cp : String},
      (match ccs with
        | some l =>
          if 0 < l.length then
            match sanitizeCols l with
            | Except.error e => Except.error e
            | Except.ok l2 => Except.ok (" (" ++ joinSep ", " l2 ++ ")")
          else Except.ok ""
        | none => Except.ok "") = Except.ok cp → SafeSeg cp.data := by
    intro cp hcp
    cases ccs with
    | none =>
      simp only [Except.ok.injEq] at hcp
      subst hcp
      exact safeSeg_nil
    | some l =>
      simp only [] at hcp
      by_cases hl : 0 < l.length
      · rw [if_pos hl] at hcp
        cases hsc : sanitizeCols l with
        | error e => rw [hsc] at hcp; exact absurd hcp (by simp)
        | ok l2 =>
          rw [hsc] at hcp
          simp only [Except.ok.injEq] at hcp
          subst hcp
          rw [String.data_append, String.data_append]
          exact safeSeg_append (safeSeg_append (safeSeg_of_lit (by decide) (by decide))
            (safeSeg_join l2 (fun x hx => goodItem_safeSeg (sanitizeCols_items hsc x hx))))
            (safeSeg_of_lit (by decide) (by decide))
      · rw [if_neg hl] at hcp
        simp only [Except.ok.injEq] at hcp
        subst hcp
        exact safeSeg_nil
  cases oc with
  | error =>
    simp only [buildConflictClause, Except.ok.injEq] at h
    subst h
    exact safeSeg_nil
  | ignore =>
    simp only [buildConflictClause.eq_def] at h
    cases hcp : (match ccs with
      | some l =>
        if 0 < l.length then
          match sanitizeCols l with
          | Except.error e => Except.error e
          | Except.ok l2 => Except.ok (" (" ++ joinSep ", " l2 ++ ")")
        else Except.ok ""
      | none => Except.ok "") with
    | error e => rw [hcp] at h; exact absurd h (by simp)
    | ok cp =>
      rw [hcp] at h
      simp only [Except.ok.injEq] at h
      subst h
      rw [String.data_append, String.data_append]
      exact safeSeg_append (safeSeg_append (safeSeg_of_lit (by decide) (by decide))
        (hcolsPart hcp)) (safeSeg_of_lit (by decide) (by decide))
  | update =>
    simp only [buildConflictClause.eq_def] at h
    cases hcp : (match ccs with
      | some l =>
        if 0 < l.length then
          match sanitizeCols l with
          | Except.error e => Except.error e
          | Except.ok l2 => Except.ok (" (" ++ joinSep ", " l2 ++ ")")
        else Except.ok ""
      | none => Except.ok "") with
    | error e => rw [hcp] at h; exact absurd h (by simp)
    | ok cp =>
      rw [hcp] at h
      simp only [] at h
      split at h
      · simp only [Except.ok.injEq] at h
        subst h
        rw [String.data_append, String.data_append, String.data_append]
        exact safeSeg_append (safeSeg_append (safeSeg_append
          (safeSeg_of_lit (by decide) (by decide)) (hcolsPart hcp))
          (safeSeg_of_lit (by decide) (by decide)))
          (hupd _ (fun x hx => hg x (List.mem_of_mem_filter hx)))
      · simp only [Except.ok.injEq] at h
        subst h
        rw [String.data_append, String.data_append]
        exact safeSeg_append (safeSeg_append (safeSeg_of_lit (by decide) (by decide))
          (hcolsPart hcp)) (safeSeg_of_lit (by decide) (by decide))

/-- Placeholder run of the whole INSERT statement: row-major, contiguous
from 1, one run of `rows*cols` placeholders; conflict clause and RETURNING
suffix contribute nothing. -/
theorem insert_sql_ph {t : String} (ht : validateIdentifier t = true)
    {cols scols : List String} (hsc : sanitizeCols cols = .ok scols)
    (rs : List Row) {tail : String} (htail : SafeSeg tail.data) :
    placeholderNums ("\n      INSERT INTO " ++ t ++ " (" ++ joinSep ", " scols ++
      ")\n      VALUES " ++ joinSep ", " ((buildValuesRows cols rs 1).1) ++ "\n    " ++
      tail) = List.range' 1 (rs.length * cols.length) := by
  show scanPH true _ = _
  rw [show ("\n      INSERT INTO " ++ t ++ " (" ++ joinSep ", " scols ++
      ")\n      VALUES " ++ joinSep ", " ((buildValuesRows cols rs 1).1) ++ "\n    " ++
      tail).data =
    ("\n      INSERT INTO " : String).data ++ (t.data ++ ((" (" : String).data ++
      ((joinSep ", " scols).data ++ ((")\n      VALUES " : String).data ++
      ((joinSep ", " ((buildValuesRows cols rs 1).1)).data ++
      (("\n    " : String).data ++ tail.data)))))) from by
    simp [String.data_append, List.append_assoc]]
  have hscolsG : ∀ x ∈ scols, GoodItem x := sanitizeCols_items hsc
  have cTail : ∀ c, ((("\n    " : String)).data ++ tail.data).head? = some c →
      isDigitC c = false ∧ ¬(c = '$') :=
    head_append_cond (lit_head_cond (by decide)) htail.2
  have cVals : ∀ c, ((joinSep ", " ((buildValuesRows cols rs 1).1)).data ++
      ((("\n    " : String)).data ++ tail.data)).head? = some c →
      isDigitC c = false ∧ ¬(c = '$') := by
    intro c hc
    rcases head?_append_cases hc with hc | ⟨-, hc⟩
    · cases rs with
      | nil => rw [show (buildValuesRows cols [] 1).1 = [] from rfl] at hc; simp [joinSep] at hc
      | cons r rest => exact buildValuesRows_head cols r rest 1 c hc
    · exact cTail c hc
  have cM2 := head_append_cond (lit_head_cond (l := ((")\n      VALUES " : String)).data)
    (by decide)) cVals
  have cCols : ∀ c, ((joinSep ", " scols).data ++ (((")\n      VALUES " : String)).data ++
      ((joinSep ", " ((buildValuesRows cols rs 1).1)).data ++
      ((("\n    " : String)).data ++ tail.data)))).head? = some c →
      isDigitC c = false ∧ ¬(c = '$') := by
    intro c hc
    rcases head?_append_cases hc with hc | ⟨-, hc⟩
    · exact goodJoin_head hscolsG c hc
    · exact cM2 c hc
  have cM1 := head_append_cond (lit_head_cond (l := ((" (" : String)).data) (by decide)) cCols
  have cT := head_append_cond (ident_head_cond ht) cM1
  rw [scan_noPH_step (noPH_lit (by decide)) (fun c hc => (cT c hc).1)
    (show allowAfter true (("\n      INSERT INTO " : String).data) = true from rfl)]
  rw [scan_valid_ident_step ht (fun c hc => (cM1 c hc).1)]
  rw [scan_noPH_step (noPH_lit (by decide)) (fun c hc => (cCols c hc).1)
    (show allowAfter false ((" (" : String).data) = true from rfl)]
  rw [scan_noPH_step (safeSeg_join scols (fun x hx => goodItem_safeSeg (hscolsG x hx))).1
    (fun c hc => (cM2 c hc).1) rfl]
  rw [scan_noPH_step (noPH_lit (by decide)) (fun c hc => (cVals c hc).1)
    (show allowAfter (allowAfter true (joinSep ", " scols).data)
      (((")\n      VALUES " : String)).data) = true from rfl)]
  rw [scanPH_valuesJoin cols rs 1 cTail]
  rw [scan_noPH_step (noPH_lit (by decide)) (fun c hc => (htail.2 c hc).1)
    (show allowAfter false (("\n    " : String).data) = true from rfl)]
  rw [htail.1 true, List.append_nil]

theorem checkBatch_of_all : ∀ (cols : List String) (rs : List Row) (i : Nat),
    (∀ r ∈ rs, sameCols cols r = true) → checkBatch cols rs i = .ok () := by
  intro cols rs
  induction rs with
  | nil => intro i h; rfl
  | cons r rest ih =>
    intro i h
    rw [checkBatch, if_pos (by rw [h r (List.mem_cons_self r rest)])]
    exact ih (i + 1) (fun x hx => h x (List.mem_cons_of_mem _ hx))

theorem checkBatch_first_bad : ∀ (cols : List String) (rs : List Row) (i k : Nat) (r : Row),
    rs.get? k = some r → sameCols cols r = false →
    (∀ m r2, m < k → rs.get? m = some r2 → sameCols cols r2 = true) →
    checkBatch cols rs i =
      .error ("Record " ++ natStr (i + k + 1) ++
        " has different columns than the first record") := by
  intro cols rs
  induction rs with
  | nil => intro i k r hk; simp at hk
  | cons r0 rest ih =>
    intro i k r hk hbad hgood
    cases k with
    | zero =>
      have hr : r0 = r := by simpa using hk
      subst hr
      rw [checkBatch, if_neg (by rw [hbad]; simp)]
    | succ k2 =>
      have h0 : sameCols cols r0 = true := hgood 0 r0 (Nat.succ_pos k2) (by simp)
      rw [checkBatch, if_pos (by rw [h0])]
      have hrec := ih (i + 1) k2 r (by simpa using hk) hbad
        (fun m r2 hm hm2 => hgood (m + 1) r2 (by omega) (by simpa using hm2))
      rw [show i + 1 + k2 + 1 = i + (k2 + 1) + 1 from by omega] at hrec
      exact hrec

theorem buildValuesRows_snd (cols : List String) : ∀ (rs : List Row) (i : Nat),
    (buildValuesRows cols rs i).2 =
      (rs.map (fun r => cols.map (fun c => jsGet r c))).flatten := by
  intro rs
  induction rs with
  | nil => intro i; rfl
  | cons r rest ih =>
    intro i
    simp only [buildValuesRows, List.map_cons, List.flatten_cons]
    rw [ih (i + cols.length)]

theorem buildValuesRows_snd_length (cols : List String) : ∀ (rs : List Row) (i : Nat),
    ((buildValuesRows cols rs i).2).length = rs.length * cols.length := by
  intro rs
  induction rs with
  | nil => intro i; rw [show (buildValuesRows cols [] i).2 = [] from rfl]; simp
  | cons r rest ih =>
    intro i
    simp only [buildValuesRows]
    rw [List.length_append, List.length_map, ih (i + cols.length)]
    rw [show (r :: rest).length = rest.length + 1 from rfl, Nat.succ_mul]
    exact Nat.add_comm _ _

/-- `insertData` past its guards, reduced to the RETURNING branch. -/
theorem insertData_reduce (p : InsertParams) (mr : List Row) (mc : Nat)
    (ht : validateIdentifier p.table = true)
    {first : Row} {rest : List Row} (hd : p.data = first :: rest)
    (hne : ((first.map Prod.fst).isEmpty) = false)
    {scols : List String} (hsc : sanitizeCols (first.map Prod.fst) = .ok scols)
    (hcb : checkBatch (first.map Prod.fst) rest 1 = .ok ())
    {cc : String}
    (hbc : buildConflictClause p.on_conflict p.conflict_columns scols = .ok cc) :
    insertData p true mr mc =
      (if 0 < p.returning.length then
        match sanitizeReturning p.returning with
        | .error e => .err [] e
        | .ok rrs =>
          .ok [⟨"\n      INSERT INTO " ++ p.table ++ " (" ++ joinSep ", " scols ++
              ")\n      VALUES " ++
              joinSep ", " ((buildValuesRows (first.map Prod.fst) (first :: rest) 1).1) ++
              "\n    " ++ (cc ++ (" RETURNING " ++ joinSep ", " rrs)),
            (buildValuesRows (first.map Prod.fst) (first :: rest) 1).2⟩]
            ⟨p.table, mc, (first :: rest).length, mr⟩
       else
        .ok [⟨"\n      INSERT INTO " ++ p.table ++ " (" ++ joinSep ", " scols ++
            ")\n      VALUES " ++
            joinSep ", " ((buildValuesRows (first.map Prod.fst) (first :: rest) 1).1) ++
            "\n    " ++ cc,
          (buildValuesRows (first.map Prod.fst) (first :: rest) 1).2⟩]
          ⟨p.table, mc, (first :: rest).length,
            List.replicate mc ([] : List (String × Value))⟩) := by
  simp only [insertData, Bool.not_true, Bool.false_eq_true, if_false,
    sanitizeIdentifier_of_valid ht, hd, hne, hsc, hcb, hbc, String.append_assoc]

theorem sanitizeReturning_of_good : ∀ (cols : List String), (∀ c ∈ cols, GoodItem c) →
    sanitizeReturning cols = .ok cols := by
  intro cols
  induction cols with
  | nil => intro h; rfl
  | cons c rest ih =>
    intro h
    have hrest := ih (fun x hx => h x (List.mem_cons_of_mem _ hx))
    by_cases hstar : c = "*"
    · subst hstar
      rw [sanitizeReturning, if_pos rfl, hrest]
    · have hval : validateIdentifier c = true := by
        rcases h c (List.mem_cons_self c rest) with h1 | h2
        · exact absurd h1 hstar
        · exact h2
      rw [sanitizeReturning, if_neg hstar, sanitizeIdentifier_of_valid hval, hrest]

theorem sanitizeReturning_first_bad : ∀ (pre : List String) (c : String)
    (rest : List String), (∀ x ∈ pre, GoodItem x) → ¬(c = "*") →
    validateIdentifier c = false →
    sanitizeReturning (pre ++ c :: rest) = .error ("Invalid identifier: " ++ c) := by
  intro pre
  induction pre with
  | nil =>
    intro c rest hpre hstar hval
    rw [List.nil_append, sanitizeReturning, if_neg hstar,
      sanitizeIdentifier_of_invalid hval]
  | cons x xs ih =>
    intro c rest hpre hstar hval
    have hrec := ih c rest (fun z hz => hpre z (List.mem_cons_of_mem _ hz)) hstar hval
    rw [List.cons_append, sanitizeReturning]
    by_cases hx : x = "*"
    · subst hx
      rw [if_pos rfl, hrec]
    · have hxval : validateIdentifier x = true := by
        rcases hpre x (List.mem_cons_self x xs) with h1 | h2
        · exact absurd h1 hx
        · exact h2
      rw [if_neg hx, sanitizeIdentifier_of_valid hxval, hrec]

/-! ## Free-form executeQuery -/

theorem executeQuery_checks_err {q e : String} (hq : executeQueryChecks q = .error e)
    (qp : List Value) (explain efail : Bool) (pr mr : List Row) :
    executeQuery q qp explain true efail pr mr = .err [] e := by
  simp only [executeQuery, Bool.not_true, Bool.false_eq_true, if_false, hq]

theorem executeQuery_ok_reduce {q : String} (hq : executeQueryChecks q = .ok ())
    (qp : List Value) (explain efail : Bool) (pr mr : List Row) :
    executeQuery q qp explain true efail pr mr =
      .ok ((if explain then [⟨"EXPLAIN (FORMAT JSON, ANALYZE, BUFFERS) " ++ q, qp⟩]
            else []) ++ [⟨q, qp⟩])
        ⟨(if strStartsWith (jsLower (jsTrim q)) "insert" then "INSERT"
          else if strStartsWith (jsLower (jsTrim q)) "update" then "UPDATE"
          else if strStartsWith (jsLower (jsTrim q)) "delete" then "DELETE"
          else if strStartsWith (jsLower (jsTrim q)) "create" then "CREATE"
          else if strStartsWith (jsLower (jsTrim q)) "alter" then "ALTER"
          else "SELECT"),
          (mr.map convertRow).length, mr.map convertRow,
          if explain && !efail then some pr else none⟩ := by
  simp only [executeQuery, Bool.not_true, Bool.false_eq_true, if_false, hq]

/-- The three rejection families of `executeQueryChecks`, in the source's
order of precedence. -/
theorem executeQueryChecks_spec (q : String) :
    (strStartsWith (jsLower (jsTrim q)) "delete from" = true →
     strIncludes (jsLower (jsTrim q)) " where " = false →
       executeQueryChecks q =
         .error "DELETE without WHERE clause is not allowed for safety.") ∧
    ((strStartsWith (jsLower (jsTrim q)) "delete from" = false ∨
      strIncludes (jsLower (jsTrim q)) " where " = true) →
     strStartsWith (jsLower (jsTrim q)) "update " = true →
     strIncludes (jsLower (jsTrim q)) " set " = true →
     strIncludes (jsLower (jsTrim q)) " where " = false →
       executeQueryChecks q =
         .error "UPDATE without WHERE clause is not allowed for safety.") ∧
    ((strStartsWith (jsLower (jsTrim q)) "delete from" = false ∨
      strIncludes (jsLower (jsTrim q)) " where " = true) →
     (strStartsWith (jsLower (jsTrim q)) "update " = false ∨
      strIncludes (jsLower (jsTrim q)) " set " = false ∨
      strIncludes (jsLower (jsTrim q)) " where " = true) →
     dangerousMatch q = true →
       executeQueryChecks q =
         .error "Potentially dangerous SQL operation detected. Query rejected for safety.") ∧
    ((strStartsWith (jsLower (jsTrim q)) "delete from" = false ∨
      strIncludes (jsLower (jsTrim q)) " where " = true) →
     (strStartsWith (jsLower (jsTrim q)) "update " = false ∨
      strIncludes (jsLower (jsTrim q)) " set " = false ∨
      strIncludes (jsLower (jsTrim q)) " where " = true) →
     dangerousMatch q = false →
       executeQueryChecks q = .ok ()) := by
  refine ⟨fun h1 h2 => ?_, fun h1 h2 h3 h4 => ?_, fun h1 h2 h3 => ?_, fun h1 h2 h3 => ?_⟩
  · rw [executeQueryChecks]
    rw [if_pos (by rw [h1, h2]; rfl)]
  · have hc1 : (strStartsWith (jsLower (jsTrim q)) "delete from" &&
        !strIncludes (jsLower (jsTrim q)) " where ") = false := by
      rw [h4]
      rcases h1 with h1 | h1
      · rw [h1]; rfl
      · rw [h4] at h1; exact absurd h1 (by decide)
    rw [executeQueryChecks, if_neg (by rw [hc1]; simp),
      if_pos (by rw [h2, h3, h4]; rfl)]
  · have hc1 : (strStartsWith (jsLower (jsTrim q)) "delete from" &&
        !strIncludes (jsLower (jsTrim q)) " where ") = false := by
      rcases h1 with h1 | h1
      · rw [h1]; rfl
      · rw [h1]; simp
    have hc2 : (strStartsWith (jsLower (jsTrim q)) "update " &&
        strIncludes (jsLower (jsTrim q)) " set " &&
        !strIncludes (jsLower (jsTrim q)) " where ") = false := by
      rcases h2 with h2 | h2 | h2
      · rw [h2]; rfl
      · rw [h2]; simp
      · rw [h2]; simp
    rw [executeQueryChecks, if_neg (by rw [hc1]; simp), if_neg (by rw [hc2]; simp),
      if_pos (by rw [h3])]
  · have hc1 : (strStartsWith (jsLower (jsTrim q)) "delete from" &&
        !strIncludes (jsLower (jsTrim q)) " where ") = false := by
      rcases h1 with h1 | h1
      · rw [h1]; rfl
      · rw [h1]; simp
    have hc2 : (strStartsWith (jsLower (jsTrim q)) "update " &&
        strIncludes (jsLower (jsTrim q)) " set " &&
        !strIncludes (jsLower (jsTrim q)) " where ") = false := by
      rcases h2 with h2 | h2 | h2
      · rw [h2]; rfl
      · rw [h2]; simp
      · rw [h2]; simp
    rw [executeQueryChecks, if_neg (by rw [hc1]; simp), if_neg (by rw [hc2]; simp),
      if_neg (by rw [h3]; simp)]

/-! ## Claims -/

/-- C1: identifier validation accepts exactly the strings matching
`^[A-Za-z_][A-Za-z0-9_$]{0,62}$` (start letter/underscore, ≤63 chars overall,
only letters/digits/underscore/dollar); accepted strings pass through
`sanitizeIdentifier` unchanged, all others fail with the
`Invalid identifier: <s>` error, so no invalid identifier is ever embedded in
SQL text. -/
theorem c1_identifier_validation (s : String) :
    validateIdentifier s = specIdentMatch s ∧
    (specIdentMatch s = true → sanitizeIdentifier s = .ok s) ∧
    (specIdentMatch s = false →
      sanitizeIdentifier s = .error ("Invalid identifier: " ++ s)) := by
  have hequiv : validateIdentifier s = specIdentMatch s := by
    unfold validateIdentifier specIdentMatch
    cases hd : s.data with
    | nil => rfl
    | cons c cs =>
      have hlen : s.length = cs.length + 1 := by
        rw [show s.length = s.data.length from rfl, hd]
        rfl
      rw [hlen]
      show ((isIdentStart c && cs.all isIdentChar) && decide (cs.length + 1 ≤ 63)) =
        (isIdentStart c && cs.all isIdentChar && decide (cs.length ≤ 62))
      rw [show decide (cs.length + 1 ≤ 63) = decide (cs.length ≤ 62) from
        decide_eq_decide.mpr (by omega)]
  refine ⟨hequiv, fun h => ?_, fun h => ?_⟩
  · exact sanitizeIdentifier_of_valid (hequiv.trans h)
  · exact sanitizeIdentifier_of_invalid (hequiv.trans h)

/-- C1 witness: a valid identifier passes through unchanged, an invalid one
(leading digit) is rejected with the exact error message. -/
theorem c1_identifier_validation_witness :
    sanitizeIdentifier "users" = .ok "users" ∧
    sanitizeIdentifier "1bad" = .error ("Invalid identifier: " ++ "1bad") :=
  ⟨(c1_identifier_validation "users").2.1 (by decide),
   (c1_identifier_validation "1bad").2.2 (by decide)⟩

/-- C2 counterexample: with an empty Condition Set the operation does not
always reject with the missing-WHERE error — table validation (delete) and the
empty-data check (update) run first, so a delete on an invalid table name with
an empty `where` errors with `Invalid identifier: …`, and an update with empty
data and empty `where` errors with `No data provided for update`. -/
theorem c2_counterexample :
    deleteData ⟨"bad table", [], false, none⟩ true 0 [] 0 =
      .err [] ("Invalid identifier: " ++ "bad table") ∧
    ¬(deleteData ⟨"bad table", [], false, none⟩ true 0 [] 0 =
      .err [] "WHERE clause is required for DELETE operations for safety") ∧
    updateData ⟨"users", [], [], []⟩ true [] 0 =
      .err [] "No data provided for update" ∧
    ¬(updateData ⟨"users", [], [], []⟩ true [] 0 =
      .err [] "WHERE clause is required for UPDATE operations for safety") := by
  refine ⟨rfl, fun h => ?_, rfl, fun h => ?_⟩
  · have h1 : deleteData ⟨"bad table", [], false, none⟩ true 0 [] 0 =
        .err [] ("Invalid identifier: " ++ "bad table") := rfl
    rw [h1] at h
    injection h with h2 h3
    exact absurd h3 (by decide)
  · have h1 : updateData ⟨"users", [], [], []⟩ true [] 0 =
        .err [] "No data provided for update" := rfl
    rw [h1] at h
    injection h with h2 h3
    exact absurd h3 (by decide)

/-- C2 (amended): with an empty Condition Set, update and delete issue no SQL
and always fail; the failure is the missing-WHERE error whenever the checks
that run first pass (connection up, valid table name, and for update a
non-empty data map). -/
theorem c2_mandatory_where (dp : DeleteParams) (up : UpdateParams) (conn : Bool)
    (co : Nat) (mr1 : List Row) (mc1 : Nat) (mr2 : List Row) (mc2 : Nat)
    (hd : dp.whereMap = []) (hu : up.whereMap = []) :
    ((deleteData dp conn co mr1 mc1).trace = [] ∧
     (deleteData dp conn co mr1 mc1).isErr = true ∧
     (conn = true → validateIdentifier dp.table = true →
       deleteData dp conn co mr1 mc1 =
         .err [] "WHERE clause is required for DELETE operations for safety")) ∧
    ((updateData up conn mr2 mc2).trace = [] ∧
     (updateData up conn mr2 mc2).isErr = true ∧
     (conn = true → validateIdentifier up.table = true → ¬(up.data = []) →
       updateData up conn mr2 mc2 =
         .err [] "WHERE clause is required for UPDATE operations for safety")) := by
  constructor
  · have hie : dp.whereMap.isEmpty = true := by rw [hd]; rfl
    cases conn with
    | false =>
      exact ⟨rfl, rfl, fun hconn _ => absurd hconn (by decide)⟩
    | true =>
      cases hs : sanitizeIdentifier dp.table with
      | error e =>
        have heq : deleteData dp true co mr1 mc1 = .err [] e := by
          simp only [deleteData, Bool.not_true, Bool.false_eq_true, if_false, hs]
        refine ⟨by rw [heq]; rfl, by rw [heq]; rfl, fun hconn hv => ?_⟩
        rw [sanitizeIdentifier_of_valid hv] at hs
        exact absurd hs (by simp)
      | ok t =>
        have heq : deleteData dp true co mr1 mc1 =
            .err [] "WHERE clause is required for DELETE operations for safety" := by
          simp only [deleteData, Bool.not_true, Bool.false_eq_true, if_false, hs, hie,
            if_true]
        exact ⟨by rw [heq]; rfl, by rw [heq]; rfl, fun hconn hv => heq⟩
  · have hie : up.whereMap.isEmpty = true := by rw [hu]; rfl
    cases conn with
    | false =>
      exact ⟨rfl, rfl, fun hconn _ => absurd hconn (by decide)⟩
    | true =>
      cases hs : sanitizeIdentifier up.table with
      | error e =>
        have heq : updateData up true mr2 mc2 = .err [] e := by
          simp only [updateData, Bool.not_true, Bool.false_eq_true, if_false, hs]
        refine ⟨by rw [heq]; rfl, by rw [heq]; rfl, fun hconn hv => ?_⟩
        rw [sanitizeIdentifier_of_valid hv] at hs
        exact absurd hs (by simp)
      | ok t =>
        by_cases hde : up.data.isEmpty = true
        · have heq : updateData up true mr2 mc2 =
              .err [] "No data provided for update" := by
            simp only [updateData, Bool.not_true, Bool.false_eq_true, if_false, hs, hde,
              if_true]
          refine ⟨by rw [heq]; rfl, by rw [heq]; rfl, fun hconn hv hne => ?_⟩
          have : up.data = [] := by
            cases hdata : up.data with
            | nil => rfl
            | cons a l => rw [hdata] at hde; exact absurd hde (by simp)
          exact absurd this hne
        · have hde2 : up.data.isEmpty = false := by
            cases hx : up.data.isEmpty with
            | false => rfl
            | true => exact absurd hx hde
          have heq : updateData up true mr2 mc2 =
              .err [] "WHERE clause is required for UPDATE operations for safety" := by
            simp only [updateData, Bool.not_true, Bool.false_eq_true, if_false, hs, hde2,
              hie, if_true]
          exact ⟨by rw [heq]; rfl, by rw [heq]; rfl, fun hconn hv hne => heq⟩

/-- C2 witness: a delete and an update on a valid table with an empty `where`
both fail with the missing-WHERE message. -/
theorem c2_mandatory_where_witness :
    deleteData ⟨"users", [], false, none⟩ true 5 [] 0 =
      .err [] "WHERE clause is required for DELETE operations for safety" ∧
    updateData ⟨"users", [("name", Value.vStr "A")], [], []⟩ true [] 0 =
      .err [] "WHERE clause is required for UPDATE operations for safety" := by
  have h := c2_mandatory_where ⟨"users", [], false, none⟩
    ⟨"users", [("name", Value.vStr "A")], [], []⟩ true 5 [] 0 [] 0 rfl rfl
  exact ⟨h.1.2.2 rfl (by decide), h.2.2.2 rfl (by decide) (by simp)⟩

theorem head_of_lit_append (lit rest : String) {c : Char}
    (hl : lit.data.head? = some c) :
    ((lit ++ rest) : String).data.head? = some c := by
  rw [String.data_append]
  cases hld : lit.data with
  | nil => rw [hld] at hl; exact absurd hl (by simp)
  | cons x xs => rw [hld] at hl; simpa using hl

/-- C3: without the override flag, `deleteData` always runs the
`SELECT COUNT(*)` impact estimate first; a count over 100 aborts with the
confirmation-required message, a zero count short-circuits into a zero-effect
success, and any DELETE that appears in the trace is the second statement
after the estimate, possible only when the count is in 1..100.  With the
override flag, no estimation query appears in the trace at all. -/
theorem c3_delete_impact_guard (p : DeleteParams) (co : Nat) (mr : List Row) (mc : Nat)
    (ht : validateIdentifier p.table = true) (hwne : ¬(p.whereMap = []))
    {conds : List String} {qps : List Value} {j : Nat}
    (hc : compileWhere p.whereMap 1 = .ok (conds, qps, j)) :
    (p.confirm_delete = false →
      (100 < co → deleteData p true co mr mc =
        .err [⟨"SELECT COUNT(*) as count FROM " ++ p.table ++ " WHERE " ++
          joinSep " AND " conds, qps⟩] (confirmDeleteMsg co)) ∧
      (co = 0 → deleteData p true co mr mc =
        .ok [⟨"SELECT COUNT(*) as count FROM " ++ p.table ++ " WHERE " ++
          joinSep " AND " conds, qps⟩]
          ⟨p.table, 0, none, some "No rows match the WHERE conditions"⟩) ∧
      (∀ s ∈ (deleteData p true co mr mc).trace,
        strStartsWith s.sql "DELETE FROM " = true →
          (0 < co ∧ co ≤ 100) ∧
          (deleteData p true co mr mc).trace =
            [⟨"SELECT COUNT(*) as count FROM " ++ p.table ++ " WHERE " ++
              joinSep " AND " conds, qps⟩, s])) ∧
    (p.confirm_delete = true →
      ∀ s ∈ (deleteData p true co mr mc).trace,
        strStartsWith s.sql "SELECT COUNT(*) as count FROM " = false) := by
  have hcountHead : ("SELECT COUNT(*) as count FROM " ++ p.table ++ " WHERE " ++
      joinSep " AND " conds).data.head? = some 'S' := by
    rw [show "SELECT COUNT(*) as count FROM " ++ p.table ++ " WHERE " ++
      joinSep " AND " conds = "SELECT COUNT(*) as count FROM " ++
        (p.table ++ (" WHERE " ++ joinSep " AND " conds)) from by
      simp [String.append_assoc]]
    exact head_of_lit_append _ _ rfl
  have hcountNotDel : strStartsWith ("SELECT COUNT(*) as count FROM " ++ p.table ++
      " WHERE " ++ joinSep " AND " conds) "DELETE FROM " = false :=
    startsWith_false_of_head hcountHead rfl (by decide)
  constructor
  · intro hcf
    have hred := deleteData_guard_reduce p co mr mc ht hwne hc hcf
    refine ⟨fun hgt => by rw [hred, if_pos hgt],
      fun h0 => by rw [hred, if_neg (by omega), if_pos h0], fun s hs hdel => ?_⟩
    rw [hred] at hs
    by_cases hgt : 100 < co
    · rw [if_pos hgt] at hs
      have hseq : s = ⟨"SELECT COUNT(*) as count FROM " ++ p.table ++ " WHERE " ++
          joinSep " AND " conds, qps⟩ := by simpa [ToolOut.trace] using hs
      subst hseq
      rw [hcountNotDel] at hdel
      exact absurd hdel (by decide)
    · rw [if_neg hgt] at hs
      by_cases h0 : co = 0
      · rw [if_pos h0] at hs
        have hseq : s = ⟨"SELECT COUNT(*) as count FROM " ++ p.table ++ " WHERE " ++
            joinSep " AND " conds, qps⟩ := by simpa [ToolOut.trace] using hs
        subst hseq
        rw [hcountNotDel] at hdel
        exact absurd hdel (by decide)
      · rw [if_neg h0] at hs
        rcases deleteFinish_cases p.table (joinSep " AND " conds) qps p.returning
          [⟨"SELECT COUNT(*) as count FROM " ++ p.table ++ " WHERE " ++
            joinSep " AND " conds, qps⟩] mr mc with
          ⟨e, cols, heq, -⟩ | ⟨sfx, resp, hsfx, heq, -⟩
        · rw [heq] at hs
          have hseq : s = ⟨"SELECT COUNT(*) as count FROM " ++ p.table ++ " WHERE " ++
              joinSep " AND " conds, qps⟩ := by simpa [ToolOut.trace] using hs
          subst hseq
          rw [hcountNotDel] at hdel
          exact absurd hdel (by decide)
        · rw [heq] at hs
          rcases List.mem_append.mp hs with hs2 | hs2
          · have hseq : s = ⟨"SELECT COUNT(*) as count FROM " ++ p.table ++ " WHERE " ++
                joinSep " AND " conds, qps⟩ := by simpa using hs2
            subst hseq
            rw [hcountNotDel] at hdel
            exact absurd hdel (by decide)
          · have hseq : s = ⟨"DELETE FROM " ++ p.table ++ " WHERE " ++
                joinSep " AND " conds ++ sfx, qps⟩ := by simpa using hs2
            refine ⟨⟨by omega, by omega⟩, ?_⟩
            rw [hred, if_neg hgt, if_neg h0, heq, hseq]
            rfl
  · intro hcf
    have hred := deleteData_confirm_reduce p co mr mc ht hwne hc hcf
    intro s hs
    rw [hred] at hs
    rcases deleteFinish_cases p.table (joinSep " AND " conds) qps p.returning [] mr mc with
      ⟨e, cols, heq, -⟩ | ⟨sfx, resp, hsfx, heq, -⟩
    · rw [heq] at hs
      exact absurd hs (by simp [ToolOut.trace])
    · rw [heq] at hs
      have hseq : s = ⟨"DELETE FROM " ++ p.table ++ " WHERE " ++
          joinSep " AND " conds ++ sfx, qps⟩ := by simpa [ToolOut.trace] using hs
      subst hseq
      have hdh : ("DELETE FROM " ++ p.table ++ " WHERE " ++ joinSep " AND " conds ++
          sfx).data.head? = some 'D' := by
        rw [show "DELETE FROM " ++ p.table ++ " WHERE " ++ joinSep " AND " conds ++ sfx =
          "DELETE FROM " ++ (p.table ++ (" WHERE " ++ (joinSep " AND " conds ++ sfx)))
          from by simp [String.append_assoc]]
        exact head_of_lit_append _ _ rfl
      exact startsWith_false_of_head hdh rfl (by decide)

/-- C3 witness: a delete matching 150 rows without the override aborts after
the estimation query with the confirmation-required message. -/
theorem c3_delete_impact_guard_witness :
    deleteData ⟨"users", [("id", Value.vNum (.fin 1))], false, none⟩ true 150 [] 0 =
      .err [⟨"SELECT COUNT(*) as count FROM " ++ "users" ++ " WHERE " ++
        joinSep " AND " ["id = $1"], [Value.vNum (.fin 1)]⟩] (confirmDeleteMsg 150) :=
  ((c3_delete_impact_guard ⟨"users", [("id", Value.vNum (.fin 1))], false, none⟩
    150 [] 0 (by decide) (by simp) rfl).1 rfl).1 (by decide)

theorem startsWith_head {s p : String} {c : Char} (hp : p.data.head? = some c)
    (h : strStartsWith s p = true) : s.data.head? = some c := by
  cases hpd : p.data with
  | nil => rw [hpd] at hp; exact absurd hp (by simp)
  | cons d ds =>
    rw [hpd] at hp
    have hdc : d = c := Option.some_inj.mp hp
    have h2 : (d :: ds).isPrefixOf s.data = true := by
      rw [← hpd]
      exact h
    cases hsd : s.data with
    | nil => rw [hsd] at h2; exact absurd h2 (by simp [List.isPrefixOf])
    | cons x xs =>
      rw [hsd] at h2
      have h3 : ((d == x) && List.isPrefixOf ds xs) = true := h2
      have h4 : d = x := by
        simp only [Bool.and_eq_true] at h3
        exact beq_iff_eq.mp h3.1
      rw [show x = c from h4 ▸ hdc]
      rfl

/-- C4: the free-form guard rejects, with an error and an empty statement
trace, every query whose trimmed lower-cased text starts with `delete from`
without a ` where ` token, every one starting with `update ` containing
` set ` but no ` where ` token, and every text matching one of the eight
dangerous patterns (DROP TABLE/DATABASE/SCHEMA, TRUNCATE TABLE,
ALTER TABLE …DROP/…ADD, CREATE TABLE, INSERT INTO); when neither
WHERE-check fires, the dangerous match produces exactly the
dangerous-operation message. -/
theorem c4_safety_guard (q : String) (qp : List Value) (explain efail : Bool)
    (pr mr : List Row) :
    (strStartsWith (jsLower (jsTrim q)) "delete from" = true →
     strIncludes (jsLower (jsTrim q)) " where " = false →
       executeQuery q qp explain true efail pr mr =
         .err [] "DELETE without WHERE clause is not allowed for safety.") ∧
    (strStartsWith (jsLower (jsTrim q)) "update " = true →
     strIncludes (jsLower (jsTrim q)) " set " = true →
     strIncludes (jsLower (jsTrim q)) " where " = false →
       executeQuery q qp explain true efail pr mr =
         .err [] "UPDATE without WHERE clause is not allowed for safety.") ∧
    (dangerousMatch q = true →
       ∃ e, executeQuery q qp explain true efail pr mr = .err [] e ∧
         (e = "DELETE without WHERE clause is not allowed for safety." ∨
          e = "UPDATE without WHERE clause is not allowed for safety." ∨
          e = "Potentially dangerous SQL operation detected. Query rejected for safety.")) ∧
    (strStartsWith (jsLower (jsTrim q)) "delete from" = false →
     strStartsWith (jsLower (jsTrim q)) "update " = false →
     dangerousMatch q = true →
       executeQuery q qp explain true efail pr mr =
         .err [] "Potentially dangerous SQL operation detected. Query rejected for safety.") := by
  refine ⟨fun h1 h2 => ?_, fun h1 h2 h3 => ?_, fun h1 => ?_, fun h1 h2 h3 => ?_⟩
  · exact executeQuery_checks_err ((executeQueryChecks_spec q).1 h1 h2) qp explain efail pr mr
  · have hu : (jsLower (jsTrim q)).data.head? = some 'u' :=
      startsWith_head (show ("update " : String).data.head? = some 'u' from rfl) h1
    have hd : strStartsWith (jsLower (jsTrim q)) "delete from" = false :=
      startsWith_false_of_head hu rfl (by decide)
    exact executeQuery_checks_err ((executeQueryChecks_spec q).2.1 (Or.inl hd) h1 h2 h3)
      qp explain efail pr mr
  · have hchk : ∃ e, executeQueryChecks q = .error e ∧
        (e = "DELETE without WHERE clause is not allowed for safety." ∨
         e = "UPDATE without WHERE clause is not allowed for safety." ∨
         e = "Potentially dangerous SQL operation detected. Query rejected for safety.") := by
      by_cases hA : (strStartsWith (jsLower (jsTrim q)) "delete from" &&
          !strIncludes (jsLower (jsTrim q)) " where ") = true
      · rw [executeQueryChecks, if_pos hA]
        exact ⟨_, rfl, Or.inl rfl⟩
      · by_cases hB : (strStartsWith (jsLower (jsTrim q)) "update " &&
            strIncludes (jsLower (jsTrim q)) " set " &&
            !strIncludes (jsLower (jsTrim q)) " where ") = true
        · rw [executeQueryChecks, if_neg hA, if_pos hB]
          exact ⟨_, rfl, Or.inr (Or.inl rfl)⟩
        · rw [executeQueryChecks, if_neg hA, if_neg hB, if_pos h1]
          exact ⟨_, rfl, Or.inr (Or.inr rfl)⟩
    obtain ⟨e, he, hor⟩ := hchk
    exact ⟨e, executeQuery_checks_err he qp explain efail pr mr, hor⟩
  · exact executeQuery_checks_err
      ((executeQueryChecks_spec q).2.2.1 (Or.inl h1) (Or.inl h2) h3) qp explain efail pr mr

/-- C4 witness: `DROP TABLE users` is rejected with the dangerous-operation
message and nothing is executed. -/
theorem c4_safety_guard_witness :
    executeQuery "DROP TABLE users" [] false true false [] [] =
      .err [] "Potentially dangerous SQL operation detected. Query rejected for safety." :=
  (c4_safety_guard "DROP TABLE users" [] false false [] []).2.2.2
    (by decide) (by decide) (by decide)

/-! ## Placeholder alignment of every issued statement -/

/-- Every statement `deleteData` ever issues has placeholders `$1..$n` for its
`n` parameters. -/
theorem deleteData_aligned (p : DeleteParams) (conn : Bool) (co : Nat) (mr : List Row)
    (mc : Nat) : ∀ s ∈ (deleteData p conn co mr mc).trace,
      placeholderNums s.sql = List.range' 1 s.params.length := by
  intro s hs
  cases conn with
  | false => exact absurd hs (by simp [deleteData, ToolOut.trace])
  | true =>
    cases hv : sanitizeIdentifier p.table with
    | error e =>
      have heq : deleteData p true co mr mc = .err [] e := by
        simp only [deleteData, Bool.not_true, Bool.false_eq_true, if_false, hv]
      rw [heq] at hs
      exact absurd hs (by simp [ToolOut.trace])
    | ok t =>
      obtain ⟨hte, htv⟩ := sanitizeIdentifier_ok hv
      by_cases hwe : p.whereMap.isEmpty = true
      · have heq : deleteData p true co mr mc =
            .err [] "WHERE clause is required for DELETE operations for safety" := by
          simp only [deleteData, Bool.not_true, Bool.false_eq_true, if_false, hv, hwe,
            if_true]
        rw [heq] at hs
        exact absurd hs (by simp [ToolOut.trace])
      · have hwne : ¬(p.whereMap = []) := fun h => hwe (by rw [h]; rfl)
        cases hcw : compileWhere p.whereMap 1 with
        | error e =>
          have heq : deleteData p true co mr mc = .err [] e := by
            have hwe2 : p.whereMap.isEmpty = false := by
              cases hx : p.whereMap.isEmpty with
              | false => rfl
              | true => exact absurd hx hwe
            simp only [deleteData, Bool.not_true, Bool.false_eq_true, if_false, hv, hwe2,
              hcw]
          rw [heq] at hs
          exact absurd hs (by simp [ToolOut.trace])
        | ok r =>
          obtain ⟨conds, qps, jj⟩ := r
          have hcount : placeholderNums ("SELECT COUNT(*) as count FROM " ++ p.table ++
              " WHERE " ++ joinSep " AND " conds) = List.range' 1 qps.length :=
            delete_count_ph htv hcw
          cases hcf : p.confirm_delete with
          | true =>
            rw [deleteData_confirm_reduce p co mr mc htv hwne hcw hcf] at hs
            exact deleteFinish_aligned htv hcw p.returning [] mr mc (by simp) s hs
          | false =>
            rw [deleteData_guard_reduce p co mr mc htv hwne hcw hcf] at hs
            by_cases hgt : 100 < co
            · rw [if_pos hgt] at hs
              have hseq : s = ⟨"SELECT COUNT(*) as count FROM " ++ p.table ++
                  " WHERE " ++ joinSep " AND " conds, qps⟩ := by
                simpa [ToolOut.trace] using hs
              rw [hseq]
              exact hcount
            · rw [if_neg hgt] at hs
              by_cases h0 : co = 0
              · rw [if_pos h0] at hs
                have hseq : s = ⟨"SELECT COUNT(*) as count FROM " ++ p.table ++
                    " WHERE " ++ joinSep " AND " conds, qps⟩ := by
                  simpa [ToolOut.trace] using hs
                rw [hseq]
                exact hcount
              · rw [if_neg h0] at hs
                refine deleteFinish_aligned htv hcw p.returning _ mr mc ?_ s hs
                intro s2 hs2
                have hseq : s2 = ⟨"SELECT COUNT(*) as count FROM " ++ p.table ++
                    " WHERE " ++ joinSep " AND " conds, qps⟩ := by simpa using hs2
                rw [hseq]
                exact hcount

/-- Every statement `updateData` ever issues has placeholders `$1..$n` for its
`n` parameters (SET parameters first, WHERE parameters appended after). -/
theorem updateData_aligned (p : UpdateParams) (conn : Bool) (mr : List Row) (mc : Nat) :
    ∀ s ∈ (updateData p conn mr mc).trace,
      placeholderNums s.sql = List.range' 1 s.params.length := by
  intro s hs
  cases conn with
  | false => exact absurd hs (by simp [updateData, ToolOut.trace])
  | true =>
    cases hv : sanitizeIdentifier p.table with
    | error e =>
      have heq : updateData p true mr mc = .err [] e := by
        simp only [updateData, Bool.not_true, Bool.false_eq_true, if_false, hv]
      rw [heq] at hs
      exact absurd hs (by simp [ToolOut.trace])
    | ok t =>
      obtain ⟨hte, htv⟩ := sanitizeIdentifier_ok hv
      by_cases hde : p.data.isEmpty = true
      · have heq : updateData p true mr mc = .err [] "No data provided for update" := by
          simp only [updateData, Bool.not_true, Bool.false_eq_true, if_false, hv, hde,
            if_true]
        rw [heq] at hs
        exact absurd hs (by simp [ToolOut.trace])
      · have hde2 : p.data.isEmpty = false := by
          cases hx : p.data.isEmpty with
          | false => rfl
          | true => exact absurd hx hde
        have hdne : ¬(p.data = []) := fun h => hde (by rw [h]; rfl)
        by_cases hwe : p.whereMap.isEmpty = true
        · have heq : updateData p true mr mc =
              .err [] "WHERE clause is required for UPDATE operations for safety" := by
            simp only [updateData, Bool.not_true, Bool.false_eq_true, if_false, hv, hde2,
              hwe, if_true]
          rw [heq] at hs
          exact absurd hs (by simp [ToolOut.trace])
        · have hwe2 : p.whereMap.isEmpty = false := by
            cases hx : p.whereMap.isEmpty with
            | false => rfl
            | true => exact absurd hx hwe
          have hwne : ¬(p.whereMap = []) := fun h => hwe (by rw [h]; rfl)
          cases hcs : compileSet p.data 1 with
          | error e =>
            have heq : updateData p true mr mc = .err [] e := by
              simp only [updateData, Bool.not_true, Bool.false_eq_true, if_false, hv,
                hde2, hwe2, hcs]
            rw [heq] at hs
            exact absurd hs (by simp [ToolOut.trace])
          | ok rs =>
            obtain ⟨sconds, sps, i2⟩ := rs
            cases hcw : compileWhere p.whereMap i2 with
            | error e =>
              have heq : updateData p true mr mc = .err [] e := by
                simp only [updateData, Bool.not_true, Bool.false_eq_true, if_false, hv,
                  hde2, hwe2, hcs, hcw]
              rw [heq] at hs
              exact absurd hs (by simp [ToolOut.trace])
            | ok rw2 =>
              obtain ⟨wconds, wps, jj⟩ := rw2
              rw [updateData_guard_reduce p mr mc htv hdne hwne hcs hcw] at hs
              by_cases hret : 0 < p.returning.length
              · rw [if_pos hret] at hs
                cases hsr : sanitizeReturning p.returning with
                | error e =>
                  rw [hsr] at hs
                  exact absurd hs (by simp [ToolOut.trace])
                | ok rrs =>
                  rw [hsr] at hs
                  have hseq : s = ⟨"\n      UPDATE " ++ p.table ++ "\n      SET " ++
                      joinSep ", " sconds ++ "\n      WHERE " ++
                      joinSep " AND " wconds ++ "\n    " ++
                      (" RETURNING " ++ joinSep ", " rrs), sps ++ wps⟩ := by
                    simpa [ToolOut.trace] using hs
                  rw [hseq]
                  show placeholderNums _ = List.range' 1 (sps ++ wps).length
                  rw [List.length_append]
                  exact update_sql_ph htv hcs hcw (returning_suffix_safe hsr)
              · rw [if_neg hret] at hs
                have hseq : s = ⟨"\n      UPDATE " ++ p.table ++ "\n      SET " ++
                    joinSep ", " sconds ++ "\n      WHERE " ++
                    joinSep " AND " wconds ++ "\n    ", sps ++ wps⟩ := by
                  simpa [ToolOut.trace] using hs
                rw [hseq]
                show placeholderNums _ = List.range' 1 (sps ++ wps).length
                rw [List.length_append]
                rw [show "\n      UPDATE " ++ p.table ++ "\n      SET " ++
                    joinSep ", " sconds ++ "\n      WHERE " ++
                    joinSep " AND " wconds ++ "\n    " =
                  "\n      UPDATE " ++ p.table ++ "\n      SET " ++
                    joinSep ", " sconds ++ "\n      WHERE " ++
                    joinSep " AND " wconds ++ "\n    " ++ "" from
                  (String.append_empty _).symm]
                exact update_sql_ph htv hcs hcw safeSeg_nil

/-- Every statement `queryTable` ever issues has placeholders `$1..$n` for its
`n` parameters (LIMIT/OFFSET last, the count statement without them). -/
theorem queryTable_aligned (p : QueryParams) (conn : Bool) (rows : List Row)
    (totalO : Nat) : ∀ s ∈ (queryTable p conn rows totalO).trace,
      placeholderNums s.sql = List.range' 1 s.params.length := by
  intro s hs
  cases conn with
  | false => exact absurd hs (by simp [queryTable, ToolOut.trace])
  | true =>
    cases hv : sanitizeIdentifier p.table with
    | error e =>
      have heq : queryTable p true rows totalO = .err [] e := by
        simp only [queryTable, Bool.not_true, Bool.false_eq_true, if_false, hv]
      rw [heq] at hs
      exact absurd hs (by simp [ToolOut.trace])
    | ok t =>
      obtain ⟨hte, htv⟩ := sanitizeIdentifier_ok hv
      cases hbs : buildSelectClause p.columns with
      | error e =>
        have heq : queryTable p true rows totalO = .err [] e := by
          simp only [queryTable, Bool.not_true, Bool.false_eq_true, if_false, hv, hbs]
        rw [heq] at hs
        exact absurd hs (by simp [ToolOut.trace])
      | ok sel =>
        cases hbw : buildWhere p.whereMap with
        | error e =>
          have heq : queryTable p true rows totalO = .err [] e := by
            simp only [queryTable, Bool.not_true, Bool.false_eq_true, if_false, hv, hbs,
              hbw]
          rw [heq] at hs
          exact absurd hs (by simp [ToolOut.trace])
        | ok rw1 =>
          obtain ⟨wc, wps, pindex⟩ := rw1
          cases hbo : buildOrder p.sort with
          | error e =>
            have heq : queryTable p true rows totalO = .err [] e := by
              simp only [queryTable, Bool.not_true, Bool.false_eq_true, if_false, hv,
                hbs, hbw, hbo]
            rw [heq] at hs
            exact absurd hs (by simp [ToolOut.trace])
          | ok oc =>
            obtain ⟨hpi, hwh, hwscan⟩ := buildWhere_props hbw
            have hselS := buildSelectClause_safe hbs
            have hocS := buildOrder_safe hbo
            cases hp : p.pagination with
            | some pag =>
              rw [queryTable_master_pag p rows totalO pag hbs hbw hbo htv hp] at hs
              rcases List.mem_cons.mp hs with hseq | hs2
              · rw [hseq]
                show placeholderNums _ = List.range' 1 (wps ++
                  [Value.vNum (.fin (pag.limit : ℚ)),
                   Value.vNum (.fin (pag.offset : ℚ))]).length
                rw [List.length_append]
                exact queryTable_main_ph htv hselS hwh hwscan hocS hpi
              · have hseq : s = ⟨normalizeQuery ("\n        SELECT COUNT(*) as total" ++
                    "\n        FROM " ++ p.table ++ "\n        " ++ wc ++ "\n      "),
                    wps⟩ := by simpa using hs2
                rw [hseq]
                exact count_query_scan htv hwh hwscan
            | none =>
              rw [queryTable_master_none p rows totalO hbs hbw hbo htv hp] at hs
              have hseq : s = ⟨normalizeQuery ("\n      SELECT " ++ sel ++
                  "\n      FROM " ++ p.table ++ "\n      " ++ wc ++ "\n      " ++ oc ++
                  "\n      " ++ "" ++ "\n    "), wps⟩ := by
                simpa [ToolOut.trace] using hs
              rw [hseq]
              exact queryTable_main_ph_none htv hselS hwh hwscan hocS

/-- Every statement `insertData` ever issues has placeholders `$1..$n` for its
`n` parameters (row-major across the VALUES groups). -/
theorem insertData_aligned (p : InsertParams) (conn : Bool) (mr : List Row) (mc : Nat) :
    ∀ s ∈ (insertData p conn mr mc).trace,
      placeholderNums s.sql = List.range' 1 s.params.length := by
  intro s hs
  cases conn with
  | false => exact absurd hs (by simp [insertData, ToolOut.trace])
  | true =>
    cases hv : sanitizeIdentifier p.table with
    | error e =>
      have heq : insertData p true mr mc = .err [] e := by
        simp only [insertData, Bool.not_true, Bool.false_eq_true, if_false, hv]
      rw [heq] at hs
      exact absurd hs (by simp [ToolOut.trace])
    | ok t =>
      obtain ⟨hte, htv⟩ := sanitizeIdentifier_ok hv
      cases hd : p.data with
      | nil =>
        have heq : insertData p true mr mc = .err [] "No data provided for insertion" := by
          simp only [insertData, Bool.not_true, Bool.false_eq_true, if_false, hv, hd]
        rw [heq] at hs
        exact absurd hs (by simp [ToolOut.trace])
      | cons first rest =>
        by_cases hce : (first.map Prod.fst).isEmpty = true
        · have heq : insertData p true mr mc = .err [] "No columns found in data" := by
            simp only [insertData, Bool.not_true, Bool.false_eq_true, if_false, hv, hd,
              hce, if_true]
          rw [heq] at hs
          exact absurd hs (by simp [ToolOut.trace])
        · have hce2 : (first.map Prod.fst).isEmpty = false := by
            cases hx : (first.map Prod.fst).isEmpty with
            | false => rfl
            | true => exact absurd hx hce
          cases hsc : sanitizeCols (first.map Prod.fst) with
          | error e =>
            have heq : insertData p true mr mc = .err [] e := by
              simp only [insertData, Bool.not_true, Bool.false_eq_true, if_false, hv, hd,
                hce2, hsc]
            rw [heq] at hs
            exact absurd hs (by simp [ToolOut.trace])
          | ok scols =>
            cases hcb : checkBatch (first.map Prod.fst) rest 1 with
            | error e =>
              have heq : insertData p true mr mc = .err [] e := by
                simp only [insertData, Bool.not_true, Bool.false_eq_true, if_false, hv,
                  hd, hce2, hsc, hcb]
              rw [heq] at hs
              exact absurd hs (by simp [ToolOut.trace])
            | ok u =>
              cases hbc : buildConflictClause p.on_conflict p.conflict_columns scols with
              | error e =>
                have heq : insertData p true mr mc = .err [] e := by
                  simp only [insertData, Bool.not_true, Bool.false_eq_true, if_false, hv,
                    hd, hce2, hsc, hcb, hbc]
                rw [heq] at hs
                exact absurd hs (by simp [ToolOut.trace])
              | ok cc =>
                have hccS : SafeSeg cc.data :=
                  buildConflictClause_safe hbc (sanitizeCols_items hsc)
                rw [insertData_reduce p mr mc htv hd hce2 hsc hcb hbc] at hs
                by_cases hret : 0 < p.returning.length
                · rw [if_pos hret] at hs
                  cases hsr : sanitizeReturning p.returning with
                  | error e =>
                    rw [hsr] at hs
                    exact absurd hs (by simp [ToolOut.trace])
                  | ok rrs =>
                    rw [hsr] at hs
                    have hseq : s = ⟨"\n      INSERT INTO " ++ p.table ++ " (" ++
                        joinSep ", " scols ++ ")\n      VALUES " ++
                        joinSep ", " ((buildValuesRows (first.map Prod.fst)
                          (first :: rest) 1).1) ++ "\n    " ++
                        (cc ++ (" RETURNING " ++ joinSep ", " rrs)),
                        (buildValuesRows (first.map Prod.fst) (first :: rest) 1).2⟩ := by
                      simpa [ToolOut.trace] using hs
                    rw [hseq]
                    show placeholderNums _ = List.range' 1
                      ((buildValuesRows (first.map Prod.fst) (first :: rest) 1).2).length
                    rw [buildValuesRows_snd_length]
                    rw [show (first :: rest).length * (first.map Prod.fst).length =
                      (first :: rest).length * ((first.map Prod.fst) : List String).length
                      from rfl]
                    exact insert_sql_ph htv hsc (first :: rest)
                      (safeSeg_append hccS ⟨(returning_suffix_safe hsr).1,
                        (returning_suffix_safe hsr).2⟩)
                · rw [if_neg hret] at hs
                  have hseq : s = ⟨"\n      INSERT INTO " ++ p.table ++ " (" ++
                      joinSep ", " scols ++ ")\n      VALUES " ++
                      joinSep ", " ((buildValuesRows (first.map Prod.fst)
                        (first :: rest) 1).1) ++ "\n    " ++ cc,
                      (buildValuesRows (first.map Prod.fst) (first :: rest) 1).2⟩ := by
                    simpa [ToolOut.trace] using hs
                  rw [hseq]
                  show placeholderNums _ = List.range' 1
                    ((buildValuesRows (first.map Prod.fst) (first :: rest) 1).2).length
                  rw [buildValuesRows_snd_length]
                  exact insert_sql_ph htv hsc (first :: rest) hccS

/-- C5: compiled WHERE fragments carry placeholders numbered contiguously and
increasingly from the given start index, one per parameter (likewise SET
fragments), and every whole statement any of the four builders issues —
delete (with its estimation query), update (SET parameters before WHERE
parameters), query (LIMIT/OFFSET appended last) and insert (row-major VALUES)
— has placeholders exactly `$1..$n` for its `n` parameters. -/
theorem c5_placeholder_alignment :
    (∀ (wm : List (String × Value)) (i : Nat) (conds : List String) (ps : List Value)
      (j : Nat), compileWhere wm i = .ok (conds, ps, j) →
        placeholderNums (joinSep " AND " conds) = List.range' i ps.length ∧
        j = i + ps.length) ∧
    (∀ (dm : List (String × Value)) (i : Nat) (conds : List String) (ps : List Value)
      (j : Nat), compileSet dm i = .ok (conds, ps, j) →
        placeholderNums (joinSep ", " conds) = List.range' i ps.length ∧
        j = i + ps.length) ∧
    (∀ (p : DeleteParams) (conn : Bool) (co : Nat) (mr : List Row) (mc : Nat),
      ∀ s ∈ (deleteData p conn co mr mc).trace,
        placeholderNums s.sql = List.range' 1 s.params.length) ∧
    (∀ (p : UpdateParams) (conn : Bool) (mr : List Row) (mc : Nat),
      ∀ s ∈ (updateData p conn mr mc).trace,
        placeholderNums s.sql = List.range' 1 s.params.length) ∧
    (∀ (p : QueryParams) (conn : Bool) (rows : List Row) (totalO : Nat),
      ∀ s ∈ (queryTable p conn rows totalO).trace,
        placeholderNums s.sql = List.range' 1 s.params.length) ∧
    (∀ (p : InsertParams) (conn : Bool) (mr : List Row) (mc : Nat),
      ∀ s ∈ (insertData p conn mr mc).trace,
        placeholderNums s.sql = List.range' 1 s.params.length) := by
  refine ⟨fun wm i conds ps j h => ?_, fun dm i conds ps j h => ?_,
    deleteData_aligned, updateData_aligned, queryTable_aligned, insertData_aligned⟩
  · obtain ⟨hj, -, -, hscan⟩ := compileWhere_props wm i conds ps j h
    refine ⟨?_, hj⟩
    show scanPH true _ = _
    rw [← List.append_nil ((joinSep " AND " conds).data)]
    rw [hscan [] (by intro c hc; simp at hc)]
    rw [scanPH_nil, List.append_nil]
  · obtain ⟨hj, -, -, hscan⟩ := compileSet_props dm i conds ps j h
    refine ⟨?_, hj⟩
    show scanPH true _ = _
    rw [← List.append_nil ((joinSep ", " conds).data)]
    rw [hscan [] (by intro c hc; simp at hc)]
    rw [scanPH_nil, List.append_nil]

/-- C5 witness: the DELETE built for one equality condition carries exactly
the placeholder `$1` for its one parameter. -/
theorem c5_placeholder_alignment_witness :
    placeholderNums "DELETE FROM users WHERE id = $1" = List.range' 1 1 := by
  have hmem : (⟨"DELETE FROM users WHERE id = $1", [Value.vNum (.fin 7)]⟩ : Stmt) ∈
      (deleteData ⟨"users", [("id", Value.vNum (.fin 7))], true, none⟩ true 0 [] 2).trace := by
    have htr : (deleteData ⟨"users", [("id", Value.vNum (.fin 7))], true, none⟩
        true 0 [] 2).trace =
        [⟨"DELETE FROM users WHERE id = $1", [Value.vNum (.fin 7)]⟩] := rfl
    rw [htr]
    exact List.mem_cons_self _ []
  exact c5_placeholder_alignment.2.2.1
    ⟨"users", [("id", Value.vNum (.fin 7))], true, none⟩ true 0 [] 2
    ⟨"DELETE FROM users WHERE id = $1", [Value.vNum (.fin 7)]⟩ hmem

/-- C6: with a Pagination Spec, `queryTable` issues the main statement — whose
last two placeholders/parameters are LIMIT and OFFSET, after the WHERE
parameters — followed by a `SELECT COUNT(*)` with the same WHERE clause and
the parameter list without the two pagination entries, and the response block
satisfies `hasMore = (offset + limit < total)`; without a Pagination Spec a
single statement goes out, with no pagination parameters, no count statement
and no pagination block. -/
theorem c6_pagination (p : QueryParams) (rows : List Row) (totalO : Nat)
    {sel wc oc : String} {wps : List Value} {pindex : Nat}
    (hsel : buildSelectClause p.columns = .ok sel)
    (hw : buildWhere p.whereMap = .ok (wc, wps, pindex))
    (ho : buildOrder p.sort = .ok oc)
    (ht : validateIdentifier p.table = true) :
    (∀ pag, p.pagination = some pag →
      ∃ ms cs : Stmt,
        queryTable p true rows totalO =
          .ok [ms, cs] ⟨p.table, rows.length, rows,
            some ⟨totalO, pag.limit, pag.offset,
              decide (pag.offset + pag.limit < totalO)⟩⟩ ∧
        ms.params = wps ++ [.vNum (.fin (pag.limit : ℚ)),
          .vNum (.fin (pag.offset : ℚ))] ∧
        cs.params = wps ∧
        placeholderNums ms.sql =
          List.range' 1 wps.length ++ [wps.length + 1, wps.length + 2] ∧
        placeholderNums cs.sql = List.range' 1 wps.length) ∧
    (p.pagination = none →
      ∃ ms : Stmt,
        queryTable p true rows totalO = .ok [ms] ⟨p.table, rows.length, rows, none⟩ ∧
        ms.params = wps ∧ placeholderNums ms.sql = List.range' 1 wps.length) := by
  obtain ⟨hpi, hwh, hwscan⟩ := buildWhere_props hw
  have hselS := buildSelectClause_safe hsel
  have hocS := buildOrder_safe ho
  constructor
  · intro pag hp
    refine ⟨⟨normalizeQuery ("\n      SELECT " ++ sel ++ "\n      FROM " ++ p.table ++
        "\n      " ++ wc ++ "\n      " ++ oc ++ "\n      " ++
        ("LIMIT $" ++ natStr pindex ++ " OFFSET $" ++ natStr (pindex + 1)) ++ "\n    "),
        wps ++ [.vNum (.fin (pag.limit : ℚ)), .vNum (.fin (pag.offset : ℚ))]⟩,
      ⟨normalizeQuery ("\n        SELECT COUNT(*) as total" ++ "\n        FROM " ++
        p.table ++ "\n        " ++ wc ++ "\n      "), wps⟩,
      queryTable_master_pag p rows totalO pag hsel hw ho ht hp, rfl, rfl, ?_, ?_⟩
    · rw [range'_extend_two wps.length]
      exact queryTable_main_ph ht hselS hwh hwscan hocS hpi
    · exact count_query_scan ht hwh hwscan
  · intro hp
    exact ⟨⟨normalizeQuery ("\n      SELECT " ++ sel ++ "\n      FROM " ++ p.table ++
        "\n      " ++ wc ++ "\n      " ++ oc ++ "\n      " ++ "" ++ "\n    "), wps⟩,
      queryTable_master_none p rows totalO hsel hw ho ht hp, rfl,
      queryTable_main_ph_none ht hselS hwh hwscan hocS⟩

/-- C6 witness: a paginated query on `users` with limit 10, offset 5 and total
20 issues the main and count statements with the stated parameters,
placeholders and `hasMore`. -/
theorem c6_pagination_witness :
    ∃ ms cs : Stmt,
      queryTable ⟨"users", none, none, some ⟨10, 5⟩, none⟩ true [] 20 =
        .ok [ms, cs] ⟨"users", 0, [],
          some ⟨20, 10, 5, decide ((5 : Nat) + 10 < 20)⟩⟩ ∧
      ms.params = [] ++ [.vNum (.fin ((10 : Nat) : ℚ)),
        .vNum (.fin ((5 : Nat) : ℚ))] ∧
      cs.params = [] ∧
      placeholderNums ms.sql =
        List.range' 1 (([] : List Value)).length ++
          [(([] : List Value)).length + 1, (([] : List Value)).length + 2] ∧
      placeholderNums cs.sql = List.range' 1 (([] : List Value)).length :=
  (c6_pagination ⟨"users", none, none, some ⟨10, 5⟩, none⟩ [] 20 rfl rfl rfl
    (by decide)).1 ⟨10, 5⟩ rfl

/-- C7 counterexample: a batch whose second record has different columns from
the first is not always rejected with the record-index error — column
validation of the first record runs before the batch check, so a first record
with an invalid column name makes the insert fail with `Invalid identifier:
bad col` instead of naming record 2. -/
theorem c7_counterexample :
    insertData ⟨"users", [[("bad col", Value.vNull)], [("other", Value.vNull)]],
      .error, none, []⟩ true [] 0 = .err [] ("Invalid identifier: " ++ "bad col") ∧
    sameCols (([("bad col", Value.vNull)] : Row).map Prod.fst)
      [("other", Value.vNull)] = false ∧
    ¬(insertData ⟨"users", [[("bad col", Value.vNull)], [("other", Value.vNull)]],
      .error, none, []⟩ true [] 0 =
      .err [] ("Record " ++ natStr 2 ++
        " has different columns than the first record")) := by
  refine ⟨rfl, by decide, fun h => ?_⟩
  have h1 : insertData ⟨"users", [[("bad col", Value.vNull)], [("other", Value.vNull)]],
      .error, none, []⟩ true [] 0 = .err [] ("Invalid identifier: " ++ "bad col") := rfl
  rw [h1] at h
  injection h with h2 h3
  exact absurd h3 (by decide)

/-- C7 (amended): the batch check compares key sets (same count, same keys,
order irrelevant); once the first record's columns validate, a batch with a
mismatching record is rejected — no SQL issued — with the error naming the
first mismatching record's 1-based index, and an all-matching batch yields a
single INSERT whose parameters are row-major in the first record's column
order with placeholders `$1..$(rows·cols)`. -/
theorem c7_batch (p : InsertParams) (mr : List Row) (mc : Nat)
    (ht : validateIdentifier p.table = true)
    {first : Row} {rest : List Row} (hd : p.data = first :: rest)
    (hne : ((first.map Prod.fst).isEmpty) = false)
    {scols : List String} (hsc : sanitizeCols (first.map Prod.fst) = .ok scols)
    {cc : String}
    (hbc : buildConflictClause p.on_conflict p.conflict_columns scols = .ok cc)
    {rrs : List String} (hret : sanitizeReturning p.returning = .ok rrs) :
    (∀ (cols : List String) (r : Row), sameCols cols r = true ↔
      ((r.map Prod.fst).length = cols.length ∧ ∀ k ∈ r.map Prod.fst, k ∈ cols)) ∧
    (∀ (k : Nat) (r : Row), rest.get? k = some r →
      sameCols (first.map Prod.fst) r = false →
      (∀ m r2, m < k → rest.get? m = some r2 →
        sameCols (first.map Prod.fst) r2 = true) →
      insertData p true mr mc =
        .err [] ("Record " ++ natStr (k + 2) ++
          " has different columns than the first record")) ∧
    ((∀ r ∈ rest, sameCols (first.map Prod.fst) r = true) →
      ∃ s : Stmt, (insertData p true mr mc).trace = [s] ∧
        s.params = ((first :: rest).map (fun r =>
          (first.map Prod.fst).map (fun c => jsGet r c))).flatten ∧
        placeholderNums s.sql =
          List.range' 1 ((first :: rest).length * (first.map Prod.fst).length)) := by
  have hv : sanitizeIdentifier p.table = .ok p.table := sanitizeIdentifier_of_valid ht
  refine ⟨fun cols r => ?_, fun k r hk hbad hgood => ?_, fun hall => ?_⟩
  · show (((r.map Prod.fst).length == cols.length) &&
      (r.map Prod.fst).all (fun k => cols.contains k)) = true ↔ _
    simp [List.all_eq_true, List.contains, List.elem_iff]
  · have hcb := checkBatch_first_bad (first.map Prod.fst) rest 1 k r hk hbad hgood
    rw [show 1 + k + 1 = k + 2 from by omega] at hcb
    simp only [insertData, Bool.not_true, Bool.false_eq_true, if_false, hv, hd, hne,
      hsc, hcb]
  · have hcb := checkBatch_of_all (first.map Prod.fst) rest 1 hall
    have hred := insertData_reduce p mr mc ht hd hne hsc hcb hbc
    have hccS : SafeSeg cc.data := buildConflictClause_safe hbc (sanitizeCols_items hsc)
    by_cases hr0 : 0 < p.returning.length
    · refine ⟨⟨"\n      INSERT INTO " ++ p.table ++ " (" ++ joinSep ", " scols ++
        ")\n      VALUES " ++ joinSep ", " ((buildValuesRows (first.map Prod.fst)
          (first :: rest) 1).1) ++ "\n    " ++ (cc ++ (" RETURNING " ++
          joinSep ", " rrs)),
        (buildValuesRows (first.map Prod.fst) (first :: rest) 1).2⟩, ?_, ?_, ?_⟩
      · rw [hred, if_pos hr0, hret]
        rfl
      · exact buildValuesRows_snd (first.map Prod.fst) (first :: rest) 1
      · exact insert_sql_ph ht hsc (first :: rest)
          (safeSeg_append hccS (returning_suffix_safe hret))
    · refine ⟨⟨"\n      INSERT INTO " ++ p.table ++ " (" ++ joinSep ", " scols ++
        ")\n      VALUES " ++ joinSep ", " ((buildValuesRows (first.map Prod.fst)
          (first :: rest) 1).1) ++ "\n    " ++ cc,
        (buildValuesRows (first.map Prod.fst) (first :: rest) 1).2⟩, ?_, ?_, ?_⟩
      · rw [hred, if_neg hr0]
        rfl
      · exact buildValuesRows_snd (first.map Prod.fst) (first :: rest) 1
      · exact insert_sql_ph ht hsc (first :: rest) hccS

/-- C7 witness: a two-record batch with the same keys in swapped order builds
one INSERT with parameters in the first record's column order, row-major, and
placeholders `$1..$4`. -/
theorem c7_batch_witness :
    ∃ s : Stmt,
      (insertData ⟨"users", [[("a", Value.vNum (.fin 1)), ("b", Value.vNull)],
        [("b", Value.vStr "x"), ("a", Value.vNull)]], .error, none, []⟩
        true [] 0).trace = [s] ∧
      s.params = (([[("a", Value.vNum (.fin 1)), ("b", Value.vNull)],
        [("b", Value.vStr "x"), ("a", Value.vNull)]] : List Row).map (fun r =>
          (([("a", Value.vNum (.fin 1)), ("b", Value.vNull)] : Row).map Prod.fst).map
            (fun c => jsGet r c))).flatten ∧
      placeholderNums s.sql = List.range' 1 4 :=
  (c7_batch ⟨"users", [[("a", Value.vNum (.fin 1)), ("b", Value.vNull)],
      [("b", Value.vStr "x"), ("a", Value.vNull)]], .error, none, []⟩ [] 0
    (by decide) rfl rfl rfl rfl rfl).2.2
    (by
      intro r hr
      have hre : r = [("b", Value.vStr "x"), ("a", Value.vNull)] := by simpa using hr
      rw [hre]
      decide)

/-- C8: the free-form result normaliser replaces every non-empty string field
that `Number()` parses (fully) by the parsed number, and leaves empty strings,
unparsable strings and non-string values unchanged; a successful free-form
execution returns exactly the row-wise converted result set. -/
theorem c8_numeric_coercion :
    (∀ (s : String), ¬(s = "") → ∀ n, jsNumber s = some n →
      convertVal (.vStr s) = .vNum n) ∧
    (∀ (s : String), ¬(s = "") → jsNumber s = none → convertVal (.vStr s) = .vStr s) ∧
    (convertVal (.vStr "") = .vStr "") ∧
    (∀ v : Value, (∀ s, ¬(v = .vStr s)) → convertVal v = v) ∧
    (∀ (q : String) (qp : List Value) (explain efail : Bool) (pr mr : List Row)
      (tr : List Stmt) (resp : ExecResp),
      executeQuery q qp explain true efail pr mr = .ok tr resp →
      resp.data = mr.map convertRow ∧ resp.row_count = (mr.map convertRow).length) := by
  refine ⟨fun s hs n hn => ?_, fun s hs hn => ?_, rfl, fun v hv => ?_,
    fun q qp explain efail pr mr tr resp h => ?_⟩
  · simp only [convertVal, if_pos hs, hn, Bool.or_true, if_true]
  · simp only [convertVal, if_pos hs, hn]
  · cases v with
    | vStr s => exact absurd rfl (hv s)
    | vNull => rfl
    | vBool b => rfl
    | vNum n => rfl
    | vArr l => rfl
  · cases hchk : executeQueryChecks q with
    | error e =>
      rw [executeQuery_checks_err hchk qp explain efail pr mr] at h
      exact absurd h (by simp)
    | ok u =>
      cases u
      rw [executeQuery_ok_reduce hchk qp explain efail pr mr] at h
      injection h with h1 h2
      rw [← h2]
      exact ⟨rfl, rfl⟩

/-- C8 witness: the numeric string `"42"` is coerced to the number 42, the
non-numeric string `"x"` is kept, in a successful free-form execution. -/
theorem c8_numeric_coercion_witness :
    ([[("a", Value.vNum (.fin 42)), ("b", Value.vStr "x")]] : List Row) =
      ([[("a", Value.vStr "42"), ("b", Value.vStr "x")]] : List Row).map convertRow ∧
    (1 : Nat) = (([[("a", Value.vStr "42"), ("b", Value.vStr "x")]] : List Row).map
      convertRow).length :=
  c8_numeric_coercion.2.2.2.2 "SELECT 1" [] false false []
    [[("a", Value.vStr "42"), ("b", Value.vStr "x")]] [⟨"SELECT 1", []⟩]
    ⟨"SELECT", 1, [[("a", Value.vNum (.fin 42)), ("b", Value.vStr "x")]], none⟩ rfl

/-- C9: the pagination schema defaults an absent limit to 50 and an absent
offset to 0, rejects a limit that is non-integer or outside [1,1000] and an
offset that is non-integer or negative, accepts in-range integers, and a
rejected pagination object reaches the caller before any SQL statement is
issued. -/
theorem c9_pagination_schema :
    (parsePagination none none = .ok ⟨50, 0⟩) ∧
    (∀ off r, parsePagination none off = .ok r → r.limit = 50) ∧
    (∀ lf r, parsePagination lf none = .ok r → r.offset = 0) ∧
    (∀ (q : ℚ) (off : Option Value), (¬(q.den = 1) ∨ q < 1 ∨ 1000 < q) →
      ∃ e, parsePagination (some (.vNum (.fin q))) off = .error e) ∧
    (∀ (lf : Option Value) (q : ℚ), (¬(q.den = 1) ∨ q < 0) →
      ∃ e, parsePagination lf (some (.vNum (.fin q))) = .error e) ∧
    (∀ (q1 q2 : ℚ), q1.den = 1 → 1 ≤ q1 → q1 ≤ 1000 → q2.den = 1 → 0 ≤ q2 →
      parsePagination (some (.vNum (.fin q1))) (some (.vNum (.fin q2))) =
        .ok ⟨q1.num.toNat, q2.num.toNat⟩) ∧
    (∀ (table : String) (cols : Option (List String))
      (wm : Option (List (String × Value))) (lf off : Option Value)
      (so : Option SortSpec) (conn : Bool) (rows : List Row) (totalO : Nat) (e : String),
      parsePagination lf off = .error e →
      queryTableRaw table cols wm (some (lf, off)) so conn rows totalO = .err [] e) := by
  refine ⟨rfl, fun off r h => ?_, fun lf r h => ?_, fun q off hq => ?_,
    fun lf q hq => ?_, fun q1 q2 hd1 hlo hhi hd2 hnn => ?_,
    fun table cols wm lf off so conn rows totalO e hperr => ?_⟩
  · rw [parsePagination.eq_def] at h
    simp only [] at h
    cases hor : (match off with
      | none => Except.ok 0
      | some (.vNum (.fin q)) =>
        if ¬(q.den = 1) then Except.error "Expected integer, received float"
        else if q < 0 then Except.error "Number must be greater than or equal to 0"
        else Except.ok q.num.toNat
      | some (.vNum _) => Except.error "Expected integer, received float"
      | some _ => Except.error "Expected number") with
    | error e => rw [hor] at h; exact absurd h (by simp)
    | ok o =>
      rw [hor] at h
      simp only [Except.ok.injEq] at h
      rw [← h]
  · rw [parsePagination.eq_def] at h
    simp only [] at h
    cases hor : (match lf with
      | none => Except.ok 50
      | some (.vNum (.fin q)) =>
        if ¬(q.den = 1) then Except.error "Expected integer, received float"
        else if q < 1 then Except.error "Number must be greater than or equal to 1"
        else if 1000 < q then Except.error "Number must be less than or equal to 1000"
        else Except.ok q.num.toNat
      | some (.vNum _) => Except.error "Expected integer, received float"
      | some _ => Except.error "Expected number") with
    | error e => rw [hor] at h; exact absurd h (by simp)
    | ok lim =>
      rw [hor] at h
      simp only [Except.ok.injEq] at h
      rw [← h]
  · rw [parsePagination.eq_def]
    simp only []
    rcases hq with hq | hq | hq
    · rw [if_pos hq]
      exact ⟨_, rfl⟩
    · by_cases hden : q.den = 1
      · rw [if_neg (by intro hh; exact hh hden), if_pos hq]
        exact ⟨_, rfl⟩
      · rw [if_pos hden]
        exact ⟨_, rfl⟩
    · by_cases hden : q.den = 1
      · by_cases hq1 : q < 1
        · rw [if_neg (by intro hh; exact hh hden), if_pos hq1]
          exact ⟨_, rfl⟩
        · rw [if_neg (by intro hh; exact hh hden), if_neg hq1, if_pos hq]
          exact ⟨_, rfl⟩
      · rw [if_pos hden]
        exact ⟨_, rfl⟩
  · rw [parsePagination.eq_def]
    simp only []
    cases hlf : (match lf with
      | none => Except.ok 50
      | some (.vNum (.fin q)) =>
        if ¬(q.den = 1) then Except.error "Expected integer, received float"
        else if q < 1 then Except.error "Number must be greater than or equal to 1"
        else if 1000 < q then Except.error "Number must be less than or equal to 1000"
        else Except.ok q.num.toNat
      | some (.vNum _) => Except.error "Expected integer, received float"
      | some _ => Except.error "Expected number") with
    | error e => exact ⟨_, rfl⟩
    | ok lim =>
      rcases hq with hq | hq
      · rw [if_pos hq]
        exact ⟨_, rfl⟩
      · by_cases hden : q.den = 1
        · rw [if_neg (by intro hh; exact hh hden), if_pos hq]
          exact ⟨_, rfl⟩
        · rw [if_pos hden]
          exact ⟨_, rfl⟩
  · rw [parsePagination.eq_def]
    simp only []
    rw [if_neg (by intro hh; exact hh hd1), if_neg (not_lt.mpr hlo),
      if_neg (not_lt.mpr hhi), if_neg (by intro hh; exact hh hd2),
      if_neg (not_lt.mpr hnn)]
  · simp only [queryTableRaw, hperr]

/-- C9 witness: an out-of-range limit is rejected, in-range integers parse
with their values, and a limit of 0 supplied through the tool's entry point
fails before any statement is issued. -/
theorem c9_pagination_schema_witness :
    (∃ e, parsePagination (some (Value.vNum (.fin 2000))) none = .error e) ∧
    parsePagination (some (Value.vNum (.fin 25))) (some (Value.vNum (.fin 0))) =
      .ok ⟨(25 : ℚ).num.toNat, (0 : ℚ).num.toNat⟩ ∧
    queryTableRaw "users" none none (some (some (Value.vNum (.fin 0)), none)) none
      true [] 0 = .err [] "Number must be greater than or equal to 1" :=
  ⟨c9_pagination_schema.2.2.2.1 2000 none (Or.inr (Or.inr (by decide))),
   c9_pagination_schema.2.2.2.2.2.1 25 0 (by decide) (by decide) (by decide)
     (by decide) (by decide),
   c9_pagination_schema.2.2.2.2.2.2 "users" none none (some (Value.vNum (.fin 0)))
     none none true [] 0 "Number must be greater than or equal to 1" rfl⟩

/-- C10 counterexample: an invalid RETURNING element does not always fail the
request — `deleteData`'s zero-count short-circuit returns a success response
before the RETURNING list is ever validated. -/
theorem c10_counterexample :
    deleteData ⟨"users", [("id", Value.vNull)], false, some ["bad col"]⟩ true 0 [] 0 =
      .ok [⟨"SELECT COUNT(*) as count FROM users WHERE id IS NULL", []⟩]
        ⟨"users", 0, none, some "No rows match the WHERE conditions"⟩ ∧
    validateIdentifier "bad col" = false ∧
    (deleteData ⟨"users", [("id", Value.vNull)], false, some ["bad col"]⟩
      true 0 [] 0).isErr = false :=
  ⟨rfl, by decide, rfl⟩

/-- C10 (amended): a RETURNING list whose every element is the literal `*` or
a valid identifier passes through unchanged — `*` is never validated, at any
position and in any combination — while a list containing any other element
fails with `Invalid identifier: <element>` (the first such element); the
failure reaches the caller as the request's error in update and insert
(before their statement is issued) and in delete whenever the DELETE is
actually attempted, but delete's impact guard can short-circuit first: a zero
count returns success and an over-threshold count aborts, in both cases
without validating the RETURNING list. -/
theorem c10_returning :
    (∀ cols : List String, (∀ c ∈ cols, c = "*" ∨ validateIdentifier c = true) →
      sanitizeReturning cols = .ok cols) ∧
    (∀ (pre : List String) (c : String) (rest : List String),
      (∀ x ∈ pre, x = "*" ∨ validateIdentifier x = true) → ¬(c = "*") →
      validateIdentifier c = false →
      sanitizeReturning (pre ++ c :: rest) = .error ("Invalid identifier: " ++ c)) ∧
    (∀ (p : UpdateParams) (mr : List Row) (mc : Nat),
      validateIdentifier p.table = true → ¬(p.data = []) → ¬(p.whereMap = []) →
      ∀ sconds sps i2, compileSet p.data 1 = .ok (sconds, sps, i2) →
      ∀ wconds wps j, compileWhere p.whereMap i2 = .ok (wconds, wps, j) →
      0 < p.returning.length → ∀ e, sanitizeReturning p.returning = .error e →
      updateData p true mr mc = .err [] e) ∧
    (∀ (p : InsertParams) (mr : List Row) (mc : Nat),
      validateIdentifier p.table = true →
      ∀ (first : Row) (rest : List Row), p.data = first :: rest →
      ((first.map Prod.fst).isEmpty) = false →
      ∀ scols, sanitizeCols (first.map Prod.fst) = .ok scols →
      checkBatch (first.map Prod.fst) rest 1 = .ok () →
      ∀ cc, buildConflictClause p.on_conflict p.conflict_columns scols = .ok cc →
      0 < p.returning.length → ∀ e, sanitizeReturning p.returning = .error e →
      insertData p true mr mc = .err [] e) ∧
    (∀ (p : DeleteParams) (co : Nat) (mr : List Row) (mc : Nat),
      validateIdentifier p.table = true → ¬(p.whereMap = []) →
      ∀ conds qps j, compileWhere p.whereMap 1 = .ok (conds, qps, j) →
      ∀ cols, p.returning = some cols → 0 < cols.length →
      ∀ e, sanitizeReturning cols = .error e →
      (p.confirm_delete = true → deleteData p true co mr mc = .err [] e) ∧
      (p.confirm_delete = false → 0 < co → co ≤ 100 →
        deleteData p true co mr mc =
          .err [⟨"SELECT COUNT(*) as count FROM " ++ p.table ++ " WHERE " ++
            joinSep " AND " conds, qps⟩] e) ∧
      (p.confirm_delete = false → co = 0 →
        deleteData p true co mr mc =
          .ok [⟨"SELECT COUNT(*) as count FROM " ++ p.table ++ " WHERE " ++
            joinSep " AND " conds, qps⟩]
          ⟨p.table, 0, none, some "No rows match the WHERE conditions"⟩)) := by
  refine ⟨fun cols h => sanitizeReturning_of_good cols h,
    fun pre c rest hp hs hv => sanitizeReturning_first_bad pre c rest hp hs hv,
    fun p mr mc ht hdne hwne sconds sps i2 hcs wconds wps j hcw hr0 e hre => ?_,
    fun p mr mc ht first rest hd hne scols hsc hcb cc hbc hr0 e hre => ?_,
    fun p co mr mc ht hwne conds qps j hcw cols hcols hl e hre => ?_⟩
  · rw [updateData_guard_reduce p mr mc ht hdne hwne hcs hcw, if_pos hr0, hre]
  · rw [insertData_reduce p mr mc ht hd hne hsc hcb hbc, if_pos hr0, hre]
  · refine ⟨fun hcf => ?_, fun hcf h1 h2 => ?_, fun hcf h0 => ?_⟩
    · rw [deleteData_confirm_reduce p co mr mc ht hwne hcw hcf]
      simp only [deleteFinish, hcols, if_pos hl, hre]
    · rw [deleteData_guard_reduce p co mr mc ht hwne hcw hcf,
        if_neg (by omega), if_neg (by omega)]
      simp only [deleteFinish, hcols, if_pos hl, hre]
    · rw [deleteData_guard_reduce p co mr mc ht hwne hcw hcf,
        if_neg (by omega), if_pos h0]

/-- C10 witness: `["*", "id"]` passes through untouched, and an update whose
RETURNING list contains `bad col` fails with the identifier error before any
statement is issued. -/
theorem c10_returning_witness :
    sanitizeReturning ["*", "id"] = .ok ["*", "id"] ∧
    updateData ⟨"users", [("a", Value.vNull)], [("id", Value.vNull)], ["*", "bad col"]⟩
      true [] 0 = .err [] ("Invalid identifier: " ++ "bad col") :=
  ⟨c10_returning.1 ["*", "id"] (by decide),
   c10_returning.2.2.1 ⟨"users", [("a", Value.vNull)], [("id", Value.vNull)],
     ["*", "bad col"]⟩ [] 0 (by decide) (by simp) (by simp) _ _ _ rfl _ _ _ rfl
     (by decide) ("Invalid identifier: " ++ "bad col") rfl⟩

end PostgresMcp
